import Mathlib

/-!
# ViewMarq display driver: embedding of `src/ViewMarq.h` and `src/ViewMarq.cpp`

Conventions of the embedding.

* A C array of `N` elements is a `List Nat` of length `N`.  A `char` is a byte
  `0..255` (plain `char` is unsigned on the ARM boards the library targets), a
  `uint16_t` is a word `0..65535`.
* A store outside an array is undefined behaviour in the source; here it makes
  the enclosing operation return `none`.
* A `const char text[]` argument is the list of the characters it points to; the
  terminating NUL is the end of the list or the first `0` in it.
* `int` values are `Int`; positions inside the buffers are `Nat` (they start at
  zero and only grow).
* The transport (`VMClient`, `client`, `address`) is outside the display state.
-/

namespace ViewMarq

/-! ## Constants of `ViewMarq.h` -/

def GREEN : Int := 0
def RED : Int := 1
def AMBER : Int := 2
def ADVANCED : Int := 3

def SCROLL_LEFT : Int := 0
def SCROLL_RIGHT : Int := 1
def SCROLL_UP : Int := 2
def SCROLL_DOWN : Int := 3
def LEFT_JUSTIFIED : Int := 4
def CENTER_JUSTIFIED : Int := 5
def RIGHT_JUSTIFIED : Int := 6

def SLOW : Int := 0
def MEDIUM : Int := 1
def FAST : Int := 2

def NONE : Int := 3

/-! ## Bytes, strings and arrays -/

/-- Conversion of an `int` to `char` on assignment (`arr[pos] = 48 + x`). -/
def toChar (v : Int) : Nat := (v % 256).toNat

/-- Character codes of a string literal of the source. -/
def lit (s : String) : List Nat := s.toList.map Char.toNat

/-- Characters of the C string that starts a buffer: everything before the first NUL. -/
def cstr (buf : List Nat) : List Nat := buf.takeWhile (fun c => c != 0)

/-- Reading a `char` array as a string (`strlen`, `writeToArr` source): needs a NUL inside. -/
def readStr (buf : List Nat) : Option (List Nat) :=
  if 0 ∈ buf then some (cstr buf) else none

/-- One array store `a[i] = v`. -/
def store (a : List Nat) (i : Nat) (v : Nat) : Option (List Nat) :=
  if i < a.length then some (a.set i v) else none

/-- Effect of `memset(a, 0, n)` on the first `n` elements of a byte array. -/
def memsetZero (a : List Nat) (n : Nat) : List Nat :=
  List.replicate (min n a.length) 0 ++ a.drop n

/-! ## Data model -/

/-- `struct Line` of `ViewMarq.h`; `text` is the `char text[256]` field. -/
structure Line where
  isEnabled : Bool
  number : Int
  textSize : Int
  color : Int
  scrollType : Int
  scrollSpeed : Int
  blink : Int
  variablePresent : Int
  text : List Nat

/-- Default member initialisers of `struct Line`; `number` and `text` have none. -/
def Line.init (number : Int) (text : List Nat) : Line :=
  { isEnabled := false, number := number, textSize := 0, color := 0, scrollType := 4,
    scrollSpeed := 1, blink := 3, variablePresent := 0, text := text }

instance : Inhabited Line := ⟨Line.init 0 (List.replicate 256 0)⟩

/-- Data members of `class VMDisplay`. `decLoc` and `strLoc` are offsets into `commandString`
(`none` for `NULL`). -/
structure VMDisplay where
  ID : Int
  completed : Bool
  maintenanceCommand : Int
  commandData : List Nat
  commandString : List Nat
  decLoc : Option Nat
  strLoc : Option Nat
  line : Fin 4 → Line
  messageLength : Int

/-- Element `line[k]` of the four-line array. Every call site has `k < 4`. -/
def VMDisplay.lineAt (st : VMDisplay) (k : Nat) : Line :=
  if h : k < 4 then st.line ⟨k, h⟩ else default

/-- Assignment to a member of `line[i]`. -/
def VMDisplay.modifyLine (st : VMDisplay) (i : Int) (f : Line → Line) : VMDisplay :=
  { st with line := fun j => if (j.val : Int) = i then f (st.line j) else st.line j }

/-! ## Line setters (`ViewMarq.cpp` 52-219) -/

def setLine (st : VMDisplay) (lineSelected : Int) (state : Bool) : VMDisplay :=
  if lineSelected > 4 ∨ lineSelected < 1 then st
  else st.modifyLine (lineSelected - 1) (fun ln => { ln with isEnabled := state })

def setColor (st : VMDisplay) (lineSelected : Int) (color : Int) : VMDisplay :=
  if lineSelected > 4 ∨ lineSelected < 1 then st
  else st.modifyLine (lineSelected - 1) (fun ln => { ln with color := color })

def setTextSize (st : VMDisplay) (lineSelected : Int) (textSize : Int) : VMDisplay :=
  if lineSelected > 4 ∨ lineSelected < 1 then st
  else if textSize = 0 then
    st.modifyLine (lineSelected - 1) (fun ln => { ln with textSize := 2 })
  else if textSize = 1 then
    st.modifyLine (lineSelected - 1) (fun ln => { ln with textSize := 0 })
  else if textSize = 2 then
    st.modifyLine (lineSelected - 1) (fun ln => { ln with textSize := 1 })
  else
    st.modifyLine (lineSelected - 1) (fun ln => { ln with textSize := textSize })

def setScrollType (st : VMDisplay) (lineSelected : Int) (scrollType : Int) : VMDisplay :=
  if lineSelected > 4 ∨ lineSelected < 1 then st
  else st.modifyLine (lineSelected - 1) (fun ln => { ln with scrollType := scrollType })

def setScrollSpeed (st : VMDisplay) (lineSelected : Int) (scrollSpeed : Int) : VMDisplay :=
  if lineSelected > 4 ∨ lineSelected < 1 then st
  else st.modifyLine (lineSelected - 1) (fun ln => { ln with scrollSpeed := scrollSpeed })

def setBlink (st : VMDisplay) (lineSelected : Int) (blink : Int) : VMDisplay :=
  if lineSelected > 4 ∨ lineSelected < 1 then st
  else st.modifyLine (lineSelected - 1) (fun ln => { ln with blink := blink })

/-- The copy loop of `setText`: `field[i] = text[i]` for `i < strlen(text)`. -/
def copyChars : List Nat → Nat → List Nat → Option (List Nat)
  | [], _, field => some field
  | c :: cs, i, field => (store field i c).bind (copyChars cs (i + 1))

/-- `setText`: `memset(line.text, 0, 256)` followed by the copy loop. A text longer than the
field makes the copy run past it (`none`). -/
def setText (st : VMDisplay) (lineSelected : Int) (text : List Nat) : Option VMDisplay :=
  if lineSelected > 4 ∨ lineSelected < 1 then some st
  else
    (copyChars (cstr text) 0 (List.replicate 256 0)).map
      (fun field => st.modifyLine (lineSelected - 1) (fun ln => { ln with text := field }))

def setTestCondition (st : VMDisplay) (condition : Int) : VMDisplay :=
  { st with maintenanceCommand := condition }

/-- Constructor `VMDisplay(ID, client, ip)` on zero-initialised storage: the default member
initialisers, then `setLine(1, true)` and `_ID = ID`. -/
def VMDisplay.new (ID : Int) : VMDisplay :=
  let st : VMDisplay :=
    { ID := 0, completed := false, maintenanceCommand := 4,
      commandData := List.replicate 512 0, commandString := List.replicate 512 0,
      decLoc := none, strLoc := none,
      line := fun _ => Line.init 0 (List.replicate 256 0), messageLength := 0 }
  { setLine st 1 true with ID := ID }

/-! ## Writing into the command buffer (`ViewMarq.cpp` 467-634) -/

/-- The loop of `writeToArr`: `arr[i] = text[i - startPos]` for `i` from `startPos`. -/
def writeLoop : List Nat → Nat → List Nat → Option (List Nat)
  | [], _, arr => some arr
  | c :: cs, i, arr => (store arr i c).bind (writeLoop cs (i + 1))

/-- `writeToArr(startPos, text, arr)`: the number of characters written and the array. -/
def writeToArr (startPos : Nat) (text : List Nat) (arr : List Nat) : Option (Nat × List Nat) :=
  (writeLoop text startPos arr).map (fun a => (text.length, a))

/-- The pair `pos`, `arr` that `lineConfig` and `generateString` thread through their writes. -/
structure Cur where
  pos : Nat
  arr : List Nat

/-- The statement `pos += writeToArr(pos, text, arr);`. -/
def put (text : List Nat) (c : Cur) : Option Cur :=
  (writeToArr c.pos text c.arr).map (fun r => { pos := c.pos + r.1, arr := r.2 })

/-- The statements `arr[pos] = v; pos++;`. -/
def putc (v : Int) (c : Cur) : Option Cur :=
  (store c.arr c.pos (toChar v)).map (fun a => { pos := c.pos + 1, arr := a })

/-- `colorRetained` of `lineConfig`. -/
def colorRetained (st : VMDisplay) (lineSelected : Nat) : Bool :=
  if lineSelected ≠ 0 then
    decide ((st.lineAt lineSelected).color = (st.lineAt (lineSelected - 1)).color)
      && (st.lineAt (lineSelected - 1)).isEnabled
  else false

/-- `winRetained` of `lineConfig`. -/
def winRetained (st : VMDisplay) (lineSelected : Nat) : Bool :=
  if lineSelected ≠ 0 then
    decide ((st.lineAt lineSelected).scrollType = (st.lineAt (lineSelected - 1)).scrollType)
      && (st.lineAt (lineSelected - 1)).isEnabled
  else false

/-- The loop `for(int i = 1; i < (4 - lineSelected); i++)` counting `linesClearBelow`, run over
the values `i` may still take; it stops at the first line that is enabled with another
scroll type. -/
def clearLoop (st : VMDisplay) (lineSelected : Nat) : List Nat → Nat
  | [] => 0
  | i :: rest =>
    if (i : Int) < 4 - (lineSelected : Int) then
      if (st.lineAt lineSelected).scrollType = (st.lineAt (lineSelected + i)).scrollType
          ∨ (st.lineAt (lineSelected + i)).isEnabled = false then
        clearLoop st lineSelected rest + 1
      else 0
    else 0

def linesClearBelow (st : VMDisplay) (lineSelected : Nat) : Nat :=
  clearLoop st lineSelected [1, 2, 3]

def lineHeight (lineSelected : Nat) : Int := (lineSelected : Int) * 8

def clearPixels (st : VMDisplay) (lineSelected : Nat) : Int :=
  (lineHeight lineSelected + 8 + ((linesClearBelow st lineSelected : Nat) : Int) * 8) - 1

/-- The one or two characters written for `lineHeight` (lines 517-526 and 536-545). -/
def putHeight (lineSelected : Nat) (c : Cur) : Option Cur :=
  if lineSelected < 2 then
    putc (48 + lineHeight lineSelected) c
  else
    (putc (48 + (lineHeight lineSelected).tdiv 10) c).bind
      (putc (lineHeight lineSelected - ((lineHeight lineSelected).tdiv 10) * 10 + 48))

/-- Lines 515-533: the window tag. -/
def putWindow (st : VMDisplay) (lineSelected : Nat) (c : Cur) : Option Cur :=
  if !winRetained st lineSelected then do
    let c ← put (lit "<WIN 0 ") c
    let c ← putHeight lineSelected c
    let c ← put (lit " 287 ") c
    let c ← putc (48 + (clearPixels st lineSelected).tdiv 10) c
    let c ← putc (clearPixels st lineSelected - ((clearPixels st lineSelected).tdiv 10) * 10 + 48) c
    put (lit ">") c
  else some c

/-- Lines 535-546: the position tag. -/
def putPosition (lineSelected : Nat) (c : Cur) : Option Cur := do
  let c ← put (lit "<POS 0 ") c
  let c ← putHeight lineSelected c
  put (lit ">") c

/-- Lines 549-571: `switch(line[lineSelected].scrollType)`. -/
def putScrollType (scrollType : Int) (c : Cur) : Option Cur :=
  if scrollType = 0 then put (lit "<SL>") c
  else if scrollType = 1 then put (lit "<SR>") c
  else if scrollType = 2 then put (lit "<SU>") c
  else if scrollType = 3 then put (lit "<SD>") c
  else if scrollType = 4 then put (lit "<LJ>") c
  else if scrollType = 5 then put (lit "<CJ>") c
  else if scrollType = 6 then put (lit "<RJ>") c
  else some c

/-- Lines 572-583: the speed tag of a scrolling line. -/
def putScrollSpeed (ln : Line) (c : Cur) : Option Cur :=
  if ln.scrollType < 4 then do
    let c ← put (lit "<S ") c
    if ln.scrollSpeed = 0 then put (lit "S>") c
    else if ln.scrollSpeed = 1 then put (lit "M>") c
    else if ln.scrollSpeed = 2 then put (lit "F>") c
    else some c
  else some c

/-- Lines 548-584: scroll directive and speed. -/
def putScroll (st : VMDisplay) (lineSelected : Nat) (c : Cur) : Option Cur :=
  if !winRetained st lineSelected
      ∨ ((st.lineAt lineSelected).scrollType ≥ 4 ∧ (st.lineAt lineSelected).scrollType ≤ 6) then
    (putScrollType (st.lineAt lineSelected).scrollType c).bind
      (putScrollSpeed (st.lineAt lineSelected))
  else some c

/-- Lines 586-600: the blink tag. -/
def putBlink (blink : Int) (c : Cur) : Option Cur := do
  let c ← put (lit "<BL ") c
  if blink = 0 then put (lit "S>") c
  else if blink = 1 then put (lit "M>") c
  else if blink = 2 then put (lit "F>") c
  else if blink = 3 then put (lit "N>") c
  else some c

/-- Lines 603-612: the one or two digits of the text size. -/
def putSizeDigits (textSize : Int) (c : Cur) : Option Cur :=
  if textSize > 9 then
    (putc (48 + textSize.tdiv 10) c).bind (putc (textSize - (textSize.tdiv 10) * 10 + 48))
  else putc (48 + textSize) c

/-- Lines 602-613: the character-set tag. -/
def putTextSize (textSize : Int) (c : Cur) : Option Cur := do
  let c ← put (lit "<CS ") c
  let c ← putSizeDigits textSize c
  put (lit ">") c

/-- Lines 615-625: the color tag. -/
def putColor (st : VMDisplay) (lineSelected : Nat) (c : Cur) : Option Cur :=
  if !colorRetained st lineSelected then
    if (st.lineAt lineSelected).color = 0 then put (lit "<GRN>") c
    else if (st.lineAt lineSelected).color = 1 then put (lit "<RED>") c
    else if (st.lineAt lineSelected).color = 2 then put (lit "<AMB>") c
    else some c
  else some c

/-- Lines 627-629: the text field. -/
def putText (ln : Line) (c : Cur) : Option Cur := do
  let c ← put (lit "<T>") c
  let text ← readStr ln.text
  let c ← put text c
  put (lit "</T>") c

/-- Lines 515-629 of `lineConfig`: all its stores, in order. -/
def putBlock (st : VMDisplay) (lineSelected : Nat) (c : Cur) : Option Cur := do
  let c ← putWindow st lineSelected c
  let c ← putPosition lineSelected c
  let c ← putScroll st lineSelected c
  let c ← putBlink (st.lineAt lineSelected).blink c
  let c ← putTextSize (st.lineAt lineSelected).textSize c
  let c ← putColor st lineSelected c
  putText (st.lineAt lineSelected) c

/-- `lineConfig(startPos, lineSelected, arr)`: the returned `int` and the array. The last
statements are `pos -= 11; return pos;`. -/
def lineConfig (st : VMDisplay) (startPos : Nat) (lineSelected : Nat) (arr : List Nat) :
    Option (Nat × List Nat) :=
  (putBlock st lineSelected { pos := startPos, arr := arr }).map (fun c => (c.pos - 11, c.arr))

/-! ## `generateString` (`ViewMarq.cpp` 647-696) -/

/-- Lines 653-670: the digits of `_ID`. -/
def putID (ID : Int) (c : Cur) : Option Cur :=
  if ID > 99 then do
    let c ← putc (48 + ID.tdiv 100) c
    let c ← putc (48 + (ID - (ID.tdiv 100) * 100).tdiv 10) c
    putc (48 + (ID - (ID.tdiv 10) * 10)) c
  else if ID > 9 then do
    let c ← putc (48 + ID.tdiv 10) c
    putc (48 + (ID - 10 * (ID.tdiv 10))) c
  else putc (48 + ID) c

/-- Lines 679-683: `tempPos += lineConfig(tempPos, i, temp)` for each enabled line `i`. -/
def putLines (st : VMDisplay) : List Nat → Cur → Option Cur
  | [], c => some c
  | i :: rest, c =>
    if (st.lineAt i).isEnabled then
      (lineConfig st c.pos i c.arr).bind
        (fun r => putLines st rest { pos := c.pos + r.1, arr := r.2 })
    else putLines st rest c

/-- Lines 687-693: every `temp[i] > 0x19` is copied to `string` and to `_commandString`. -/
def stripLoop : List Nat → Nat → List Nat → List Nat → Option (List Nat × List Nat)
  | [], _, string, cmd => some (string, cmd)
  | t :: ts, stringPos, string, cmd =>
    if t > 0x19 then
      (store string stringPos t).bind (fun string1 =>
        (store cmd stringPos t).bind (fun cmd1 =>
          stripLoop ts (stringPos + 1) string1 cmd1))
    else stripLoop ts stringPos string cmd

/-- Result of `generateString`: the returned `int`, the caller's array, the display. -/
structure Generated where
  ret : Nat
  string : List Nat
  st : VMDisplay

/-- Lines 652-671: the ID field and the clear tag. -/
def putHeader (ID : Int) (c : Cur) : Option Cur := do
  let c ← put (lit "<ID ") c
  let c ← putID ID c
  put (lit "><CLR>") c

/-- Lines 673-676: the maintenance tag. -/
def putMaintenance (maintenanceCommand : Int) (c : Cur) : Option Cur := do
  let c ← put (lit "<MTN ") c
  let c ← putc (48 + maintenanceCommand) c
  put (lit ">") c

/-- Lines 672-684: the maintenance tag, or else the blocks of the enabled lines. -/
def putBody (st : VMDisplay) (c : Cur) : Option Cur :=
  if st.maintenanceCommand ≠ 4 then putMaintenance st.maintenanceCommand c
  else putLines st [0, 1, 2, 3] c

/-- `generateString(string)`; `string` is the caller's array on entry. -/
def generateString (st : VMDisplay) (string : List Nat) : Option Generated := do
  let c ← putHeader st.ID { pos := 0, arr := List.replicate 512 0 }
  let c ← putBody st c
  let r ← stripLoop (c.arr.take 511) 0 string (memsetZero st.commandString 512)
  pure { ret := c.pos, string := r.1, st := { st with commandString := r.2 } }

/-! ## `writeMessage(const char text[])` and `resetMessage` (`ViewMarq.cpp` 768-820) -/

/-- Lines 781-793: the packing loop over `text`, two characters per step. The result is
`tempPos`, `temp` and `endedOdd`. -/
def packLoop : List Nat → Nat → List Nat → Option (Nat × List Nat × Bool)
  | [], tempPos, temp => some (tempPos, temp, false)
  | [a], tempPos, temp =>
    (store temp tempPos ((0x0D * 256 + a) % 65536)).bind (fun temp1 =>
      (store temp1 (tempPos + 1) ((0xCC * 256 + 0x0D) % 65536)).map (fun temp2 =>
        (tempPos + 2, temp2, true)))
  | a :: b :: rest, tempPos, temp =>
    (store temp tempPos ((b * 256 + a) % 65536)).bind (fun temp1 =>
      packLoop rest (tempPos + 1) temp1)

/-- Lines 794-797: after an even end the first two terminator characters form one more word. -/
def packEnd (r : Nat × List Nat × Bool) : Option (Nat × List Nat) :=
  if !r.2.2 then
    (store r.2.1 r.1 ((0x0D * 256 + 0x0D) % 65536)).map (fun temp1 => (r.1 + 1, temp1))
  else some (r.1, r.2.1)

/-- Lines 798-803: `if(i > tempPos) temp[i] = 0; _commandData[i] = temp[i];` for `i < 512`. -/
def copyWords (temp : List Nat) (tempPos : Nat) : List Nat :=
  (List.range 512).map (fun i => if i > tempPos then 0 else temp.getD i 0)

/-- `strcpy(_commandString, text)` after `memset(_commandString, 0, 512)`. -/
def strcpyCommand (text : List Nat) : Option (List Nat) :=
  writeLoop (cstr text ++ [0]) 0 (List.replicate 512 0)

/-- `writeMessage(text)` for a `text` that is not `_commandString` itself. `junk` is the
content of the local `uint16_t temp[512]` on entry; `memset(temp, 0, 512)` and
`memset(_commandData, 0, 512)` clear 512 bytes, the first 256 words. -/
def writeMessageText (st : VMDisplay) (text : List Nat) (junk : List Nat) : Option VMDisplay := do
  let temp := memsetZero junk 256
  let cmd ← strcpyCommand text
  let r ← packLoop (cstr text) 0 temp
  let r ← packEnd r
  pure { st with
    commandString := cmd
    completed := false
    commandData := copyWords r.2 r.1
    messageLength := (r.1 : Int) }

/-- Lines 808-815: the loop body of `resetMessage` for the lines `i` still to do. -/
def resetLines : List Int → VMDisplay → Option VMDisplay
  | [], st => some st
  | i :: rest, st =>
    (setText st i []).bind (fun st1 =>
      resetLines rest
        (setBlink (setScrollSpeed (setScrollType (setTextSize (setColor st1 i 0) i 0) i 4) i 1) i 3))

/-- `resetMessage()`; `memset(_commandData, 0, 512)` clears the first 256 words. -/
def resetMessage (st : VMDisplay) : Option VMDisplay :=
  (resetLines [1, 2, 3, 4] st).map (fun st1 =>
    { st1 with
      completed := false
      messageLength := 0
      commandString := memsetZero st1.commandString 512
      commandData := memsetZero st1.commandData 256 })

/-! ## Characters stored by each part of the compiler -/

/-- Array `arr` with the characters `xs` stored from index `p` on. -/
def splice (arr : List Nat) (p : Nat) (xs : List Nat) : List Nat :=
  arr.take p ++ xs ++ arr.drop (p + xs.length)

/-- `f` stores the characters `xs` at the current position and advances past them; it fails
exactly when they do not fit. -/
def Emits (f : Cur → Option Cur) (xs : List Nat) : Prop :=
  ∀ c : Cur, f c
    = if xs = [] ∨ c.pos + xs.length ≤ c.arr.length then
        some { pos := c.pos + xs.length, arr := splice c.arr c.pos xs }
      else none

def heightBytes (lineSelected : Nat) : List Nat :=
  if lineSelected < 2 then [toChar (48 + lineHeight lineSelected)]
  else [toChar (48 + (lineHeight lineSelected).tdiv 10)]
    ++ [toChar (lineHeight lineSelected - ((lineHeight lineSelected).tdiv 10) * 10 + 48)]

def windowBytes (st : VMDisplay) (lineSelected : Nat) : List Nat :=
  if !winRetained st lineSelected then
    lit "<WIN 0 " ++ (heightBytes lineSelected ++ (lit " 287 "
      ++ ([toChar (48 + (clearPixels st lineSelected).tdiv 10)]
      ++ ([toChar (clearPixels st lineSelected
            - ((clearPixels st lineSelected).tdiv 10) * 10 + 48)] ++ lit ">"))))
  else []

def positionBytes (lineSelected : Nat) : List Nat :=
  lit "<POS 0 " ++ (heightBytes lineSelected ++ lit ">")

def scrollTypeBytes (scrollType : Int) : List Nat :=
  if scrollType = 0 then lit "<SL>"
  else if scrollType = 1 then lit "<SR>"
  else if scrollType = 2 then lit "<SU>"
  else if scrollType = 3 then lit "<SD>"
  else if scrollType = 4 then lit "<LJ>"
  else if scrollType = 5 then lit "<CJ>"
  else if scrollType = 6 then lit "<RJ>"
  else []

def scrollSpeedBytes (ln : Line) : List Nat :=
  if ln.scrollType < 4 then
    lit "<S " ++ (if ln.scrollSpeed = 0 then lit "S>"
      else if ln.scrollSpeed = 1 then lit "M>"
      else if ln.scrollSpeed = 2 then lit "F>"
      else [])
  else []

def scrollBytes (st : VMDisplay) (lineSelected : Nat) : List Nat :=
  if !winRetained st lineSelected
      ∨ ((st.lineAt lineSelected).scrollType ≥ 4 ∧ (st.lineAt lineSelected).scrollType ≤ 6) then
    scrollTypeBytes (st.lineAt lineSelected).scrollType ++ scrollSpeedBytes (st.lineAt lineSelected)
  else []

def blinkBytes (blink : Int) : List Nat :=
  lit "<BL " ++ (if blink = 0 then lit "S>"
    else if blink = 1 then lit "M>"
    else if blink = 2 then lit "F>"
    else if blink = 3 then lit "N>"
    else [])

def sizeDigits (textSize : Int) : List Nat :=
  if textSize > 9 then
    [toChar (48 + textSize.tdiv 10)] ++ [toChar (textSize - (textSize.tdiv 10) * 10 + 48)]
  else [toChar (48 + textSize)]

def textSizeBytes (textSize : Int) : List Nat :=
  lit "<CS " ++ (sizeDigits textSize ++ lit ">")

def colorTag (color : Int) : List Nat :=
  if color = 0 then lit "<GRN>"
  else if color = 1 then lit "<RED>"
  else if color = 2 then lit "<AMB>"
  else []

def colorBytes (st : VMDisplay) (lineSelected : Nat) : List Nat :=
  if !colorRetained st lineSelected then colorTag (st.lineAt lineSelected).color else []

def textBytes (ln : Line) : List Nat :=
  lit "<T>" ++ (cstr ln.text ++ lit "</T>")

/-- The characters `lineConfig` stores for one line. -/
def lineBlock (st : VMDisplay) (lineSelected : Nat) : List Nat :=
  windowBytes st lineSelected ++ (positionBytes lineSelected ++ (scrollBytes st lineSelected
    ++ (blinkBytes (st.lineAt lineSelected).blink
    ++ (textSizeBytes (st.lineAt lineSelected).textSize
    ++ (colorBytes st lineSelected ++ textBytes (st.lineAt lineSelected))))))

/-- Decimal numeral of `n` as character codes. -/
def decimal (n : Nat) : List Nat := (Nat.toDigits 10 n).map Char.toNat

def idBytes (ID : Int) : List Nat :=
  if ID > 99 then
    [toChar (48 + ID.tdiv 100)] ++ ([toChar (48 + (ID - (ID.tdiv 100) * 100).tdiv 10)]
      ++ [toChar (48 + (ID - (ID.tdiv 10) * 10))])
  else if ID > 9 then
    [toChar (48 + ID.tdiv 10)] ++ [toChar (48 + (ID - 10 * (ID.tdiv 10)))]
  else [toChar (48 + ID)]

def headerBytes (ID : Int) : List Nat :=
  lit "<ID " ++ (idBytes ID ++ lit "><CLR>")

def maintenanceBytes (m : Int) : List Nat :=
  lit "<MTN " ++ ([toChar (48 + m)] ++ lit ">")

/-- The test `temp[i] > 0x19` of the copy loop. -/
def printable (t : Nat) : Bool := decide (t > 0x19)

/-- The characters `generateString` copies out of `temp`. -/
def kept (temp : List Nat) : List Nat := (temp.take 511).filter printable

/-- The remap of the text size, in the spec's words: 0 to 2, 1 to 0, 2 to 1, any other size to
itself. -/
def specTextSize (s : Int) : Int :=
  if s = 0 then 2 else if s = 1 then 0 else if s = 2 then 1 else s
/-- The assignments that one round of the loop of `resetMessage` makes to a line. -/
def resetFields (ln : Line) : Line :=
  { ln with text := List.replicate 256 0, color := 0, textSize := 2, scrollType := 4,
            scrollSpeed := 1, blink := 3 }
/-- The color tag of a line, in the spec's words: `<GRN>`, `<RED>` or `<AMB>`. -/
def specColorTag (color : Int) : List Nat :=
  if color = GREEN then lit "<GRN>" else if color = RED then lit "<RED>" else lit "<AMB>"

/-- A fresh display with ID 5 whose lines 1, 2 and 3 are enabled and hold 100, 65 and 65
characters `A`. -/
def threeLineDisplay : VMDisplay :=
  let st := setLine (setLine (VMDisplay.new 5) 2 true) 3 true
  { st with line := fun j =>
      if j.val = 0 then { st.line j with text := List.replicate 100 65 ++ List.replicate 156 0 }
      else if j.val = 3 then st.line j
      else { st.line j with text := List.replicate 65 65 ++ List.replicate 191 0 } }

/-- The blocks `putLines` stores for the lines of `is`, one after the other (in `temp` they are
separated by runs of NUL). -/
def blocksOf (st : VMDisplay) : List Nat → List Nat
  | [] => []
  | i :: rest =>
    if (st.lineAt i).isEnabled then lineBlock st i ++ blocksOf st rest else blocksOf st rest

/-- State of `temp` between two lines: everything from index `e` on is NUL, the printable
characters before `e` are `H ++ K`, and when `temp` is full to its last element that element
is a `>` that the copy loop of `generateString` (which stops at index 510) does not reach. -/
def Laid (H : List Nat) (c : Cur) (K : List Nat) : Prop :=
  c.arr.length = 512 ∧ 11 ≤ c.pos ∧ ∃ e, e ≤ c.pos ∧ e ≤ 512
    ∧ c.arr.drop e = List.replicate (512 - e) 0
    ∧ (c.arr.take e).filter printable = H ++ K
    ∧ (e = 512 → ∃ K1, K = K1 ++ [62] ∧ (c.arr.take 511).filter printable = H ++ K1)
/-- A display with ID 123 whose line 1 shows `TEMP` and whose line 3 scrolls `OK` in red. -/
def demoDisplay : VMDisplay :=
  let st := setScrollType (setColor (setLine (VMDisplay.new 123) 3 true) 3 RED) 3 SCROLL_LEFT
  { st with line := fun j =>
      if j.val = 0 then { st.line j with text := lit "TEMP" ++ List.replicate 252 0 }
      else if j.val = 2 then { st.line j with text := lit "OK" ++ List.replicate 254 0 }
      else st.line j }

/-! ## Words of a packed message -/

/-- The words the packing loop of `writeMessage` produces for `text`: two characters per word,
the earlier one in the low byte; an odd last character is paired with the first terminator
character and followed by the word of the other two. -/
def packPairs : List Nat → List Nat
  | [] => []
  | [a] => [(0x0D * 256 + a) % 65536, (0xCC * 256 + 0x0D) % 65536]
  | a :: b :: rest => ((b * 256 + a) % 65536) :: packPairs rest

/-- All the words of a message: the packed text, and after a text of even length the word of
the first two terminator characters. -/
def packed (text : List Nat) : List Nat :=
  packPairs text ++ (if text.length % 2 = 0 then [(0x0D * 256 + 0x0D) % 65536] else [])

/-- A 16-bit word split into its low byte followed by its high byte. -/
def wordBytes (w : Nat) : List Nat := [w % 256, w / 256]

/-- The byte sequence of a list of words, low byte first. -/
def unpackWords : List Nat → List Nat
  | [] => []
  | w :: ws => wordBytes w ++ unpackWords ws

/-! ## Transport, `writeMessage()` and `sendMessage` (`ViewMarq.cpp` 712-748, 885-937) -/

/-- What the calls on `VMClient` amount to. `connect` is `VMDisplay::connect()` (`stop()`, then
`begin(address)` until it succeeds); `transaction` is a `beginTransmission(HOLDING_REGISTERS,
address, count)` ... `endTransmission()` bracket with the words whose `write` was accepted;
`registerWrite` is `holdingRegisterWrite(address, value)`. -/
inductive Event where
  | connect
  | transaction (address : Int) (count : Nat) (words : List Nat)
  | registerWrite (address : Int) (value : Nat)
deriving DecidableEq

/-- The external transport: whether the `j`-th `write` of the transaction begun at register
`address` for `count` registers is accepted (returns nonzero). -/
structure Transport where
  accept : Int → Nat → Nat → Bool

/-- A transport that accepts the words of a transaction up to its declared count and refuses
the others. -/
def countingTransport : Transport :=
  { accept := fun _ count j => decide (j < count) }

/-- Contents of the local arrays of the operations on entry (they are not initialised):
`char temp[256]` of the width edits, `uint16_t temp[512]` of `writeMessage`, `uint16_t temp[50]`
of `updateStringVar`. -/
structure Junk where
  chars : List Nat
  words : List Nat
  regs : List Nat

/-- `writeMessage(_commandString)`: the argument is the member itself, so the guarded `memset`
and `strcpy` are skipped and `strcpy(_commandString, _commandString)` leaves it as it is. -/
def writeMessageSelf (st : VMDisplay) (junk : List Nat) : Option VMDisplay := do
  let temp := memsetZero junk 256
  let text ← readStr st.commandString
  let r ← packLoop text 0 temp
  let r ← packEnd r
  pure { st with
    completed := false
    commandData := copyWords r.2 r.1
    messageLength := (r.1 : Int) }

/-- Lines 911-915: the number of `i` in 0..5 with `messageLength > 123 * i`. -/
def messagesToWrite (messageLength : Int) : Nat :=
  (([0, 1, 2, 3, 4, 5] : List Int).filter (fun i => decide (messageLength > 123 * i))).length

/-- Lines 919-932: the `write` calls `j` of transaction `i`, begun at register `address`. The
position advances unless the `write` was refused and `i != 0`; the result is `commandPos` and
the words accepted. -/
def writeWords (tp : Transport) (commandData : List Nat) (i : Nat) (address : Int) :
    List Nat → Nat → List Nat → Option (Nat × List Nat)
  | [], commandPos, sent => some (commandPos, sent)
  | j :: js, commandPos, sent =>
    (commandData[commandPos]?).bind (fun w =>
      if (!tp.accept address 123 j) && decide (i ≠ 0) then
        writeWords tp commandData i address js commandPos sent
      else
        writeWords tp commandData i address js (commandPos + 1)
          (if tp.accept address 123 j then sent ++ [w] else sent))

/-- Lines 917-934: the transactions `i` still to issue. -/
def sendLoop (tp : Transport) (commandData : List Nat) :
    List Nat → Nat → List Event → Option (Nat × List Event)
  | [], commandPos, evs => some (commandPos, evs)
  | i :: is, commandPos, evs =>
    (writeWords tp commandData i (10999 + (commandPos : Int)) (List.range 124) commandPos []).bind
      (fun r => sendLoop tp commandData is r.1
        (evs ++ [Event.transaction (10999 + (commandPos : Int)) 123 r.2]))

/-- `sendMessage()`: the new state and the calls made on the transport. -/
def sendMessage (tp : Transport) (st : VMDisplay) : Option (VMDisplay × List Event) :=
  if !st.completed then
    (sendLoop tp st.commandData (List.range (messagesToWrite st.messageLength)) 0 []).map
      (fun r => ({ st with completed := true }, Event.connect :: r.2))
  else some (st, [Event.connect])
/-! ## Variable updates (`ViewMarq.cpp` 306-453) -/

/-- `strstr(s, pat)` on the characters of a string: the offset of the first occurrence of
`pat`, `none` for `NULL`. -/
def strstr : List Nat → List Nat → Option Nat
  | [], pat => if pat = [] then some 0 else none
  | c :: cs, pat =>
    if pat.isPrefixOf (c :: cs) then some 0 else (strstr cs pat).map (fun k => k + 1)

/-- `strlen(p)` for `p` at offset `off` of `buf`; the NUL must lie inside the array. -/
def strlenAt (buf : List Nat) (off : Nat) : Option Nat :=
  (readStr (buf.drop off)).map List.length

/-- The value of `strlen(p) - k` in the 32-bit unsigned arithmetic of `size_t`. -/
def sizeSub (len k : Nat) : Nat :=
  if k ≤ len then len - k else len + 4294967296 - k

/-- Lines 315-318: `while(temporary) { temporary /= 10; digits++; }`. The first argument
bounds the number of rounds; `natAbs` of the number is enough, each round lowers it. -/
def digitsLoop : Nat → Int → Int → Int
  | 0, _, digits => digits
  | fuel + 1, temporary, digits =>
    if temporary ≠ 0 then digitsLoop fuel (temporary.tdiv 10) (digits + 1) else digits

/-- The digit count `digits` of `updateDecimal`. -/
def countDigits (number : Int) : Int := digitsLoop number.natAbs number 0

/-- The loops `for(i = 0; i < strlen(p); i++) temp[i] = p[k + i];` with `from` the index of
`p[k]` in `buf`; `buf` does not change, the indices `i` are those below `strlen(p)`. -/
def saveLoop (buf : List Nat) (start : Nat) : List Nat → List Nat → Option (List Nat)
  | [], temp => some temp
  | i :: is, temp =>
    (buf[start + i]?).bind (fun c =>
      (store temp i c).bind (fun temp1 => saveLoop buf start is temp1))

/-- The loops `for(i = 0; i < strlen(p) - 7; i++) p[k + i] = temp[i];` with `p` at offset
`off` and `dst` the index of `p[k]` in `buf`. `strlen(p)` is taken anew in every round. The
first argument bounds the number of rounds: after 512 of them the store is outside the array
in any case. -/
def restoreLoop (off dst : Nat) (temp : List Nat) : Nat → Nat → List Nat → Option (List Nat)
  | 0, _, _ => none
  | fuel + 1, i, buf =>
    (strlenAt buf off).bind (fun len =>
      if i < sizeSub len 7 then
        (temp[i]?).bind (fun c =>
          (store buf (dst + i) c).bind (fun buf1 => restoreLoop off dst temp fuel (i + 1) buf1))
      else some buf)

/-- The pair of loops that moves the characters from `p[src]` on to `p[dst]`, through the
local `char temp[256]`. -/
def shiftChars (buf : List Nat) (off src dst : Nat) (junk : List Nat) : Option (List Nat) :=
  (strlenAt buf off).bind (fun len =>
    (saveLoop buf (off + src) (List.range len) junk).bind (fun temp =>
      restoreLoop off (off + dst) temp 513 0 buf))

/-- Line 323: the condition for a width edit, read with the short-circuit order of C. -/
def decNeedsEdit (buf : List Nat) (off : Nat) (digits : Int) : Option Bool :=
  if digits < 10 then
    (buf[off + 6]?).bind (fun c6 =>
      if (c6 : Int) - 48 ≠ digits then some true
      else (buf[off + 7]?).map (fun c7 => decide (c7 ≠ 32)))
  else
    (buf[off + 7]?).map
      (fun (c7 : Nat) => decide ((c7 : Int) ≠ 48 + (digits - 10 * (digits.tdiv 10))))

/-- Lines 324-349: the rewrite of the width field of the `DEC` marker at offset `off`. -/
def decEdit (buf : List Nat) (off : Nat) (digits : Int) (junk : List Nat) :
    Option (List Nat) :=
  if digits < 10 then
    (store buf (off + 6) (toChar (48 + digits))).bind (fun buf1 =>
      (buf1[off + 7]?).bind (fun c7 =>
        if c7 ≠ 32 then shiftChars buf1 off 8 7 junk else some buf1))
  else
    (strlenAt buf off).bind (fun len =>
      (saveLoop buf (off + 7) (List.range len) junk).bind (fun temp =>
        (store buf (off + 6) (toChar (48 + digits.tdiv 10))).bind (fun buf1 =>
          (store buf1 (off + 7) (toChar (48 + (digits - 10 * (digits.tdiv 10))))).bind
            (fun buf2 => restoreLoop off (off + 8) temp 513 0 buf2))))

/-- Lines 354-356: `connect()` and the two `holdingRegisterWrite` calls; `slot` is `variable` made
zero-based. The value is a two's-complement `long`: `number & 0xFFFF` and
`(number >> 16) & 0xFFFF`. -/
def decimalWrites (slot : Int) (number : Int) : List Event :=
  [Event.connect,
   Event.registerWrite (100 + slot * 2) (number % 65536).toNat,
   Event.registerWrite (99 + slot * 2) ((number / 65536) % 65536).toNat]

/-- `updateDecimal(slot, number, editBounds)`, the `long int` overload: the new state and
the calls made on the transport. -/
def updateDecimal (tp : Transport) (st : VMDisplay) (slot : Int) (number : Int)
    (editBounds : Bool) (jk : Junk) : Option (VMDisplay × List Event) :=
  (readStr st.commandString).bind (fun cmd =>
    let st1 := { st with decLoc := strstr cmd (lit "DEC") }
    match editBounds, strstr cmd (lit "DEC") with
    | true, some off =>
      (decNeedsEdit st1.commandString off (countDigits number)).bind (fun edit =>
        if edit then
          (decEdit st1.commandString off (countDigits number) jk.chars).bind (fun buf =>
            (writeMessageSelf { st1 with commandString := buf } jk.words).bind (fun st2 =>
              (sendMessage tp st2).map (fun r =>
                (r.1, r.2 ++ decimalWrites (slot - 1) number))))
        else some (st1, decimalWrites (slot - 1) number))
    | _, _ => some (st1, decimalWrites (slot - 1) number))

/-- Line 386: the condition for a width edit of the `STR` marker. -/
def strNeedsEdit (buf : List Nat) (off : Nat) (chars : Int) : Option Bool :=
  if chars < 10 then
    (buf[off + 6]?).bind (fun c6 =>
      if (c6 : Int) - 48 ≠ chars then some true
      else (buf[off + 7]?).map (fun c7 => decide (c7 ≠ 62)))
  else
    (buf[off + 7]?).map
      (fun (c7 : Nat) => decide ((c7 : Int) ≠ 48 + (chars - 10 * (chars.tdiv 10))))

/-- Lines 390-398: `while(_strLoc[7] != '>')`, each round moving the characters from
`_strLoc[8]` on one place down. The first argument bounds the number of rounds; a string is
shorter than 512 characters and each round that ends shortens it. -/
def closeLoop (off : Nat) (junk : List Nat) : Nat → List Nat → Option (List Nat)
  | 0, _ => none
  | fuel + 1, buf =>
    (buf[off + 7]?).bind (fun c7 =>
      if c7 ≠ 62 then (shiftChars buf off 8 7 junk).bind (closeLoop off junk fuel)
      else some buf)

/-- Lines 388-426: the rewrite of the width field of the `STR` marker at offset `off`. -/
def strEdit (buf : List Nat) (off : Nat) (chars : Int) (junk : List Nat) : Option (List Nat) :=
  if chars < 10 then
    (store buf (off + 6) (toChar (48 + chars))).bind (closeLoop off junk 512)
  else if chars < 100 then
    (strlenAt buf off).bind (fun len =>
      (saveLoop buf (off + 7) (List.range len) junk).bind (fun temp =>
        (store buf (off + 6) (toChar (48 + chars.tdiv 10))).bind (fun buf1 =>
          (store buf1 (off + 7) (toChar (48 + (chars - 10 * (chars.tdiv 10))))).bind
            (fun buf2 => restoreLoop off (off + 8) temp 513 0 buf2))))
  else if chars = 100 then
    (strlenAt buf off).bind (fun len =>
      (saveLoop buf (off + 7) (List.range len) junk).bind (fun temp =>
        (store buf (off + 6) 49).bind (fun buf1 =>
          (store buf1 (off + 7) 48).bind (fun buf2 =>
            (store buf2 (off + 8) 48).bind (fun buf3 =>
              restoreLoop off (off + 9) temp 513 0 buf3)))))
  else some buf

/-- Lines 431-441: two characters of `text` per element of `temp`, an odd last one alone. -/
def packVar : List Nat → Nat → List Nat → Option (Nat × List Nat)
  | [], tempPos, temp => some (tempPos, temp)
  | [a], tempPos, temp => (store temp tempPos (a % 65536)).map (fun temp1 => (tempPos + 1, temp1))
  | a :: b :: rest, tempPos, temp =>
    (store temp tempPos ((b * 256 + a) % 65536)).bind (fun temp1 =>
      packVar rest (tempPos + 1) temp1)

/-- Lines 442-446: `if(i > tempPos) temp[i] = 0;` for `i < 50`. -/
def clearVar (temp : List Nat) (tempPos : Nat) : List Nat :=
  (List.range 50).map (fun i => if i > tempPos then 0 else temp.getD i 0)

/-- Lines 447-452: `connect()` and the transaction of 50 `write` calls at the registers of the
slot; `slot` is `variable` made zero-based. -/
def stringWrites (tp : Transport) (slot : Int) (temp : List Nat) : List Event :=
  [Event.connect,
   Event.transaction (199 + slot * 50) 50
     (((List.range 50).filter (fun j => tp.accept (199 + slot * 50) 50 j)).map
       (fun j => temp.getD j 0))]

/-- Lines 381-384 and 431-452: `temp[50]` after `memset(temp, 0, 50)` (50 bytes, the first 25
elements), the packing and the clearing loop, and the transaction. -/
def stringVarWrites (tp : Transport) (slot : Int) (text : List Nat) (junk : List Nat) :
    Option (List Event) :=
  (packVar (cstr text) 0 (memsetZero junk 25)).map (fun r =>
    stringWrites tp slot (clearVar r.2 r.1))

/-- `updateStringVar(slot, text, editBounds)`: the new state and the calls made on the
transport. -/
def updateStringVar (tp : Transport) (st : VMDisplay) (slot : Int) (text : List Nat)
    (editBounds : Bool) (jk : Junk) : Option (VMDisplay × List Event) :=
  (readStr st.commandString).bind (fun cmd =>
    let st1 := { st with strLoc := strstr cmd (lit "STR") }
    let chars : Int := ((cstr text).length : Int)
    match editBounds, strstr cmd (lit "STR") with
    | true, some off =>
      (strNeedsEdit st1.commandString off chars).bind (fun edit =>
        if edit then
          (strEdit st1.commandString off chars jk.chars).bind (fun buf =>
            (writeMessageSelf { st1 with commandString := buf } jk.words).bind (fun st2 =>
              (sendMessage tp st2).bind (fun r =>
                (stringVarWrites tp (slot - 1) text jk.regs).map (fun evs =>
                  (r.1, r.2 ++ evs)))))
        else (stringVarWrites tp (slot - 1) text jk.regs).map (fun evs => (st1, evs)))
    | _, _ => (stringVarWrites tp (slot - 1) text jk.regs).map (fun evs => (st1, evs)))

/-- A command of 250 printable characters (codes 33 to 122 in rounds); packed it is 126
words. -/
def longCommand : List Nat := (List.range 250).map (fun i => 33 + i % 90)

/-- The words `updateStringVar` packs for `text`: two characters per word, an odd last
character alone. -/
def packVarWords : List Nat → List Nat
  | [] => []
  | [a] => [a % 65536]
  | a :: b :: rest => ((b * 256 + a) % 65536) :: packVarWords rest

/-- A 32-bit pattern read as a two's-complement number. -/
def asSigned32 (u : Nat) : Int :=
  if u < 2147483648 then (u : Int) else (u : Int) - 4294967296
/-- A command with one numeric field of width 2: `<DEC 1 2 0>`. -/
def decCommand : List Nat := lit "<ID 5><CLR><T>Temp <DEC 1 2 0></T>"

/-- A text of 50 characters, the digits `0` to `9` five times. -/
def fiftyChars : List Nat := (List.range 50).map (fun i => 48 + i % 10)

/-- The field values of the data model: color GREEN, RED or AMBER, text size 0..11, scroll type
0..6, scroll speed SLOW, MEDIUM or FAST, blink SLOW, MEDIUM, FAST or NONE; and a text whose
characters are all kept by the copy loop (above 0x19) and none of which opens a tag (`<`). -/
def validLine (ln : Line) : Prop :=
  (0 ≤ ln.color ∧ ln.color ≤ 2) ∧ (0 ≤ ln.textSize ∧ ln.textSize ≤ 11)
    ∧ (0 ≤ ln.scrollType ∧ ln.scrollType ≤ 6) ∧ (0 ≤ ln.scrollSpeed ∧ ln.scrollSpeed ≤ 2)
    ∧ (0 ≤ ln.blink ∧ ln.blink ≤ 3) ∧ ∀ x ∈ cstr ln.text, 0x19 < x ∧ x ≠ 60

instance (ln : Line) : Decidable (validLine ln) := by
  unfold validLine
  infer_instance

/-- What the block of line `k` shows of its fields: color, text size, scroll type, blink and
text, and the scroll speed when the line scrolls (type 0..3) and its window tag is written. -/
def sameShown (a b : VMDisplay) (k : Nat) : Prop :=
  (a.lineAt k).color = (b.lineAt k).color ∧ (a.lineAt k).textSize = (b.lineAt k).textSize
    ∧ (a.lineAt k).scrollType = (b.lineAt k).scrollType
    ∧ (a.lineAt k).blink = (b.lineAt k).blink
    ∧ cstr (a.lineAt k).text = cstr (b.lineAt k).text
    ∧ ((a.lineAt k).scrollType < 4 → winRetained a k = false →
        (a.lineAt k).scrollSpeed = (b.lineAt k).scrollSpeed)

/-- A fresh display with ID 5 whose lines 1 and 2 are enabled and both scroll left. -/
def twoScrollingLines : VMDisplay :=
  setScrollType (setScrollType (setLine (VMDisplay.new 5) 2 true) 1 SCROLL_LEFT) 2 SCROLL_LEFT

/-- The blink tag, in the spec's words: `<BL x>` with `x` the letter S, M, F or N for blink
SLOW, MEDIUM, FAST or NONE. -/
def specBlinkTag (blink : Int) : List Nat :=
  lit "<BL " ++ ((if blink = SLOW then lit "S" else if blink = MEDIUM then lit "M"
    else if blink = FAST then lit "F" else lit "N") ++ lit ">")

/-- The scroll-type tag, in the spec's words: `<SL>`, `<SR>`, `<SU>`, `<SD>`, `<LJ>`, `<CJ>`,
`<RJ>` for the types 0 to 6. -/
def specScrollTag (scrollType : Int) : List Nat :=
  if scrollType = SCROLL_LEFT then lit "<SL>"
  else if scrollType = SCROLL_RIGHT then lit "<SR>"
  else if scrollType = SCROLL_UP then lit "<SU>"
  else if scrollType = SCROLL_DOWN then lit "<SD>"
  else if scrollType = LEFT_JUSTIFIED then lit "<LJ>"
  else if scrollType = CENTER_JUSTIFIED then lit "<CJ>"
  else lit "<RJ>"

/-- The speed tag, in the spec's words: `<S S>`, `<S M>` or `<S F>`. -/
def specSpeedTag (scrollSpeed : Int) : List Nat :=
  if scrollSpeed = SLOW then lit "<S S>" else if scrollSpeed = MEDIUM then lit "<S M>"
  else lit "<S F>"

/-- The scroll directive of line `k`, in the spec's words: the scroll-type tag when the window
tag is written or the type is one of the justified types 4, 5, 6, followed by the speed tag
when the type is one of the scrolling types 0..3; nothing otherwise. -/
def specScroll (st : VMDisplay) (k : Nat) : List Nat :=
  if winRetained st k = false ∨ (4 ≤ (st.lineAt k).scrollType ∧ (st.lineAt k).scrollType ≤ 6) then
    specScrollTag (st.lineAt k).scrollType
      ++ (if (st.lineAt k).scrollType ≤ 3 then specSpeedTag (st.lineAt k).scrollSpeed else [])
  else []

/-- The block of line `k`, in the spec's words: window tag (unless retained), `<POS 0 top>`
with `top = 8 * k` in decimal, scroll directive (unless retained), blink tag, `<CS n>` with
the text size in decimal, color tag (unless retained), `<T>`, the text, `</T>`. -/
def specBlock (st : VMDisplay) (k : Nat) : List Nat :=
  (if winRetained st k then [] else windowBytes st k)
    ++ ((lit "<POS 0 " ++ (decimal (8 * k) ++ lit ">"))
    ++ (specScroll st k
    ++ (specBlinkTag (st.lineAt k).blink
    ++ ((lit "<CS " ++ (decimal (st.lineAt k).textSize.toNat ++ lit ">"))
    ++ ((if colorRetained st k then [] else colorTag (st.lineAt k).color)
    ++ (lit "<T>" ++ (cstr (st.lineAt k).text ++ lit "</T>")))))))

/-- A fresh display with ID 5 whose line 2 is enabled and scrolls left, under a line 1 that
keeps the default LEFT_JUSTIFIED. -/
def mixedTypes : VMDisplay :=
  setScrollType (setLine (VMDisplay.new 5) 2 true) 2 SCROLL_LEFT
/-- The registers a call on the transport addresses: none for `connect()`, the one register of
a `holdingRegisterWrite`, the `count` registers from `address` on of a transaction. -/
def Event.registers : Event → List Int
  | Event.connect => []
  | Event.transaction address count _ =>
    (List.range count).map (fun (j : Nat) => address + (j : Int))
  | Event.registerWrite address _ => [address]
/-- A command with one string field of width 12: `<STR 1 12>`. -/
def strCommand12 : List Nat := lit "<ID 5><CLR><T><STR 1 12></T>"

/-- A command with one string field of width 10: `<STR 1 10>`. -/
def strCommand10 : List Nat := lit "<ID 5><CLR><T><STR 1 10></T>"

/-- The contents of the uninitialised local arrays taken as all zero. -/
def zeroJunk : Junk :=
  { chars := List.replicate 256 0, words := List.replicate 512 0, regs := List.replicate 50 0 }
/-- Lines 264-273 of the `double` overload: the decimal-places digit at `_decLoc[8]` (at
`_decLoc[9]` for ten digits or more) is set to `count` unless it already is. -/
def placesEdit (buf : List Nat) (off : Nat) (digits count : Int) : Option (List Nat) :=
  if digits < 10 then
    (buf[off + 8]?).bind (fun c =>
      if (c : Int) - 48 ≠ count then store buf (off + 8) (toChar (count + 48)) else some buf)
  else
    (buf[off + 9]?).bind (fun c =>
      if (c : Int) - 48 ≠ count then store buf (off + 9) (toChar (count + 48)) else some buf)

/-- `updateDecimal(slot, actual, editBounds)`, the `double` overload (lines 237-288), from
line 252 on. Lines 244-251 are floating-point arithmetic and are not part of the model: what
they compute, the number `count` of decimal places and the `long` value `result` (`actual`
scaled by `10^count`), are parameters. For an `actual` without fractional part the loop of
line 247 is not entered, so `count` is 0 and `result` is the value itself. The last statement
calls the `long int` overload with the slot as given and `editBounds` as it then stands. -/
def updateDecimalReal (tp : Transport) (st : VMDisplay) (slot : Int) (count : Int)
    (result : Int) (editBounds : Bool) (jk : Junk) : Option (VMDisplay × List Event) :=
  (readStr st.commandString).bind (fun cmd =>
    let st1 := { st with decLoc := strstr cmd (lit "DEC") }
    match editBounds, strstr cmd (lit "DEC") with
    | true, some off =>
      (placesEdit st1.commandString off (countDigits result) count).bind (fun buf =>
        (writeMessageSelf { st1 with commandString := buf } jk.words).bind (fun st2 =>
          (sendMessage tp st2).bind (fun r =>
            (updateDecimal tp r.1 slot result true jk).map (fun r2 => (r2.1, r.2 ++ r2.2)))))
    | _, _ => updateDecimal tp st1 slot result false jk)
/-- A command with one numeric field of width 11: `<DEC 1 11 0>`. -/
def decCommand11 : List Nat := lit "<ID 5><CLR><T><DEC 1 11 0></T>"

/-- A command with two numeric fields, both of width 2: `<DEC 1 2 0>` and `<DEC 2 2 0>`. -/
def twoDecCommand : List Nat := lit "<ID 5><CLR><T><DEC 1 2 0> <DEC 2 2 0></T>"

theorem splice_nil (arr : List Nat) (p : Nat) : splice arr p [] = arr := by
  simp [splice]

theorem length_splice (arr : List Nat) (p : Nat) (xs : List Nat)
    (h : p + xs.length ≤ arr.length) : (splice arr p xs).length = arr.length := by
  simp [splice]; omega

theorem splice_splice (arr : List Nat) (p : Nat) (xs ys : List Nat)
    (h : p + xs.length ≤ arr.length) :
    splice (splice arr p xs) (p + xs.length) ys = splice arr p (xs ++ ys) := by
  have h1 : (arr.take p).length = p := by simp; omega
  have e1 : (arr.take p ++ xs ++ arr.drop (p + xs.length)).take (p + xs.length)
      = arr.take p ++ xs := by
    rw [List.take_append_of_le_length (by simp; omega)]
    rw [List.take_of_length_le (by simp)]
  have e2 : (arr.take p ++ xs ++ arr.drop (p + xs.length)).drop (p + xs.length + ys.length)
      = arr.drop (p + (xs ++ ys).length) := by
    rw [List.drop_append_eq_append_drop]
    rw [List.drop_of_length_le (by simp; omega)]
    simp [h1]
    congr 1
    omega
  unfold splice
  rw [e1, e2]
  simp

theorem store_eq (a : List Nat) (i v : Nat) :
    store a i v = if i < a.length then some (splice a i [v]) else none := by
  unfold store splice
  split
  · rename_i h
    simp [List.set_eq_take_append_cons_drop, h]
  · rfl

theorem writeLoop_eq (xs : List Nat) : ∀ (p : Nat) (arr : List Nat),
    writeLoop xs p arr
      = if xs = [] ∨ p + xs.length ≤ arr.length then some (splice arr p xs) else none := by
  induction xs with
  | nil => intro p arr; simp [writeLoop, splice_nil]
  | cons x xs ih =>
    intro p arr
    rw [writeLoop, store_eq]
    by_cases hp : p < arr.length
    · have hl : (splice arr p [x]).length = arr.length := length_splice arr p [x] (by simpa using hp)
      simp only [hp, if_true, Option.some_bind]
      rw [ih, hl]
      have hs : splice (splice arr p [x]) (p + 1) xs = splice arr p (x :: xs) := by
        have := splice_splice arr p [x] xs (by simpa using hp)
        simpa using this
      rw [hs]
      by_cases hx : xs = []
      · subst hx; simp; omega
      · have : (p + 1 + xs.length ≤ arr.length) = (p + (x :: xs).length ≤ arr.length) := by
          simp; omega
        simp [hx, this]
    · have hn : ¬ ((x :: xs) = [] ∨ p + (x :: xs).length ≤ arr.length) := by simp; omega
      rw [if_neg hp, if_neg hn]; rfl

theorem emits_put (xs : List Nat) : Emits (put xs) xs := by
  intro c
  unfold put writeToArr
  rw [writeLoop_eq]
  split <;> simp

theorem emits_putc (v : Int) : Emits (putc v) [toChar v] := by
  intro c
  unfold putc
  rw [store_eq]
  by_cases h : c.pos < c.arr.length
  · have : c.pos + 1 ≤ c.arr.length := h
    simp [h, this]
  · have : ¬ (c.pos + 1 ≤ c.arr.length) := h
    simp [h, this]

theorem emits_skip : Emits (fun c => some c) [] := by
  intro c
  simp [splice_nil]

theorem Emits.bind {f g : Cur → Option Cur} {xs ys : List Nat}
    (hf : Emits f xs) (hg : Emits g ys) : Emits (fun c => (f c).bind g) (xs ++ ys) := by
  intro c
  show (f c).bind g = _
  rw [hf c]
  by_cases hx : xs = []
  · subst hx
    simp only [true_or, if_true, Option.some_bind, List.length_nil, Nat.add_zero, splice_nil,
      List.nil_append]
    exact hg c
  · by_cases hfit : c.pos + xs.length ≤ c.arr.length
    · simp only [hx, hfit, false_or, if_true, Option.some_bind]
      rw [hg, length_splice _ _ _ hfit, splice_splice _ _ _ _ hfit]
      by_cases hy : ys = []
      · subst hy; simp [hfit]
      · have : (c.pos + xs.length + ys.length ≤ c.arr.length)
            = (c.pos + (xs ++ ys).length ≤ c.arr.length) := by simp; omega
        simp [hx, hy, this, Nat.add_assoc]
    · have hn : ¬ (xs ++ ys = [] ∨ c.pos + (xs ++ ys).length ≤ c.arr.length) := by
        simp [hx]; omega
      have hn1 : ¬ (xs = [] ∨ c.pos + xs.length ≤ c.arr.length) := by simp [hx, hfit]
      rw [if_neg hn1, if_neg hn]; rfl

theorem Emits.ite {f g : Cur → Option Cur} {xs ys : List Nat} (b : Prop) [Decidable b]
    (hf : Emits f xs) (hg : Emits g ys) :
    Emits (fun c => if b then f c else g c) (if b then xs else ys) := by
  by_cases h : b <;> simpa [h]

theorem Emits.seq {f g : Cur → Option Cur} {xs ys : List Nat}
    (hf : Emits f xs) (hg : Emits g ys) : Emits (fun c => f c >>= g) (xs ++ ys) :=
  Emits.bind hf hg

theorem emits_putHeight (i : Nat) : Emits (putHeight i) (heightBytes i) :=
  Emits.ite _ (emits_putc _) (Emits.bind (emits_putc _) (emits_putc _))

theorem emits_putWindow (st : VMDisplay) (i : Nat) : Emits (putWindow st i) (windowBytes st i) :=
  Emits.ite _
    (Emits.seq (emits_put _) (Emits.seq (emits_putHeight i) (Emits.seq (emits_put _)
      (Emits.seq (emits_putc _) (Emits.seq (emits_putc _) (emits_put _))))))
    emits_skip

theorem emits_putPosition (i : Nat) : Emits (putPosition i) (positionBytes i) :=
  Emits.seq (emits_put _) (Emits.seq (emits_putHeight i) (emits_put _))

theorem emits_putScrollType (t : Int) : Emits (putScrollType t) (scrollTypeBytes t) :=
  Emits.ite _ (emits_put _) (Emits.ite _ (emits_put _) (Emits.ite _ (emits_put _)
    (Emits.ite _ (emits_put _) (Emits.ite _ (emits_put _) (Emits.ite _ (emits_put _)
    (Emits.ite _ (emits_put _) emits_skip))))))

theorem emits_putScrollSpeed (ln : Line) : Emits (putScrollSpeed ln) (scrollSpeedBytes ln) :=
  Emits.ite _
    (Emits.seq (emits_put _) (Emits.ite _ (emits_put _) (Emits.ite _ (emits_put _)
      (Emits.ite _ (emits_put _) emits_skip))))
    emits_skip

theorem emits_putScroll (st : VMDisplay) (i : Nat) : Emits (putScroll st i) (scrollBytes st i) :=
  Emits.ite _ (Emits.bind (emits_putScrollType _) (emits_putScrollSpeed _)) emits_skip

theorem emits_putBlink (b : Int) : Emits (putBlink b) (blinkBytes b) :=
  Emits.seq (emits_put _) (Emits.ite _ (emits_put _) (Emits.ite _ (emits_put _)
    (Emits.ite _ (emits_put _) (Emits.ite _ (emits_put _) emits_skip))))

theorem emits_putSizeDigits (s : Int) : Emits (putSizeDigits s) (sizeDigits s) :=
  Emits.ite _ (Emits.bind (emits_putc _) (emits_putc _)) (emits_putc _)

theorem emits_putTextSize (s : Int) : Emits (putTextSize s) (textSizeBytes s) :=
  Emits.seq (emits_put _) (Emits.seq (emits_putSizeDigits s) (emits_put _))

theorem emits_putColor (st : VMDisplay) (i : Nat) : Emits (putColor st i) (colorBytes st i) :=
  Emits.ite _ (Emits.ite _ (emits_put _) (Emits.ite _ (emits_put _)
    (Emits.ite _ (emits_put _) emits_skip))) emits_skip

theorem emits_putText (ln : Line) (h : 0 ∈ ln.text) : Emits (putText ln) (textBytes ln) := by
  have e : putText ln
      = fun c => put (lit "<T>") c >>= fun c => put (cstr ln.text) c >>= put (lit "</T>") := by
    funext c
    simp [putText, readStr, h]
  rw [e]
  exact Emits.seq (emits_put _) (Emits.seq (emits_put _) (emits_put _))

theorem putText_unterminated (ln : Line) (h : 0 ∉ ln.text) (c : Cur) : putText ln c = none := by
  simp [putText, readStr, h]

theorem lineConfig_putBlock (st : VMDisplay) (p i : Nat) (arr : List Nat) :
    lineConfig st p i arr
      = (putBlock st i { pos := p, arr := arr }).map (fun c => (c.pos - 11, c.arr)) := by
  rfl

theorem emits_putBlock (st : VMDisplay) (i : Nat) (h : 0 ∈ (st.lineAt i).text) :
    Emits (putBlock st i) (lineBlock st i) :=
  Emits.seq (emits_putWindow st i) (Emits.seq (emits_putPosition i)
    (Emits.seq (emits_putScroll st i) (Emits.seq (emits_putBlink _)
    (Emits.seq (emits_putTextSize _) (Emits.seq (emits_putColor st i) (emits_putText _ h))))))

theorem lit_ne_nil_T : lit "<T>" ≠ [] := by decide

theorem lineBlock_ne_nil (st : VMDisplay) (i : Nat) : lineBlock st i ≠ [] := by
  have : positionBytes i ≠ [] := by
    unfold positionBytes
    have : lit "<POS 0 " ≠ [] := by decide
    simp [this]
  simp [lineBlock, this]

theorem lineConfig_eq (st : VMDisplay) (p i : Nat) (arr : List Nat)
    (h : 0 ∈ (st.lineAt i).text) :
    lineConfig st p i arr
      = if p + (lineBlock st i).length ≤ arr.length then
          some (p + (lineBlock st i).length - 11, splice arr p (lineBlock st i))
        else none := by
  rw [lineConfig_putBlock, emits_putBlock st i h]
  simp only [lineBlock_ne_nil, false_or]
  split <;> rfl

theorem emits_putID (ID : Int) : Emits (putID ID) (idBytes ID) :=
  Emits.ite _ (Emits.seq (emits_putc _) (Emits.seq (emits_putc _) (emits_putc _)))
    (Emits.ite _ (Emits.seq (emits_putc _) (emits_putc _)) (emits_putc _))

theorem digitChar_toNat : ∀ d : Nat, d < 10 → (Nat.digitChar d).toNat = 48 + d := by
  decide

/-- The decimal numeral of a number below 1000, digit by digit. -/
theorem decimal_lt_1000 (n : Nat) (h : n < 1000) :
    decimal n = if n ≤ 9 then [48 + n]
      else if n ≤ 99 then [48 + n / 10, 48 + n % 10]
      else [48 + n / 100, 48 + n / 10 % 10, 48 + n % 10] := by
  unfold decimal Nat.toDigits
  by_cases h9 : n ≤ 9
  · rw [if_pos h9]
    have h0 : n / 10 = 0 := by omega
    have hm : n % 10 = n := by omega
    simp [Nat.toDigitsCore, h0, hm, digitChar_toNat n (by omega)]
  · rw [if_neg h9]
    obtain ⟨m, rfl⟩ : ∃ m, n = m + 2 := ⟨n - 2, by omega⟩
    by_cases h99 : m + 2 ≤ 99
    · rw [if_pos h99]
      have h0 : ¬ (m + 2) / 10 = 0 := by omega
      have h1 : (m + 2) / 100 = 0 := by omega
      have h1b : (m + 2) / 10 / 10 = 0 := by omega
      have hm : (m + 2) / 10 % 10 = (m + 2) / 10 := by omega
      simp [Nat.toDigitsCore, h0, h1, h1b, hm, digitChar_toNat ((m + 2) / 10) (by omega),
        digitChar_toNat ((m + 2) % 10) (by omega)]
    · rw [if_neg h99]
      have h0 : ¬ (m + 2) / 10 = 0 := by omega
      have h1 : ¬ (m + 2) / 100 = 0 := by omega
      have h2 : (m + 2) / 100 / 10 = 0 := by omega
      have hm : (m + 2) / 100 % 10 = (m + 2) / 100 := by omega
      have h1b : ¬ (m + 2) / 10 / 10 = 0 := by omega
      have h2b : (m + 2) / 10 / 10 / 10 = 0 := by omega
      have hmb : (m + 2) / 10 / 10 % 10 = (m + 2) / 100 := by omega
      simp [Nat.toDigitsCore, h0, h1, h2, hm, h1b, h2b, hmb, digitChar_toNat ((m + 2) / 100) (by omega),
        digitChar_toNat ((m + 2) / 10 % 10) (by omega),
        digitChar_toNat ((m + 2) % 10) (by omega)]

theorem idBytes_nat (n : Nat) (h : n < 1000) : idBytes (n : Int) = decimal n := by
  rw [decimal_lt_1000 n h]
  unfold idBytes toChar
  have t100 : (n : Int).tdiv 100 = ((n / 100 : Nat) : Int) := by
    rw [Int.tdiv_eq_ediv (by omega) (by omega)]; omega
  have t10 : (n : Int).tdiv 10 = ((n / 10 : Nat) : Int) := by
    rw [Int.tdiv_eq_ediv (by omega) (by omega)]; omega
  have t10b : ((n : Int) - ((n / 100 : Nat) : Int) * 100).tdiv 10
      = ((n / 10 % 10 : Nat) : Int) := by
    rw [Int.tdiv_eq_ediv (by omega) (by omega)]; omega
  rw [t100, t10, t10b]
  by_cases h99 : n ≤ 99
  · by_cases h9 : n ≤ 9
    · rw [if_neg (by omega), if_neg (by omega), if_pos h9]
      simp only [List.cons.injEq, and_true]
      omega
    · rw [if_neg (by omega), if_pos (by omega), if_neg h9, if_pos h99]
      simp only [List.singleton_append, List.cons.injEq, and_true]
      omega
  · rw [if_pos (by omega), if_neg (by omega), if_neg h99]
    simp only [List.singleton_append, List.cons.injEq, and_true]
    omega

theorem idBytes_eq (ID : Int) (h0 : 0 ≤ ID) (h1 : ID ≤ 999) :
    idBytes ID = decimal ID.toNat := by
  have := idBytes_nat ID.toNat (by omega)
  rwa [Int.toNat_of_nonneg h0] at this

theorem emits_putHeader (ID : Int) : Emits (putHeader ID) (headerBytes ID) :=
  Emits.seq (emits_put _) (Emits.seq (emits_putID ID) (emits_put _))

theorem emits_putMaintenance (m : Int) : Emits (putMaintenance m) (maintenanceBytes m) :=
  Emits.seq (emits_put _) (Emits.seq (emits_putc _) (emits_put _))

theorem stripLoop_eq (ts : List Nat) : ∀ (sp : Nat) (string cmd : List Nat),
    stripLoop ts sp string cmd
      = if ts.filter printable = []
            ∨ (sp + (ts.filter printable).length ≤ string.length
              ∧ sp + (ts.filter printable).length ≤ cmd.length) then
          some (splice string sp (ts.filter printable), splice cmd sp (ts.filter printable))
        else none := by
  induction ts with
  | nil => intro sp string cmd; simp [stripLoop, splice_nil]
  | cons t ts ih =>
    intro sp string cmd
    rw [stripLoop]
    by_cases ht : t > 0x19
    · have hp : printable t = true := by simp [printable, ht]
      rw [if_pos ht, List.filter_cons_of_pos hp, store_eq, store_eq]
      by_cases h1 : sp < string.length
      · by_cases h2 : sp < cmd.length
        · rw [if_pos h1, if_pos h2]
          simp only [Option.some_bind]
          rw [ih, length_splice _ _ _ (by simpa using h1), length_splice _ _ _ (by simpa using h2)]
          have s1 := splice_splice string sp [t] (ts.filter printable) (by simpa using h1)
          have s2 := splice_splice cmd sp [t] (ts.filter printable) (by simpa using h2)
          simp only [List.length_singleton, List.singleton_append] at s1 s2
          rw [s1, s2]
          by_cases hk : ts.filter printable = []
          · rw [hk]
            rw [if_pos (Or.inl rfl), if_pos]
            right
            simp
            omega
          · by_cases hfit : sp + 1 + (ts.filter printable).length ≤ string.length
                ∧ sp + 1 + (ts.filter printable).length ≤ cmd.length
            · rw [if_pos (Or.inr hfit), if_pos]
              right
              simp only [List.length_cons]
              omega
            · rw [if_neg, if_neg]
              · simp only [List.length_cons, reduceCtorEq, false_or]
                omega
              · simp only [hk, false_or]
                exact hfit
        · have hn : ¬ (t :: ts.filter printable = []
              ∨ (sp + (t :: ts.filter printable).length ≤ string.length
                ∧ sp + (t :: ts.filter printable).length ≤ cmd.length)) := by
            simp only [List.length_cons, reduceCtorEq, false_or]
            omega
          rw [if_pos h1, if_neg h2, if_neg hn]
          rfl
      · have hn : ¬ (t :: ts.filter printable = []
            ∨ (sp + (t :: ts.filter printable).length ≤ string.length
              ∧ sp + (t :: ts.filter printable).length ≤ cmd.length)) := by
          simp only [List.length_cons, reduceCtorEq, false_or]
          omega
        rw [if_neg h1, if_neg hn]
        rfl
    · have hp : printable t = false := by simp [printable, ht]
      rw [if_neg ht, List.filter_cons_of_neg (by simp [hp]), ih]

theorem filter_replicate_zero (n : Nat) : (List.replicate n 0).filter printable = [] := by
  induction n with
  | zero => rfl
  | succ n ih => rw [List.replicate_succ, List.filter_cons_of_neg (by decide), ih]

theorem splice_zero_replicate (n : Nat) (xs : List Nat) (_h : xs.length ≤ n) :
    splice (List.replicate n 0) 0 xs = xs ++ List.replicate (n - xs.length) 0 := by
  simp [splice]

theorem memsetZero_512 (a : List Nat) (h : a.length = 512) :
    memsetZero a 512 = List.replicate 512 0 := by
  unfold memsetZero
  rw [List.drop_of_length_le (by omega), h, Nat.min_self, List.append_nil]

theorem cstr_append_zeros (xs : List Nat) (n : Nat) (h : ∀ x ∈ xs, x ≠ 0) :
    cstr (xs ++ List.replicate n 0) = xs := by
  unfold cstr
  induction xs with
  | nil =>
    cases n with
    | zero => rfl
    | succ n => simp [List.replicate_succ, List.takeWhile]
  | cons x xs ih =>
    have hx : x ≠ 0 := h x (by simp)
    simp only [List.cons_append, List.takeWhile_cons, bne_iff_ne, ne_eq, hx, not_false_eq_true,
      decide_True, if_true]
    rw [ih (fun y hy => h y (by simp [hy]))]

theorem filter_printable_ne_zero (ts : List Nat) : ∀ x ∈ ts.filter printable, x ≠ 0 := by
  intro x hx
  have := (List.mem_filter.mp hx).2
  simp [printable] at this
  omega

theorem kept_length_le (temp : List Nat) : (kept temp).length ≤ 511 := by
  unfold kept
  calc ((temp.take 511).filter printable).length ≤ (temp.take 511).length :=
        List.length_filter_le _ _
    _ ≤ 511 := by simp

/-- `generateString` in terms of the state of `temp` after the body. -/
theorem generateString_eq (st : VMDisplay) (string : List Nat)
    (hcs : st.commandString.length = 512) :
    generateString st string
      = ((putHeader st.ID { pos := 0, arr := List.replicate 512 0 }).bind (putBody st)).bind
          (fun c => if (kept c.arr).length ≤ string.length then
            some { ret := c.pos, string := splice string 0 (kept c.arr),
                   st := { st with
                     commandString := (kept c.arr ++ List.replicate (512 - (kept c.arr).length) 0) } }
            else none) := by
  unfold generateString
  simp only [bind, pure, Option.bind_assoc]
  congr 1
  funext c0
  congr 1
  funext c
  rw [stripLoop_eq, memsetZero_512 _ hcs]
  have hk := kept_length_le c.arr
  unfold kept at hk
  by_cases hfit : (kept c.arr).length ≤ string.length
  · rw [if_pos hfit, if_pos]
    · simp only [Option.some_bind, kept, Nat.zero_add]
      rw [splice_zero_replicate _ _ (by omega)]
    · right
      unfold kept at hfit
      simp only [Nat.zero_add, List.length_replicate]
      omega
  · rw [if_neg hfit, if_neg]
    · rfl
    · unfold kept at hfit
      simp only [Nat.zero_add, List.length_replicate, not_or, not_and]
      constructor
      · intro h0
        rw [h0] at hfit
        simp at hfit
      · intro h1
        omega

theorem length_idBytes_le (ID : Int) : (idBytes ID).length ≤ 3 := by
  unfold idBytes
  split_ifs <;> simp

theorem length_headerBytes_le (ID : Int) : (headerBytes ID).length ≤ 13 := by
  have h := length_idBytes_le ID
  have h1 : (lit "<ID ").length = 4 := by decide
  have h2 : (lit "><CLR>").length = 6 := by decide
  simp only [headerBytes, List.length_append, h1, h2]
  omega

theorem length_maintenanceBytes (m : Int) : (maintenanceBytes m).length = 7 := by
  have h1 : (lit "<MTN ").length = 5 := by decide
  have h2 : (lit ">").length = 1 := by decide
  simp only [maintenanceBytes, List.length_append, h1, h2, List.length_singleton]

theorem headerBytes_ne_nil (ID : Int) : headerBytes ID ≠ [] := by
  have : lit "<ID " ≠ [] := by decide
  simp [headerBytes, this]

theorem kept_splice_zeros (xs : List Nat) (hl : xs.length ≤ 511)
    (hp : ∀ x ∈ xs, printable x = true) : kept (splice (List.replicate 512 0) 0 xs) = xs := by
  rw [splice_zero_replicate _ _ (by omega)]
  unfold kept
  rw [List.take_append_eq_append_take, List.take_of_length_le (by omega), List.filter_append,
    List.take_replicate, filter_replicate_zero, List.append_nil]
  exact List.filter_eq_self.mpr hp

theorem printable_ne_zero (xs : List Nat) (hp : ∀ x ∈ xs, printable x = true) :
    ∀ x ∈ xs, x ≠ 0 := by
  intro x hx h0
  have := hp x hx
  rw [h0] at this
  exact absurd this (by decide)

/-- Maintenance mode: `temp` holds the header and the maintenance tag only. -/
theorem generateString_maintenance (st : VMDisplay) (string : List Nat)
    (hcs : st.commandString.length = 512) (hm : st.maintenanceCommand ≠ 4)
    (hp : ∀ x ∈ headerBytes st.ID ++ maintenanceBytes st.maintenanceCommand, printable x = true)
    (hroom : 20 ≤ string.length) :
    generateString st string
      = some { ret := (headerBytes st.ID ++ maintenanceBytes st.maintenanceCommand).length,
               string := splice string 0
                 (headerBytes st.ID ++ maintenanceBytes st.maintenanceCommand),
               st := { st with
                 commandString := ((headerBytes st.ID ++ maintenanceBytes st.maintenanceCommand)
                   ++ List.replicate
                     (512 - (headerBytes st.ID ++ maintenanceBytes st.maintenanceCommand).length)
                     0) } } := by
  have hl : (headerBytes st.ID ++ maintenanceBytes st.maintenanceCommand).length ≤ 20 := by
    have := length_headerBytes_le st.ID
    have := length_maintenanceBytes st.maintenanceCommand
    simp only [List.length_append]
    omega
  have hbody : putBody st = putMaintenance st.maintenanceCommand := by
    funext c
    simp [putBody, hm]
  have he : (putHeader st.ID { pos := 0, arr := List.replicate 512 0 }).bind
        (putMaintenance st.maintenanceCommand)
      = some { pos := 0 + (headerBytes st.ID ++ maintenanceBytes st.maintenanceCommand).length,
               arr := splice (List.replicate 512 0) 0
                 (headerBytes st.ID ++ maintenanceBytes st.maintenanceCommand) } := by
    have h := Emits.bind (emits_putHeader st.ID) (emits_putMaintenance st.maintenanceCommand)
      { pos := 0, arr := List.replicate 512 0 }
    rw [if_pos (Or.inr (by simp only [List.length_replicate]; omega))] at h
    exact h
  rw [generateString_eq st string hcs, hbody, he]
  simp only [Option.some_bind, Nat.zero_add]
  rw [kept_splice_zeros _ (by omega) hp, if_pos (by omega)]

theorem lit_printable (s : String) (h : (lit s).all printable = true) :
    ∀ x ∈ lit s, printable x = true := by
  simpa [List.all_eq_true] using h

theorem decimal_printable_nat (n : Nat) (h : n < 1000) : (decimal n).all printable = true := by
  rw [decimal_lt_1000 n h]
  have hp : ∀ d : Nat, printable (48 + d) = true := by
    intro d
    simp [printable]
    omega
  split_ifs <;> simp [hp]

theorem headerBytes_printable (ID : Int) (h0 : 0 ≤ ID) (h1 : ID ≤ 999) :
    ∀ x ∈ headerBytes ID, printable x = true := by
  intro x hx
  simp only [headerBytes, List.mem_append] at hx
  rcases hx with hx | hx | hx
  · exact lit_printable _ (by decide) x hx
  · rw [idBytes_eq ID h0 h1] at hx
    have := decimal_printable_nat ID.toNat (by omega)
    exact (List.all_eq_true.mp this) x hx
  · exact lit_printable _ (by decide) x hx

theorem maintenanceBytes_eq (m : Int) (h0 : 0 ≤ m) (h1 : m ≤ 3) :
    maintenanceBytes m = lit "<MTN " ++ decimal m.toNat ++ lit ">" := by
  have : m = 0 ∨ m = 1 ∨ m = 2 ∨ m = 3 := by omega
  rcases this with h | h | h | h <;> subst h <;> decide

theorem maintenanceBytes_printable (m : Int) (h0 : 0 ≤ m) (h1 : m ≤ 3) :
    ∀ x ∈ maintenanceBytes m, printable x = true := by
  have : m = 0 ∨ m = 1 ∨ m = 2 ∨ m = 3 := by omega
  rcases this with h | h | h | h <;> subst h <;> decide

/-- C1. Each of the seven line setters, called with a line index outside 1..4 (zero, five,
negative values included), returns the display state it was given: every line, the maintenance
mode, the compiled command, the transmission buffer, `messageLength` and `completed` are
unchanged. -/
theorem C1_setters_ignore_invalid_line (st : VMDisplay) (l : Int) (h : l < 1 ∨ 4 < l) :
    (∀ b, setLine st l b = st) ∧ (∀ v, setColor st l v = st) ∧ (∀ v, setTextSize st l v = st)
      ∧ (∀ v, setScrollType st l v = st) ∧ (∀ v, setScrollSpeed st l v = st)
      ∧ (∀ v, setBlink st l v = st) ∧ (∀ t, setText st l t = some st) := by
  have hg : l > 4 ∨ l < 1 := by omega
  refine ⟨?_, ?_, ?_, ?_, ?_, ?_, ?_⟩ <;> intro v
  · simp [setLine, hg]
  · simp [setColor, hg]
  · simp [setTextSize, hg]
  · simp [setScrollType, hg]
  · simp [setScrollSpeed, hg]
  · simp [setBlink, hg]
  · simp [setText, hg]

/-- Instance of C1 at line index 5 on a fresh display with ID 7. -/
theorem C1_setters_ignore_invalid_line_witness :
    ((5 : Int) < 1 ∨ (4 : Int) < 5)
      ∧ ((∀ b, setLine (VMDisplay.new 7) 5 b = VMDisplay.new 7)
      ∧ (∀ v, setColor (VMDisplay.new 7) 5 v = VMDisplay.new 7)
      ∧ (∀ v, setTextSize (VMDisplay.new 7) 5 v = VMDisplay.new 7)
      ∧ (∀ v, setScrollType (VMDisplay.new 7) 5 v = VMDisplay.new 7)
      ∧ (∀ v, setScrollSpeed (VMDisplay.new 7) 5 v = VMDisplay.new 7)
      ∧ (∀ v, setBlink (VMDisplay.new 7) 5 v = VMDisplay.new 7)
      ∧ (∀ t, setText (VMDisplay.new 7) 5 t = some (VMDisplay.new 7))) :=
  ⟨by decide, C1_setters_ignore_invalid_line (VMDisplay.new 7) 5 (by decide)⟩

theorem lineAt_modifyLine (st : VMDisplay) (k : Nat) (hk : k < 4) (f : Line → Line) :
    (st.modifyLine (k : Int) f).lineAt k = f (st.lineAt k) := by
  simp [VMDisplay.modifyLine, VMDisplay.lineAt, hk]

theorem lineAt_modifyLine_ne (st : VMDisplay) (k j : Nat) (h : j ≠ k) (f : Line → Line) :
    (st.modifyLine (k : Int) f).lineAt j = st.lineAt j := by
  unfold VMDisplay.modifyLine VMDisplay.lineAt
  by_cases hj : j < 4
  · have : ¬ ((j : Int) = (k : Int)) := by omega
    simp [hj, this]
  · simp [hj]

theorem line_index (l : Int) (hl1 : 1 ≤ l) (hl4 : l ≤ 4) :
    (l - 1).toNat < 4 ∧ l - 1 = (((l - 1).toNat : Nat) : Int) := by
  omega

theorem lineAt_setTextSize (st : VMDisplay) (l s : Int) (hl1 : 1 ≤ l) (hl4 : l ≤ 4) :
    (setTextSize st l s).lineAt (l - 1).toNat
      = { st.lineAt (l - 1).toNat with textSize := specTextSize s } := by
  have hg : ¬ (l > 4 ∨ l < 1) := by omega
  obtain ⟨hk, hc⟩ := line_index l hl1 hl4
  generalize (l - 1).toNat = k at hk hc
  unfold setTextSize specTextSize
  rw [if_neg hg, hc]
  split_ifs <;> rw [lineAt_modifyLine _ _ hk]

theorem sizeDigits_nat : ∀ n : Nat, n < 12 → sizeDigits (n : Int) = decimal n := by
  decide

theorem sizeDigits_eq (s : Int) (h0 : 0 ≤ s) (h1 : s ≤ 11) : sizeDigits s = decimal s.toNat := by
  have := sizeDigits_nat s.toNat (by omega)
  rwa [Int.toNat_of_nonneg h0] at this

theorem specTextSize_range (s : Int) (h0 : 0 ≤ s) (h1 : s ≤ 11) :
    0 ≤ specTextSize s ∧ specTextSize s ≤ 11 := by
  unfold specTextSize
  split_ifs <;> omega

/-- C2. For a line `l` in 1..4 and a size `s` in 0..11, `setTextSize(l, s)` stores the size
`r(s)` with `r(0) = 2`, `r(1) = 0`, `r(2) = 1` and `r(s) = s` from 3 on, and the block that
`lineConfig` stores for that line (the call `generateString` makes for an enabled line when no
maintenance mode is set) has, after the window, position, scroll and blink parts and before
the color and text parts, the tag `<CS k>` with `k` the decimal numeral of `r(s)`: one digit
up to 9, two digits for 10 and 11. -/
theorem C2_text_size_remap (st : VMDisplay) (l s : Int) (p : Nat) (arr : List Nat)
    (hl1 : 1 ≤ l) (hl4 : l ≤ 4) (hs0 : 0 ≤ s) (hs1 : s ≤ 11)
    (ht : 0 ∈ ((setTextSize st l s).lineAt (l - 1).toNat).text)
    (hroom : p + (lineBlock (setTextSize st l s) (l - 1).toNat).length ≤ arr.length) :
    ((setTextSize st l s).lineAt (l - 1).toNat).textSize = specTextSize s
      ∧ (decimal (specTextSize s).toNat).length = (if specTextSize s ≤ 9 then 1 else 2)
      ∧ lineConfig (setTextSize st l s) p (l - 1).toNat arr
          = some (p + (lineBlock (setTextSize st l s) (l - 1).toNat).length - 11,
              splice arr p
                (windowBytes (setTextSize st l s) (l - 1).toNat
                  ++ (positionBytes (l - 1).toNat
                  ++ (scrollBytes (setTextSize st l s) (l - 1).toNat
                  ++ (blinkBytes ((setTextSize st l s).lineAt (l - 1).toNat).blink
                  ++ ((lit "<CS " ++ (decimal (specTextSize s).toNat ++ lit ">"))
                  ++ (colorBytes (setTextSize st l s) (l - 1).toNat
                  ++ textBytes ((setTextSize st l s).lineAt (l - 1).toNat)))))))) := by
  have hsz : ((setTextSize st l s).lineAt (l - 1).toNat).textSize = specTextSize s := by
    rw [lineAt_setTextSize st l s hl1 hl4]
  have hr := specTextSize_range s hs0 hs1
  refine ⟨hsz, ?_, ?_⟩
  · have : ∀ n : Nat, n < 12 → (decimal n).length = (if (n : Int) ≤ 9 then 1 else 2) := by
      decide
    have h := this (specTextSize s).toNat (by omega)
    rwa [Int.toNat_of_nonneg hr.1] at h
  · rw [lineConfig_eq _ _ _ _ ht, if_pos hroom]
    rw [← sizeDigits_eq _ hr.1 hr.2, ← hsz]
    rfl

set_option maxRecDepth 100000 in
/-- Instance of C2: size 0 on line 2 of a fresh display with ID 7 is stored as 2 and compiled
as `<CS 2>`. -/
theorem C2_text_size_remap_witness :
    ((1 : Int) ≤ 2 ∧ (2 : Int) ≤ 4 ∧ (0 : Int) ≤ 0 ∧ (0 : Int) ≤ 11)
      ∧ ((setTextSize (VMDisplay.new 7) 2 0).lineAt 1).textSize = 2
      ∧ (lineConfig (setTextSize (VMDisplay.new 7) 2 0) 11 1 (List.replicate 512 0)).map
          (fun r => (r.2.drop 11).take 32)
          = some (lit "<POS 0 8><LJ><BL N><CS 2><T></T>") :=
  ⟨by decide,
   (C2_text_size_remap (VMDisplay.new 7) 2 0 11 (List.replicate 512 0)
      (by decide) (by decide) (by decide) (by decide) (by decide!) (by decide!)).1,
   by decide!⟩

theorem copyChars_nil (i : Nat) (field : List Nat) : copyChars [] i field = some field := rfl

theorem cstr_replicate_zero (n : Nat) : cstr (List.replicate n 0) = [] := by
  cases n with
  | zero => rfl
  | succ n => simp [cstr, List.replicate_succ]

theorem modifyLine_modifyLine (st : VMDisplay) (i : Int) (f g : Line → Line) :
    (st.modifyLine i f).modifyLine i g = st.modifyLine i (fun ln => g (f ln)) := by
  unfold VMDisplay.modifyLine
  congr 1
  funext j
  by_cases h : (j.val : Int) = i <;> simp [h]

/-- One round of the loop of `resetMessage`, for a valid line index. -/
theorem resetLines_cons (st : VMDisplay) (i : Int) (rest : List Int) (h1 : 1 ≤ i) (h4 : i ≤ 4) :
    resetLines (i :: rest) st = resetLines rest (st.modifyLine (i - 1) resetFields) := by
  have hg : ¬ (i > 4 ∨ i < 1) := by omega
  simp only [resetLines, setText, setColor, setTextSize, setScrollType, setScrollSpeed, setBlink,
    cstr, List.takeWhile_nil, copyChars_nil, Option.map_some', Option.some_bind, if_neg hg,
    if_true, modifyLine_modifyLine]
  rfl

/-- What the loop of `resetMessage` leaves in each line. -/
theorem resetLines_all (st : VMDisplay) :
    resetLines [1, 2, 3, 4] st
      = some { st with line := fun j => resetFields (st.line j) } := by
  rw [resetLines_cons _ _ _ (by decide) (by decide), resetLines_cons _ _ _ (by decide) (by decide),
    resetLines_cons _ _ _ (by decide) (by decide), resetLines_cons _ _ _ (by decide) (by decide)]
  simp only [resetLines, VMDisplay.modifyLine]
  congr 2
  funext j
  fin_cases j <;> simp

/-- C3 (as amended). `resetMessage` always completes and leaves in every line the color GREEN,
the scroll type LEFT_JUSTIFIED, the scroll speed MEDIUM, the blink NONE and an empty text; the
enabled flag of every line is the one it had before the call. -/
theorem C3_reset_restores_line_fields (st : VMDisplay) :
    ∃ st1, resetMessage st = some st1 ∧ ∀ i : Fin 4,
      (st1.line i).isEnabled = (st.line i).isEnabled
        ∧ (st1.line i).color = GREEN
        ∧ (st1.line i).scrollType = LEFT_JUSTIFIED
        ∧ (st1.line i).scrollSpeed = MEDIUM
        ∧ (st1.line i).blink = NONE
        ∧ cstr (st1.line i).text = [] := by
  refine ⟨_, by rw [resetMessage, resetLines_all]; rfl, ?_⟩
  intro i
  refine ⟨rfl, rfl, rfl, rfl, rfl, ?_⟩
  exact cstr_replicate_zero 256

set_option maxRecDepth 100000 in
/-- C3 fails as stated: on a fresh display on which line 2 was enabled, `resetMessage` leaves
line 2 enabled, so the enabled flags are not back to "line 1 only". -/
theorem C3_reset_keeps_enabled_flags_counterexample :
    ∃ st1, resetMessage (setLine (VMDisplay.new 1) 2 true) = some st1
      ∧ ¬ ((st1.line 0).isEnabled = true ∧ (st1.line 1).isEnabled = false
            ∧ (st1.line 2).isEnabled = false ∧ (st1.line 3).isEnabled = false) := by
  refine ⟨_, by rw [resetMessage, resetLines_all]; rfl, ?_⟩
  decide

/-- C5. With a device ID in 0..999 and an active test pattern (RED, GREEN, AMBER or ADVANCED),
`generateString` succeeds for every line configuration, and the command it stores (and copies
to the front of the caller's array) is exactly `<ID n><CLR><MTN d>`, `n` the ID in decimal and
`d` the digit of the pattern; the right-hand side mentions no line, so no line block is
present and two line configurations give the same command. -/
theorem C5_maintenance_only (st : VMDisplay) (string : List Nat)
    (hcs : st.commandString.length = 512) (hid0 : 0 ≤ st.ID) (hid1 : st.ID ≤ 999)
    (hm : st.maintenanceCommand = RED ∨ st.maintenanceCommand = GREEN
      ∨ st.maintenanceCommand = AMBER ∨ st.maintenanceCommand = ADVANCED)
    (hroom : 20 ≤ string.length) :
    ∃ g, generateString st string = some g
      ∧ cstr g.st.commandString
          = lit "<ID " ++ decimal st.ID.toNat ++ lit "><CLR><MTN "
              ++ decimal st.maintenanceCommand.toNat ++ lit ">"
      ∧ g.string = splice string 0 (cstr g.st.commandString)
      ∧ g.st.line = st.line := by
  have hm0 : 0 ≤ st.maintenanceCommand ∧ st.maintenanceCommand ≤ 3 := by
    simp only [RED, GREEN, AMBER, ADVANCED] at hm
    omega
  have hp : ∀ x ∈ headerBytes st.ID ++ maintenanceBytes st.maintenanceCommand,
      printable x = true := by
    intro x hx
    rcases List.mem_append.mp hx with h | h
    · exact headerBytes_printable _ hid0 hid1 x h
    · exact maintenanceBytes_printable _ hm0.1 hm0.2 x h
  have hgen := generateString_maintenance st string hcs (by omega) hp hroom
  have hc : cstr ((headerBytes st.ID ++ maintenanceBytes st.maintenanceCommand)
      ++ List.replicate
        (512 - (headerBytes st.ID ++ maintenanceBytes st.maintenanceCommand).length) 0)
      = headerBytes st.ID ++ maintenanceBytes st.maintenanceCommand :=
    cstr_append_zeros _ _ (printable_ne_zero _ hp)
  have hshape : headerBytes st.ID ++ maintenanceBytes st.maintenanceCommand
      = lit "<ID " ++ decimal st.ID.toNat ++ lit "><CLR><MTN "
          ++ decimal st.maintenanceCommand.toNat ++ lit ">" := by
    rw [maintenanceBytes_eq _ hm0.1 hm0.2, headerBytes, idBytes_eq _ hid0 hid1]
    have : lit "><CLR><MTN " = lit "><CLR>" ++ lit "<MTN " := by decide
    rw [this]
    simp only [List.append_assoc]
  refine ⟨_, hgen, ?_, ?_, rfl⟩
  · rw [hc, hshape]
  · rw [hc]

set_option maxRecDepth 100000 in
/-- Instance of C5: display 123 with three lines of text and the RED test pattern compiles to
`<ID 123><CLR><MTN 1>`. -/
theorem C5_maintenance_only_witness :
    ∃ g, generateString (setTestCondition { threeLineDisplay with ID := 123 } RED)
          (List.replicate 512 0) = some g
      ∧ cstr g.st.commandString = lit "<ID 123><CLR><MTN 1>" := by
  obtain ⟨g, hg, hc, _⟩ := C5_maintenance_only
    (setTestCondition { threeLineDisplay with ID := 123 } RED) (List.replicate 512 0)
    (by decide!) (by decide) (by decide) (by decide) (by decide!)
  refine ⟨g, hg, ?_⟩
  rw [hc]
  decide!

set_option maxRecDepth 100000 in
/-- C6, the failing run: on a fresh display with ID 5 the RED test pattern is set and then
`setTestCondition(NONE)` is called. `NONE` is 3, the value of `ADVANCED`, and the code tests
for 4: the compiled command is `<ID 5><CLR><MTN 3>`, the ADVANCED test pattern, while the
same display with no test pattern ever set compiles the block of line 1. -/
theorem C6_none_compiles_maintenance_tag :
    (generateString (setTestCondition (setTestCondition (VMDisplay.new 5) RED) NONE)
        (List.replicate 512 0)).map (fun g => cstr g.st.commandString)
      = some (lit "<ID 5><CLR><MTN 3>")
    ∧ (generateString (VMDisplay.new 5) (List.replicate 512 0)).map
        (fun g => cstr g.st.commandString)
      = some (lit "<ID 5><CLR><WIN 0 0 287 31><POS 0 0><LJ><BL N><CS 0><GRN><T></T>") := by
  decide!

theorem colorRetained_iff (st : VMDisplay) (i : Nat) :
    colorRetained st i = true
      ↔ (i ≠ 0 ∧ (st.lineAt (i - 1)).isEnabled = true
          ∧ (st.lineAt i).color = (st.lineAt (i - 1)).color) := by
  unfold colorRetained
  by_cases h : i = 0
  · simp [h]
  · simp [h, and_comm]

theorem colorTag_eq_spec (c : Int) (hc : c = GREEN ∨ c = RED ∨ c = AMBER) :
    colorTag c = specColorTag c := by
  simp only [GREEN, RED, AMBER] at hc
  rcases hc with h | h | h <;> subst h <;> rfl

/-- C9. For a line `i` (0-based, so line `i + 1`) whose color is GREEN, RED or AMBER, the block
`lineConfig` stores has, between the `<CS ...>` tag and `<T>`, the color tag of the line unless
the line above exists, is enabled and has the same color, in which case nothing stands there.
For line 1 (`i = 0`) the tag is always present. -/
theorem C9_color_tag_retention (st : VMDisplay) (i p : Nat) (arr : List Nat) (_hi : i < 4)
    (hc : (st.lineAt i).color = GREEN ∨ (st.lineAt i).color = RED
      ∨ (st.lineAt i).color = AMBER)
    (ht : 0 ∈ (st.lineAt i).text)
    (hroom : p + (lineBlock st i).length ≤ arr.length) :
    lineConfig st p i arr
      = some (p + (lineBlock st i).length - 11,
          splice arr p
            (windowBytes st i ++ (positionBytes i ++ (scrollBytes st i
              ++ (blinkBytes (st.lineAt i).blink ++ (textSizeBytes (st.lineAt i).textSize
              ++ ((if i ≠ 0 ∧ (st.lineAt (i - 1)).isEnabled = true
                      ∧ (st.lineAt i).color = (st.lineAt (i - 1)).color then []
                    else specColorTag (st.lineAt i).color)
              ++ (lit "<T>" ++ (cstr (st.lineAt i).text ++ lit "</T>"))))))))) := by
  rw [lineConfig_eq _ _ _ _ ht, if_pos hroom]
  have hcb : colorBytes st i
      = (if i ≠ 0 ∧ (st.lineAt (i - 1)).isEnabled = true
            ∧ (st.lineAt i).color = (st.lineAt (i - 1)).color then []
          else specColorTag (st.lineAt i).color) := by
    unfold colorBytes
    by_cases h : colorRetained st i = true
    · rw [if_pos ((colorRetained_iff st i).mp h)]
      simp [h]
    · rw [if_neg (fun h2 => h ((colorRetained_iff st i).mpr h2)), colorTag_eq_spec _ hc]
      simp [h]
  rw [← hcb]
  rfl

set_option maxRecDepth 100000 in
/-- Instance of C9: line 2 of the three-line display follows an enabled GREEN line and is
GREEN itself, so its block has no color tag; after `setColor(2, RED)` the tag `<RED>` is
there. -/
theorem C9_color_tag_retention_witness :
    (lineConfig threeLineDisplay 11 1 (List.replicate 512 0)).map
        (fun r => (r.2.drop 11).take 28)
      = some (lit "<POS 0 8><LJ><BL N><CS 0><T>")
    ∧ (lineConfig (setColor threeLineDisplay 2 RED) 11 1 (List.replicate 512 0)).map
        (fun r => (r.2.drop 11).take 33)
      = some (lit "<POS 0 8><LJ><BL N><CS 0><RED><T>") := by
  constructor
  · rw [C9_color_tag_retention threeLineDisplay 1 11 (List.replicate 512 0) (by decide)
      (by decide) (by decide!) (by decide!)]
    decide!
  · rw [C9_color_tag_retention (setColor threeLineDisplay 2 RED) 1 11 (List.replicate 512 0)
      (by decide) (by decide) (by decide!) (by decide!)]
    decide!

theorem filter_take_of_zeros (arr : List Nat) (e p : Nat) (n : Nat) (he : e ≤ p)
    (hz : arr.drop e = List.replicate n 0) :
    (arr.take p).filter printable = (arr.take e).filter printable := by
  obtain ⟨d, rfl⟩ : ∃ d, p = e + d := ⟨p - e, by omega⟩
  rw [List.take_add, List.filter_append, hz, List.take_replicate, filter_replicate_zero,
    List.append_nil]

theorem drop_of_zeros (arr : List Nat) (e p : Nat) (n : Nat) (he : e ≤ p)
    (hz : arr.drop e = List.replicate n 0) :
    arr.drop p = List.replicate (n - (p - e)) 0 := by
  obtain ⟨d, rfl⟩ : ∃ d, p = e + d := ⟨p - e, by omega⟩
  rw [← List.drop_drop, hz, List.drop_replicate]
  congr 1
  omega

theorem take_splice (arr : List Nat) (p : Nat) (xs : List Nat) (h : p + xs.length ≤ arr.length) :
    (splice arr p xs).take (p + xs.length) = arr.take p ++ xs := by
  unfold splice
  rw [List.take_append_of_le_length (by simp; omega), List.take_of_length_le (by simp)]

theorem drop_splice (arr : List Nat) (p : Nat) (xs : List Nat) (h : p + xs.length ≤ arr.length) :
    (splice arr p xs).drop (p + xs.length) = arr.drop (p + xs.length) := by
  unfold splice
  have hl : (arr.take p ++ xs).length = p + xs.length := by simp; omega
  rw [← hl, List.drop_left]

theorem take_splice_init (arr : List Nat) (p : Nat) (xs : List Nat) (x : Nat)
    (h : p + (xs ++ [x]).length ≤ arr.length) :
    (splice arr p (xs ++ [x])).take (p + xs.length) = arr.take p ++ xs := by
  unfold splice
  have hl : (arr.take p ++ xs).length = p + xs.length := by simp; omega
  rw [List.append_assoc, List.append_assoc, ← List.append_assoc (arr.take p) xs, ← hl,
    List.take_left]

theorem bind_none_of {α β : Type} (o : Option α) (f : α → Option β) (h : ∀ a, f a = none) :
    o >>= f = none := by
  cases o with
  | none => rfl
  | some a => exact h a

theorem lineConfig_unterminated (st : VMDisplay) (p i : Nat) (arr : List Nat)
    (h : 0 ∉ (st.lineAt i).text) : lineConfig st p i arr = none := by
  have hb : putBlock st i { pos := p, arr := arr } = none :=
    bind_none_of _ _ (fun _ => bind_none_of _ _ (fun _ => bind_none_of _ _ (fun _ =>
      bind_none_of _ _ (fun _ => bind_none_of _ _ (fun _ => bind_none_of _ _ (fun c =>
        putText_unterminated _ h c))))))
  unfold lineConfig
  rw [hb]
  rfl

theorem lineConfig_some (st : VMDisplay) (p i : Nat) (arr : List Nat) (r : Nat × List Nat)
    (h : lineConfig st p i arr = some r) :
    0 ∈ (st.lineAt i).text ∧ p + (lineBlock st i).length ≤ arr.length
      ∧ r = (p + (lineBlock st i).length - 11, splice arr p (lineBlock st i)) := by
  by_cases ht : 0 ∈ (st.lineAt i).text
  · rw [lineConfig_eq _ _ _ _ ht] at h
    by_cases hf : p + (lineBlock st i).length ≤ arr.length
    · rw [if_pos hf] at h
      exact ⟨ht, hf, (Option.some.inj h).symm⟩
    · rw [if_neg hf] at h
      exact absurd h (by simp)
  · rw [lineConfig_unterminated _ _ _ _ ht] at h
    exact absurd h (by simp)

theorem lineBlock_ends (st : VMDisplay) (i : Nat) :
    ∃ B0, lineBlock st i = B0 ++ [62] := by
  have : lit "</T>" = lit "</T" ++ [62] := by decide
  refine ⟨windowBytes st i ++ (positionBytes i ++ (scrollBytes st i
    ++ (blinkBytes (st.lineAt i).blink ++ (textSizeBytes (st.lineAt i).textSize
    ++ (colorBytes st i ++ (lit "<T>" ++ (cstr (st.lineAt i).text ++ lit "</T"))))))), ?_⟩
  simp only [lineBlock, textBytes, this, List.append_assoc]

theorem filter_printable_snoc_gt (xs : List Nat) :
    (xs ++ [62]).filter printable = xs.filter printable ++ [62] := by
  rw [List.filter_append]
  rfl

/-- One enabled line keeps the layout invariant of `temp`. -/
theorem laid_step (st : VMDisplay) (H K : List Nat) (c : Cur) (i : Nat) (r : Nat × List Nat)
    (hL : Laid H c K) (hr : lineConfig st c.pos i c.arr = some r) :
    Laid H { pos := c.pos + r.1, arr := r.2 } (K ++ (lineBlock st i).filter printable) := by
  obtain ⟨hlen, hpos, e, hep, he, hz, hk, hfull⟩ := hL
  obtain ⟨_, hfit, rfl⟩ := lineConfig_some st c.pos i c.arr r hr
  have hne := lineBlock_ne_nil st i
  have hBpos : 0 < (lineBlock st i).length := List.length_pos.mpr hne
  rw [hlen] at hfit
  have hfit2 : c.pos + (lineBlock st i).length ≤ c.arr.length := by omega
  refine ⟨?_, ?_, c.pos + (lineBlock st i).length, ?_, hfit, ?_, ?_, ?_⟩
  · show (splice c.arr c.pos (lineBlock st i)).length = 512
    rw [length_splice _ _ _ hfit2, hlen]
  · show 11 ≤ c.pos + (c.pos + (lineBlock st i).length - 11)
    omega
  · show c.pos + (lineBlock st i).length ≤ c.pos + (c.pos + (lineBlock st i).length - 11)
    omega
  · show (splice c.arr c.pos (lineBlock st i)).drop (c.pos + (lineBlock st i).length) = _
    rw [drop_splice _ _ _ hfit2, drop_of_zeros c.arr e _ _ (by omega) hz]
    congr 1
    omega
  · show ((splice c.arr c.pos (lineBlock st i)).take (c.pos + (lineBlock st i).length)).filter
      printable = _
    rw [take_splice _ _ _ hfit2, List.filter_append, filter_take_of_zeros c.arr e c.pos _ hep hz,
      hk, List.append_assoc]
  · intro h512
    obtain ⟨B0, hB0⟩ := lineBlock_ends st i
    refine ⟨K ++ B0.filter printable, ?_, ?_⟩
    · rw [hB0, filter_printable_snoc_gt, List.append_assoc]
    · show ((splice c.arr c.pos (lineBlock st i)).take 511).filter printable = _
      have h511 : 511 = c.pos + B0.length := by
        rw [hB0] at h512
        simp only [List.length_append, List.length_singleton] at h512
        omega
      rw [h511]
      have hfit3 : c.pos + (B0 ++ [62]).length ≤ c.arr.length := by rw [← hB0]; exact hfit2
      rw [hB0, take_splice_init _ _ _ _ hfit3, List.filter_append,
        filter_take_of_zeros c.arr e c.pos _ hep hz, hk, List.append_assoc]

/-- The loop over the lines keeps the layout invariant and appends the blocks of the enabled
lines. -/
theorem laid_putLines (st : VMDisplay) (H : List Nat) (is : List Nat) :
    ∀ (c c1 : Cur) (K : List Nat), Laid H c K → putLines st is c = some c1 →
      Laid H c1 (K ++ (blocksOf st is).filter printable) := by
  induction is with
  | nil =>
    intro c c1 K hL h
    simp only [putLines, Option.some.injEq] at h
    subst h
    simpa [blocksOf] using hL
  | cons i rest ih =>
    intro c c1 K hL h
    rw [putLines] at h
    by_cases hen : (st.lineAt i).isEnabled = true
    · rw [if_pos hen] at h
      cases hr : lineConfig st c.pos i c.arr with
      | none => rw [hr] at h; exact absurd h (by simp)
      | some r =>
        rw [hr] at h
        have := ih _ c1 _ (laid_step st H K c i r hL hr) h
        simpa [blocksOf, hen, List.append_assoc] using this
    · rw [if_neg hen] at h
      have := ih c c1 K hL h
      simpa [blocksOf, hen] using this

/-- After the header of a display with ID in 0..999 the layout invariant holds. -/
theorem laid_header (ID : Int) (h0 : 0 ≤ ID) (h1 : ID ≤ 999) :
    putHeader ID { pos := 0, arr := List.replicate 512 0 }
      = some { pos := (headerBytes ID).length,
               arr := headerBytes ID ++ List.replicate (512 - (headerBytes ID).length) 0 }
    ∧ Laid (headerBytes ID)
        { pos := (headerBytes ID).length,
          arr := headerBytes ID ++ List.replicate (512 - (headerBytes ID).length) 0 } [] := by
  have hl := length_headerBytes_le ID
  have hl11 : 11 ≤ (headerBytes ID).length := by
    have h1 : (lit "<ID ").length = 4 := by decide
    have h2 : (lit "><CLR>").length = 6 := by decide
    have h3 : 0 < (idBytes ID).length := by
      unfold idBytes
      split_ifs <;> simp
    simp only [headerBytes, List.length_append, h1, h2]
    omega
  constructor
  · have h := emits_putHeader ID { pos := 0, arr := List.replicate 512 0 }
    rw [if_pos (Or.inr (by simp only [List.length_replicate]; omega))] at h
    rw [h]
    simp only [Nat.zero_add]
    rw [splice_zero_replicate _ _ (by omega)]
  · refine ⟨by simp; omega, hl11, (headerBytes ID).length, Nat.le_refl _, by omega, ?_, ?_, ?_⟩
    · show (headerBytes ID ++ _).drop _ = _
      rw [List.drop_left]
    · show ((headerBytes ID ++ _).take _).filter printable = _
      rw [List.take_left, List.append_nil]
      exact List.filter_eq_self.mpr (headerBytes_printable ID h0 h1)
    · intro h
      omega

/-- What the copy loop of `generateString` finds in a `temp` that satisfies the invariant. -/
theorem laid_kept (H K : List Nat) (c : Cur) (hL : Laid H c K) :
    ∃ K1, kept c.arr = H ++ K1 ∧ (K1 = K ∨ K1 ++ [62] = K) := by
  obtain ⟨hlen, _, e, _, he, hz, hk, hfull⟩ := hL
  by_cases h512 : e = 512
  · obtain ⟨K1, hK1, hk1⟩ := hfull h512
    exact ⟨K1, hk1, Or.inr hK1.symm⟩
  · refine ⟨K, ?_, Or.inl rfl⟩
    unfold ViewMarq.kept
    rw [filter_take_of_zeros c.arr e 511 _ (by omega) hz, hk]

theorem kept_splice_zeros_filter (xs : List Nat) (hl : xs.length ≤ 511) :
    kept (splice (List.replicate 512 0) 0 xs) = xs.filter printable := by
  rw [splice_zero_replicate _ _ (by omega)]
  unfold kept
  rw [List.take_append_eq_append_take, List.take_of_length_le (by omega), List.filter_append,
    List.take_replicate, filter_replicate_zero, List.append_nil]

theorem cstr_kept (temp : List Nat) (n : Nat) :
    cstr (kept temp ++ List.replicate n 0) = kept temp :=
  cstr_append_zeros _ _ (filter_printable_ne_zero _)

/-- The command compiled when no maintenance mode is set: the header, then the printable
characters of the blocks of the enabled lines, short of the final `>` when `temp` was filled to
its last element. -/
theorem generateString_lines (st : VMDisplay) (string : List Nat) (g : Generated)
    (hcs : st.commandString.length = 512) (h0 : 0 ≤ st.ID) (h1 : st.ID ≤ 999)
    (hm : st.maintenanceCommand = 4) (hg : generateString st string = some g) :
    ∃ K1, cstr g.st.commandString = headerBytes st.ID ++ K1
      ∧ (K1 = (blocksOf st [0, 1, 2, 3]).filter printable
          ∨ K1 ++ [62] = (blocksOf st [0, 1, 2, 3]).filter printable)
      ∧ g.string = splice string 0 (headerBytes st.ID ++ K1) := by
  obtain ⟨hh, hL⟩ := laid_header st.ID h0 h1
  rw [generateString_eq st string hcs, hh] at hg
  have hbody : putBody st = putLines st [0, 1, 2, 3] := by
    funext c
    simp [putBody, hm]
  rw [hbody] at hg
  simp only [Option.some_bind] at hg
  cases hp : putLines st [0, 1, 2, 3]
      { pos := (headerBytes st.ID).length,
        arr := headerBytes st.ID ++ List.replicate (512 - (headerBytes st.ID).length) 0 } with
  | none => rw [hp] at hg; exact absurd hg (by simp)
  | some c =>
    rw [hp] at hg
    simp only [Option.some_bind] at hg
    have hL2 := laid_putLines st _ _ _ c [] hL hp
    obtain ⟨K1, hk, hK⟩ := laid_kept _ _ c hL2
    rw [List.nil_append] at hK
    by_cases hroom : (kept c.arr).length ≤ string.length
    · rw [if_pos hroom] at hg
      have hg2 := (Option.some.inj hg).symm
      subst hg2
      refine ⟨K1, ?_, hK, ?_⟩
      · show cstr (kept c.arr ++ _) = _
        rw [cstr_kept, hk]
      · show splice string 0 (kept c.arr) = _
        rw [hk]
    · rw [if_neg hroom] at hg
      exact absurd hg (by simp)

/-- The command compiled in maintenance mode starts with the header. -/
theorem generateString_maintenance_header (st : VMDisplay) (string : List Nat) (g : Generated)
    (hcs : st.commandString.length = 512) (h0 : 0 ≤ st.ID) (h1 : st.ID ≤ 999)
    (hm : st.maintenanceCommand ≠ 4) (hg : generateString st string = some g) :
    cstr g.st.commandString
      = headerBytes st.ID ++ (maintenanceBytes st.maintenanceCommand).filter printable := by
  have hl : (headerBytes st.ID ++ maintenanceBytes st.maintenanceCommand).length ≤ 20 := by
    have := length_headerBytes_le st.ID
    have := length_maintenanceBytes st.maintenanceCommand
    simp only [List.length_append]
    omega
  have hbody : putBody st = putMaintenance st.maintenanceCommand := by
    funext c
    simp [putBody, hm]
  have he : (putHeader st.ID { pos := 0, arr := List.replicate 512 0 }).bind
        (putMaintenance st.maintenanceCommand)
      = some { pos := 0 + (headerBytes st.ID ++ maintenanceBytes st.maintenanceCommand).length,
               arr := splice (List.replicate 512 0) 0
                 (headerBytes st.ID ++ maintenanceBytes st.maintenanceCommand) } := by
    have h := Emits.bind (emits_putHeader st.ID) (emits_putMaintenance st.maintenanceCommand)
      { pos := 0, arr := List.replicate 512 0 }
    rw [if_pos (Or.inr (by simp only [List.length_replicate]; omega))] at h
    exact h
  rw [generateString_eq st string hcs, hbody, he] at hg
  simp only [Option.some_bind] at hg
  have hk := kept_splice_zeros_filter (headerBytes st.ID ++ maintenanceBytes st.maintenanceCommand)
    (by omega)
  rw [List.filter_append, List.filter_eq_self.mpr (headerBytes_printable _ h0 h1)] at hk
  by_cases hroom : (kept (splice (List.replicate 512 0) 0
      (headerBytes st.ID ++ maintenanceBytes st.maintenanceCommand))).length ≤ string.length
  · rw [if_pos hroom] at hg
    have hg2 := (Option.some.inj hg).symm
    subst hg2
    show cstr (kept _ ++ _) = _
    rw [cstr_kept, hk]
  · rw [if_neg hroom] at hg
    exact absurd hg (by simp)

theorem decimal_length_nat (n : Nat) (h : n < 1000) :
    (decimal n).length = (if n ≤ 9 then 1 else if n ≤ 99 then 2 else 3) := by
  rw [decimal_lt_1000 n h]
  split_ifs <;> rfl

/-- C8. For a device ID in 0..999, whenever `generateString` completes (no store outside an
array), the compiled command is `<ID `, the ID in decimal (one digit up to 9, two up to 99,
three up to 999, no leading zero), `><CLR>`, followed by the rest of the command. -/
theorem C8_id_field (st : VMDisplay) (string : List Nat) (g : Generated)
    (hcs : st.commandString.length = 512) (h0 : 0 ≤ st.ID) (h1 : st.ID ≤ 999)
    (hg : generateString st string = some g) :
    (∃ rest, cstr g.st.commandString
        = lit "<ID " ++ decimal st.ID.toNat ++ lit "><CLR>" ++ rest)
      ∧ (decimal st.ID.toNat).length
          = (if st.ID ≤ 9 then 1 else if st.ID ≤ 99 then 2 else 3) := by
  have hH : headerBytes st.ID = lit "<ID " ++ decimal st.ID.toNat ++ lit "><CLR>" := by
    rw [headerBytes, idBytes_eq _ h0 h1, List.append_assoc]
  constructor
  · by_cases hm : st.maintenanceCommand = 4
    · obtain ⟨K1, hk, _⟩ := generateString_lines st string g hcs h0 h1 hm hg
      exact ⟨K1, by rw [hk, hH]⟩
    · exact ⟨_, by rw [generateString_maintenance_header st string g hcs h0 h1 hm hg, hH]⟩
  · have h := decimal_length_nat st.ID.toNat (by omega)
    rw [h]
    have e9 : (st.ID.toNat ≤ 9) = (st.ID ≤ 9) := by
      apply propext; constructor <;> intro h <;> omega
    have e99 : (st.ID.toNat ≤ 99) = (st.ID ≤ 99) := by
      apply propext; constructor <;> intro h <;> omega
    simp only [e9, e99]

theorem packLoop_eq : ∀ (text : List Nat) (tp : Nat) (temp : List Nat),
    packLoop text tp temp
      = if packPairs text = [] ∨ tp + (packPairs text).length ≤ temp.length then
          some (tp + (packPairs text).length, splice temp tp (packPairs text),
            decide (text.length % 2 = 1))
        else none
  | [], tp, temp => by simp [packLoop, packPairs, splice_nil]
  | [a], tp, temp => by
    rw [packLoop, store_eq]
    by_cases h1 : tp < temp.length
    · rw [if_pos h1]
      simp only [Option.some_bind]
      rw [store_eq, length_splice _ _ _ (by simpa using h1)]
      by_cases h2 : tp + 1 < temp.length
      · rw [if_pos h2]
        have hs := splice_splice temp tp [(0x0D * 256 + a) % 65536]
          [(0xCC * 256 + 0x0D) % 65536] (by simpa using h1)
        simp only [List.length_singleton, List.singleton_append] at hs
        rw [hs, if_pos (Or.inr (by simp [packPairs]; omega))]
        simp [packPairs]
      · rw [if_neg h2, if_neg (by simp [packPairs]; omega)]
        rfl
    · rw [if_neg h1, if_neg (by simp [packPairs]; omega)]
      rfl
  | a :: b :: rest, tp, temp => by
    rw [packLoop, store_eq]
    by_cases h1 : tp < temp.length
    · rw [if_pos h1]
      simp only [Option.some_bind]
      rw [packLoop_eq rest (tp + 1), length_splice _ _ _ (by simpa using h1)]
      have hs := splice_splice temp tp [(b * 256 + a) % 65536] (packPairs rest)
        (by simpa using h1)
      simp only [List.length_singleton, List.singleton_append] at hs
      rw [hs]
      have hpar : decide ((a :: b :: rest).length % 2 = 1) = decide (rest.length % 2 = 1) := by
        simp only [List.length_cons]
        congr 1
        apply propext
        omega
      by_cases hfit : tp + 1 + (packPairs rest).length ≤ temp.length
      · rw [if_pos (Or.inr hfit), if_pos (Or.inr (by simp [packPairs]; omega)), hpar]
        simp [packPairs, Nat.add_assoc, Nat.add_comm 1]
      · by_cases hr : packPairs rest = []
        · rw [if_pos (Or.inl hr), if_pos (Or.inr (by simp [packPairs, hr]; omega)), hpar]
          simp [packPairs, hr]
        · rw [if_neg (by simp [hr]; omega), if_neg (by simp [packPairs]; omega)]
    · rw [if_neg h1, if_neg (by simp [packPairs]; omega)]
      rfl

theorem length_packPairs : ∀ text : List Nat,
    (packPairs text).length = text.length / 2 + 2 * (text.length % 2)
  | [] => rfl
  | [a] => by simp [packPairs]
  | a :: b :: rest => by
    simp only [packPairs, List.length_cons, length_packPairs rest]
    omega

theorem length_packed (text : List Nat) :
    (packed text).length = if text.length % 2 = 0 then text.length / 2 + 1
      else (text.length + 3) / 2 := by
  unfold packed
  rw [List.length_append, length_packPairs]
  split_ifs with h <;> simp <;> omega

/-- The packing loop and the final terminator word, as one store of `packed text`. -/
theorem packLoop_packEnd (text : List Nat) (temp : List Nat)
    (h : (packed text).length ≤ temp.length) :
    (packLoop text 0 temp).bind packEnd
      = some ((packed text).length, splice temp 0 (packed text)) := by
  have hl := length_packPairs text
  have hlp := length_packed text
  rw [packLoop_eq]
  by_cases hpar : text.length % 2 = 0
  · rw [if_pos hpar] at hlp
    have hfit : 0 + (packPairs text).length ≤ temp.length := by omega
    rw [if_pos (Or.inr hfit)]
    simp only [Option.some_bind, packEnd, Nat.zero_add]
    have hodd : decide (text.length % 2 = 1) = false := by simp; omega
    rw [hodd]
    simp only [Bool.not_false, if_true]
    rw [store_eq, length_splice _ _ _ hfit, if_pos (by omega)]
    have hs := splice_splice temp 0 (packPairs text) [(0x0D * 256 + 0x0D) % 65536] hfit
    simp only [Nat.zero_add] at hs
    rw [hs]
    simp [packed, hpar]
  · rw [if_neg hpar] at hlp
    have hp : packed text = packPairs text := by simp [packed, hpar]
    rw [hp] at h hlp ⊢
    have hfit : 0 + (packPairs text).length ≤ temp.length := by omega
    rw [if_pos (Or.inr hfit)]
    have hodd : decide (text.length % 2 = 1) = true := by simp; omega
    simp [packEnd, hodd]

theorem packPairs_getElem? : ∀ (text : List Nat) (k : Nat), 2 * k + 1 < text.length →
    (packPairs text)[k]? = some ((text.getD (2 * k + 1) 0 * 256 + text.getD (2 * k) 0) % 65536)
  | [], k, h => by simp at h
  | [a], k, h => by simp at h
  | a :: b :: rest, 0, _ => by simp [packPairs]
  | a :: b :: rest, k + 1, h => by
    have h2 : 2 * k + 1 < rest.length := by simp at h; omega
    have ih := packPairs_getElem? rest k h2
    have e1 : 2 * (k + 1) + 1 = (2 * k + 1) + 1 + 1 := by omega
    have e2 : 2 * (k + 1) = (2 * k) + 1 + 1 := by omega
    rw [e1, e2]
    simpa [packPairs] using ih

theorem packPairs_odd_last : ∀ (text : List Nat), text.length % 2 = 1 →
    (packPairs text)[(text.length - 1) / 2]?
        = some ((0x0D * 256 + text.getD (text.length - 1) 0) % 65536)
      ∧ (packPairs text)[(text.length + 1) / 2]? = some ((0xCC * 256 + 0x0D) % 65536)
  | [], h => by simp at h
  | [a], _ => by simp [packPairs]
  | a :: b :: rest, h => by
    have h2 : rest.length % 2 = 1 := by simp at h; omega
    have hpos : 0 < rest.length := by omega
    obtain ⟨ih1, ih2⟩ := packPairs_odd_last rest h2
    have e1 : ((a :: b :: rest).length - 1) / 2 = (rest.length - 1) / 2 + 1 := by
      simp only [List.length_cons]; omega
    have e2 : ((a :: b :: rest).length + 1) / 2 = (rest.length + 1) / 2 + 1 := by
      simp only [List.length_cons]; omega
    have e3 : (a :: b :: rest).length - 1 = (rest.length - 1) + 1 + 1 := by
      simp only [List.length_cons]; omega
    rw [e1, e2, e3]
    simpa [packPairs] using And.intro ih1 ih2

theorem unpack_packPairs_even : ∀ (text : List Nat), text.length % 2 = 0 →
    (∀ c ∈ text, c < 256) → unpackWords (packPairs text) = text
  | [], _, _ => rfl
  | [a], h, _ => by simp at h
  | a :: b :: rest, h, hb => by
    have h2 : rest.length % 2 = 0 := by simp at h; omega
    have ha : a < 256 := hb a (by simp)
    have hb2 : b < 256 := hb b (by simp)
    have ih := unpack_packPairs_even rest h2 (fun c hc => hb c (by simp [hc]))
    have hw : (b * 256 + a) % 65536 = b * 256 + a := Nat.mod_eq_of_lt (by omega)
    have e1 : (b * 256 + a) % 256 = a := by omega
    have e2 : (b * 256 + a) / 256 = b := by omega
    simp only [packPairs, unpackWords, wordBytes, hw, e1, e2, ih]
    rfl

theorem getElem?_splice_lt (arr : List Nat) (xs : List Nat) (k : Nat) (h : k < xs.length) :
    (splice arr 0 xs)[k]? = xs[k]? := by
  simp only [splice, List.take_zero, List.nil_append]
  rw [List.getElem?_append_left h]

theorem copyWords_getElem? (temp : List Nat) (tp k : Nat) (hk : k < 512) :
    (copyWords temp tp)[k]? = some (if k > tp then 0 else temp.getD k 0) := by
  unfold copyWords
  rw [List.getElem?_map, List.getElem?_range hk]
  rfl

theorem length_copyWords (temp : List Nat) (tp : Nat) : (copyWords temp tp).length = 512 := by
  simp [copyWords]

/-- Word `k` of the transmission buffer after the copy loop, for a `k` inside the message. -/
theorem copyWords_splice_getElem? (temp W : List Nat) (k : Nat) (hk : k < W.length)
    (hW : W.length ≤ 512) :
    (copyWords (splice temp 0 W) W.length)[k]? = W[k]? := by
  rw [copyWords_getElem? _ _ _ (by omega), if_neg (by omega)]
  have := getElem?_splice_lt temp W k hk
  rw [List.getD_eq_getElem?_getD, this, List.getElem?_eq_getElem hk]
  rfl

theorem length_memsetZero (a : List Nat) (n : Nat) : (memsetZero a n).length = a.length := by
  simp [memsetZero]
  omega

theorem strcpyCommand_eq (text : List Nat) (h : (cstr text).length ≤ 511) :
    strcpyCommand text
      = some (cstr text ++ List.replicate (512 - (cstr text).length) 0) := by
  unfold strcpyCommand
  have hlen : (cstr text ++ [0]).length = (cstr text).length + 1 := by
    rw [List.length_append]; rfl
  have hfit : (cstr text ++ [0] = []) ∨ 0 + (cstr text ++ [0]).length
      ≤ (List.replicate 512 0).length := by
    right
    rw [hlen, List.length_replicate]
    omega
  rw [writeLoop_eq, if_pos hfit, splice_zero_replicate _ _ (by rw [hlen]; omega), hlen]
  congr 1
  have e : 512 - (cstr text).length = (512 - ((cstr text).length + 1)) + 1 := by omega
  rw [e, List.replicate_succ, List.append_assoc]
  rfl

/-- `writeMessage(text)` for a text of at most 511 characters. -/
theorem writeMessageText_eq (st : VMDisplay) (text junk : List Nat)
    (h : (cstr text).length ≤ 511) (hj : junk.length = 512) :
    writeMessageText st text junk
      = some { st with
          commandString := (cstr text ++ List.replicate (512 - (cstr text).length) 0)
          completed := false
          commandData := copyWords (splice (memsetZero junk 256) 0 (packed (cstr text)))
            (packed (cstr text)).length
          messageLength := ((packed (cstr text)).length : Int) } := by
  have hl := length_packed (cstr text)
  have hfit : (packed (cstr text)).length ≤ (memsetZero junk 256).length := by
    rw [length_memsetZero, hj, hl]
    split_ifs <;> omega
  have hp := packLoop_packEnd (cstr text) (memsetZero junk 256) hfit
  unfold writeMessageText
  simp only [bind, pure, strcpyCommand_eq text h, Option.some_bind]
  rw [← Option.bind_assoc, hp]
  rfl

theorem putLines_enabled (st : VMDisplay) (i : Nat) (rest : List Nat) (c : Cur)
    (hen : (st.lineAt i).isEnabled = true) (ht : 0 ∈ (st.lineAt i).text)
    (hfit : c.pos + (lineBlock st i).length ≤ c.arr.length) :
    putLines st (i :: rest) c
      = putLines st rest { pos := c.pos + (c.pos + (lineBlock st i).length - 11),
                           arr := splice c.arr c.pos (lineBlock st i) } := by
  rw [putLines, if_pos hen, lineConfig_eq _ _ _ _ ht, if_pos hfit]
  rfl

theorem putLines_disabled (st : VMDisplay) (i : Nat) (rest : List Nat) (c : Cur)
    (hen : (st.lineAt i).isEnabled = false) :
    putLines st (i :: rest) c = putLines st rest c := by
  rw [putLines, if_neg (by simp [hen])]

theorem putBody_lines (st : VMDisplay) (c : Cur) (hm : st.maintenanceCommand = 4) :
    putBody st c = putLines st [0, 1, 2, 3] c := by
  simp [putBody, hm]

set_option maxRecDepth 100000 in
/-- C4, the failing run: after `writeMessage` of a command of 511 characters `A` on a fresh
display (the local `temp` holding zeros on entry), `resetMessage` empties the compiled command
and clears `messageLength` and `completed`, but word 256 of the transmission buffer still holds
the terminator word `0xCC0D`. -/
theorem C4_reset_leaves_word_256 :
    ((writeMessageText (VMDisplay.new 1) (List.replicate 511 65) (List.replicate 512 0)).bind
        resetMessage).map
      (fun s => (s.commandData.getD 256 0, s.commandData.length, s.messageLength, s.completed,
        cstr s.commandString))
      = some (0xCC0D, 512, 0, false, []) := by
  rw [writeMessageText_eq _ _ _ (by decide!) (by decide!)]
  simp only [Option.some_bind, resetMessage, resetLines_all, Option.map_some']
  decide!

set_option maxRecDepth 100000 in
/-- C7, the failing run: display 5 with lines 1, 2 and 3 enabled and texts of 100, 65 and 65
characters. Header and blocks are 359 characters, but `lineConfig` returns `pos - 11`, so
`generateString` leaves a run of NUL after line 1 and after line 2 in `temp`; the block of
line 3 ends at index 511, the copy loop stops at index 510, and the compiled command is the
expected one without its final `>` (358 characters). The returned count is 915. -/
theorem C7_three_lines_lose_last_character :
    (lit "<ID 5><CLR>" ++ lineBlock threeLineDisplay 0 ++ lineBlock threeLineDisplay 1
        ++ lineBlock threeLineDisplay 2).length = 359
    ∧ (generateString threeLineDisplay (List.replicate 512 0)).map
        (fun g => (cstr g.st.commandString ++ lit ">", (cstr g.st.commandString).length, g.ret))
      = some (lit "<ID 5><CLR>" ++ lineBlock threeLineDisplay 0 ++ lineBlock threeLineDisplay 1
          ++ lineBlock threeLineDisplay 2, 358, 915) := by
  refine ⟨by decide!, ?_⟩
  rw [generateString_eq _ _ (by decide!), (laid_header threeLineDisplay.ID (by decide)
    (by decide)).1, Option.some_bind, putBody_lines _ _ (by decide),
    putLines_enabled _ _ _ _ (by decide) (by decide!) (by decide!),
    putLines_enabled _ _ _ _ (by decide) (by decide!) (by decide!),
    putLines_enabled _ _ _ _ (by decide) (by decide!) (by decide!),
    putLines_disabled _ _ _ _ (by decide), putLines, Option.some_bind,
    if_pos (by decide!), Option.map_some', cstr_kept]
  decide!

set_option maxRecDepth 100000 in
/-- Instance of C8: the demo display, ID 123, compiles a command that starts with
`<ID 123><CLR>`. -/
theorem C8_id_field_witness :
    ∃ g, generateString demoDisplay (List.replicate 512 0) = some g
      ∧ ∃ rest, cstr g.st.commandString = lit "<ID 123><CLR>" ++ rest := by
  have hsome : (generateString demoDisplay (List.replicate 512 0)).isSome = true := by
    rw [generateString_eq _ _ (by decide!), (laid_header demoDisplay.ID (by decide)
      (by decide)).1, Option.some_bind, putBody_lines _ _ (by decide),
      putLines_enabled _ _ _ _ (by decide) (by decide!) (by decide!),
      putLines_disabled _ _ _ _ (by decide),
      putLines_enabled _ _ _ _ (by decide) (by decide!) (by decide!),
      putLines_disabled _ _ _ _ (by decide), putLines, Option.some_bind,
      if_pos (by decide!)]
    rfl
  obtain ⟨g, hg⟩ := Option.isSome_iff_exists.mp hsome
  have h := (C8_id_field demoDisplay (List.replicate 512 0) g (by decide!) (by decide)
    (by decide) hg).1
  have e : lit "<ID " ++ decimal demoDisplay.ID.toNat ++ lit "><CLR>" = lit "<ID 123><CLR>" := by
    decide
  rw [e] at h
  exact ⟨g, hg, h⟩

set_option maxRecDepth 100000 in
/-- C11, the failing runs. A fresh display with ID 10 (line 1 enabled, empty text) compiles a
command of 65 characters and `generateString` returns 66: `lineConfig` returns its end index
minus 11, which is the number of characters it wrote only when it starts at index 11. With ID
5 and lines 1 and 2 enabled the command has 96 characters and the returned value is 149. -/
theorem C11_returned_count_is_not_length :
    (generateString (VMDisplay.new 10) (List.replicate 512 0)).map
        (fun g => (g.ret, (cstr g.st.commandString).length, cstr g.st.commandString))
      = some (66, 65, lit "<ID 10><CLR><WIN 0 0 287 31><POS 0 0><LJ><BL N><CS 0><GRN><T></T>")
    ∧ (generateString (setLine (VMDisplay.new 5) 2 true) (List.replicate 512 0)).map
        (fun g => (g.ret, (cstr g.st.commandString).length))
      = some (149, 96) := by
  constructor
  · rw [generateString_eq _ _ (by decide!), (laid_header (VMDisplay.new 10).ID (by decide)
      (by decide)).1, Option.some_bind, putBody_lines _ _ (by decide),
      putLines_enabled _ _ _ _ (by decide) (by decide!) (by decide!),
      putLines_disabled _ _ _ _ (by decide), putLines_disabled _ _ _ _ (by decide),
      putLines_disabled _ _ _ _ (by decide), putLines, Option.some_bind,
      if_pos (by decide!), Option.map_some', cstr_kept]
    decide!
  · rw [generateString_eq _ _ (by decide!), (laid_header (setLine (VMDisplay.new 5) 2 true).ID
      (by decide) (by decide)).1, Option.some_bind, putBody_lines _ _ (by decide),
      putLines_enabled _ _ _ _ (by decide) (by decide!) (by decide!),
      putLines_enabled _ _ _ _ (by decide) (by decide!) (by decide!),
      putLines_disabled _ _ _ _ (by decide),
      putLines_disabled _ _ _ _ (by decide), putLines, Option.some_bind,
      if_pos (by decide!), Option.map_some', cstr_kept]
    decide!

theorem cstr_of_pos (s : List Nat) (h : ∀ c ∈ s, 0 < c) : cstr s = s := by
  unfold cstr
  rw [List.takeWhile_eq_self_iff]
  intro c hc
  have := h c hc
  simp
  omega

theorem packed_getElem?_left (s : List Nat) (k : Nat) (hk : k < (packPairs s).length) :
    (packed s)[k]? = (packPairs s)[k]? := by
  unfold packed
  rw [List.getElem?_append_left hk]

theorem byte_pair (a b : Nat) (ha : a < 256) (hb : b < 256) :
    (b * 256 + a) % 65536 = a + 256 * b := by
  omega

theorem getD_lt_256 (s : List Nat) (h : ∀ c ∈ s, c < 256) (i : Nat) : s.getD i 0 < 256 := by
  rw [List.getD_eq_getElem?_getD]
  cases hi : s[i]? with
  | none => simp
  | some c =>
    have := h c (List.getElem?_mem hi)
    simpa using this

set_option maxRecDepth 100000 in
/-- C12. For an ASCII string `s` of `n <= 511` characters, `writeMessage(s)` completes, makes `s`
the compiled command, and leaves in the transmission buffer: word `k` equal to
`s[2k] + 256 * s[2k+1]` for every `k` with `2k + 1 < n`; for even `n` the word `0x0D0D` at
index `n / 2` and `messageLength = n / 2 + 1`; for odd `n` the word `s[n-1] + 256 * 0x0D` at
index `(n - 1) / 2`, the word `0xCC0D` after it and `messageLength = (n + 3) / 2`. -/
theorem C12_word_packing (st : VMDisplay) (s junk : List Nat)
    (hascii : ∀ c ∈ s, 0 < c ∧ c < 128) (hn : s.length ≤ 511) (hj : junk.length = 512) :
    ∃ st1, writeMessageText st s junk = some st1
      ∧ cstr st1.commandString = s
      ∧ (∀ k, 2 * k + 1 < s.length →
          st1.commandData[k]? = some (s.getD (2 * k) 0 + 256 * s.getD (2 * k + 1) 0))
      ∧ (s.length % 2 = 0 →
          st1.commandData[s.length / 2]? = some 0x0D0D
            ∧ st1.messageLength = ((s.length / 2 + 1 : Nat) : Int))
      ∧ (s.length % 2 = 1 →
          st1.commandData[(s.length - 1) / 2]? = some (s.getD (s.length - 1) 0 + 256 * 0x0D)
            ∧ st1.commandData[(s.length + 1) / 2]? = some 0xCC0D
            ∧ st1.messageLength = (((s.length + 3) / 2 : Nat) : Int)) := by
  have hc : cstr s = s := cstr_of_pos s (fun c hc => (hascii c hc).1)
  have hb : ∀ c ∈ s, c < 256 := fun c hc => by have := (hascii c hc).2; omega
  have hlp := length_packed s
  have hlpp := length_packPairs s
  have hW : (packed s).length ≤ 512 := by rw [hlp]; split_ifs <;> omega
  refine ⟨_, writeMessageText_eq st s junk (by rw [hc]; exact hn) hj, ?_, ?_, ?_, ?_⟩
  · show cstr (cstr s ++ _) = s
    rw [hc]
    exact cstr_append_zeros _ _ (fun x hx => by have := (hascii x hx).1; omega)
  · intro k hk
    show (copyWords _ _)[k]? = _
    rw [hc]
    have hk1 : k < (packPairs s).length := by rw [hlpp]; omega
    have hk2 : k < (packed s).length := by rw [hlp]; split_ifs <;> omega
    rw [copyWords_splice_getElem? _ _ _ hk2 hW, packed_getElem?_left _ _ hk1,
      packPairs_getElem? _ _ hk, byte_pair _ _ (getD_lt_256 s hb _) (getD_lt_256 s hb _)]
  · intro hpar
    rw [if_pos hpar] at hlp
    constructor
    · show (copyWords _ _)[s.length / 2]? = _
      rw [hc, copyWords_splice_getElem? _ _ _ (by omega) hW]
      unfold packed
      rw [List.getElem?_append_right (by omega), if_pos hpar]
      have : s.length / 2 - (packPairs s).length = 0 := by omega
      rw [this]
      rfl
    · show (((packed (cstr s)).length : Nat) : Int) = _
      rw [hc, hlp]
  · intro hpar
    rw [if_neg (by omega)] at hlp
    obtain ⟨h1, h2⟩ := packPairs_odd_last s hpar
    refine ⟨?_, ?_, ?_⟩
    · show (copyWords _ _)[(s.length - 1) / 2]? = _
      rw [hc, copyWords_splice_getElem? _ _ _ (by omega) hW,
        packed_getElem?_left _ _ (by omega), h1]
      have := getD_lt_256 s hb (s.length - 1)
      congr 1
      omega
    · show (copyWords _ _)[(s.length + 1) / 2]? = _
      rw [hc, copyWords_splice_getElem? _ _ _ (by omega) hW,
        packed_getElem?_left _ _ (by omega), h2]
    · show (((packed (cstr s)).length : Nat) : Int) = _
      rw [hc, hlp]

set_option maxRecDepth 100000 in
/-- Instance of C12: `writeMessage("abcde")` leaves the words `ba`, `dc`, `e` with `0x0D`, then
`0xCC0D`, and `messageLength` 4. -/
theorem C12_word_packing_witness :
    ∃ st1, writeMessageText (VMDisplay.new 1) (lit "abcde") (List.replicate 512 7) = some st1
      ∧ st1.commandData[0]? = some (97 + 256 * 98)
      ∧ st1.commandData[2]? = some (101 + 256 * 0x0D)
      ∧ st1.commandData[3]? = some 0xCC0D
      ∧ st1.messageLength = 4 := by
  obtain ⟨st1, h, _, hk, _, hodd⟩ := C12_word_packing (VMDisplay.new 1) (lit "abcde")
    (List.replicate 512 7) (by decide) (by decide) (by decide!)
  obtain ⟨h1, h2, h3⟩ := hodd (by decide)
  exact ⟨st1, h, hk 0 (by decide), h1, h2, h3⟩

theorem copyWords_take (temp W : List Nat) (m : Nat) (hm : m ≤ W.length)
    (hW : W.length ≤ 512) :
    (copyWords (splice temp 0 W) W.length).take m = W.take m := by
  apply List.ext_getElem?
  intro k
  by_cases hk : k < m
  · rw [List.getElem?_take_of_lt hk, List.getElem?_take_of_lt hk,
      copyWords_splice_getElem? _ _ _ (by omega) hW]
  · rw [List.getElem?_eq_none (by simp; omega), List.getElem?_eq_none (by simp; omega)]

set_option maxRecDepth 100000 in
/-- C13. For an ASCII string `s` of even length `n <= 510`, after `writeMessage(s)` the first
`messageLength - 1` words of the transmission buffer, each split into its low byte followed by
its high byte, give back `s`. -/
theorem C13_packing_round_trip (st : VMDisplay) (s junk : List Nat)
    (hascii : ∀ c ∈ s, 0 < c ∧ c < 128) (heven : s.length % 2 = 0) (hn : s.length ≤ 510)
    (hj : junk.length = 512) :
    ∃ st1, writeMessageText st s junk = some st1
      ∧ unpackWords (st1.commandData.take (st1.messageLength - 1).toNat) = s := by
  have hc : cstr s = s := cstr_of_pos s (fun c hc => (hascii c hc).1)
  have hb : ∀ c ∈ s, c < 256 := fun c hc => by have := (hascii c hc).2; omega
  have hlp := length_packed s
  rw [if_pos heven] at hlp
  have hlpp := length_packPairs s
  refine ⟨_, writeMessageText_eq st s junk (by rw [hc]; omega) hj, ?_⟩
  show unpackWords ((copyWords _ _).take ((((packed (cstr s)).length : Nat) : Int) - 1).toNat) = s
  rw [hc]
  have e : ((((packed s).length : Nat) : Int) - 1).toNat = (packPairs s).length := by
    rw [hlp, hlpp]; omega
  rw [e, copyWords_take _ _ _ (by rw [hlp, hlpp]; omega) (by rw [hlp]; omega)]
  have : (packed s).take (packPairs s).length = packPairs s := by
    unfold packed
    rw [List.take_left]
  rw [this, unpack_packPairs_even s heven hb]

set_option maxRecDepth 100000 in
/-- Instance of C13: `"HELLO!"` comes back from the three words before the terminator word. -/
theorem C13_packing_round_trip_witness :
    ∃ st1, writeMessageText (VMDisplay.new 1) (lit "HELLO!") (List.replicate 512 7) = some st1
      ∧ unpackWords (st1.commandData.take (st1.messageLength - 1).toNat) = lit "HELLO!" :=
  C13_packing_round_trip (VMDisplay.new 1) (lit "HELLO!") (List.replicate 512 7)
    (by decide) (by decide) (by decide) (by decide!)

theorem writeWords_append (tp : Transport) (cd : List Nat) (i : Nat) (addr : Int)
    (js1 js2 : List Nat) : ∀ (pos : Nat) (sent : List Nat),
    writeWords tp cd i addr (js1 ++ js2) pos sent
      = (writeWords tp cd i addr js1 pos sent).bind
          (fun r => writeWords tp cd i addr js2 r.1 r.2) := by
  induction js1 with
  | nil => intro pos sent; rfl
  | cons j js ih =>
    intro pos sent
    simp only [List.cons_append, writeWords]
    cases cd[pos]? with
    | none => rfl
    | some w =>
      simp only [Option.some_bind]
      split <;> exact ih _ _

/-- The `write` calls that a counting transport accepts carry consecutive buffer words. -/
theorem writeWords_accepted (cd : List Nat) (i : Nat) (addr : Int) (js : List Nat)
    (hjs : ∀ j ∈ js, j < 123) : ∀ (pos : Nat) (sent : List Nat),
    pos + js.length ≤ cd.length →
    writeWords countingTransport cd i addr js pos sent
      = some (pos + js.length, sent ++ (cd.drop pos).take js.length) := by
  induction js with
  | nil => intro pos sent _; simp [writeWords]
  | cons j js ih =>
    intro pos sent hfit
    have hj : j < 123 := hjs j (by simp)
    have hpos : pos < cd.length := by simp at hfit; omega
    have hacc : countingTransport.accept addr 123 j = true := by simp [countingTransport, hj]
    rw [writeWords, List.getElem?_eq_getElem hpos]
    simp only [Option.some_bind, hacc, Bool.not_true, Bool.false_and, if_true]
    rw [if_neg (by simp), ih (fun k hk => hjs k (by simp [hk])) _ _ (by simp at hfit; omega)]
    congr 1
    rw [Prod.mk.injEq]
    constructor
    · simp; omega
    · rw [List.append_assoc]
      congr 1
      rw [List.drop_eq_getElem_cons hpos]
      rfl

/-- The 124th `write` call of a transaction is refused by a counting transport; the position
advances on it in transaction 0 only. -/
theorem writeWords_refused (cd : List Nat) (i : Nat) (addr : Int) (pos : Nat) (sent : List Nat)
    (hpos : pos < cd.length) :
    writeWords countingTransport cd i addr [123] pos sent
      = some (if i = 0 then pos + 1 else pos, sent) := by
  have hacc : countingTransport.accept addr 123 123 = false := by simp [countingTransport]
  rw [writeWords, List.getElem?_eq_getElem hpos]
  simp only [Option.some_bind, hacc, Bool.not_false, Bool.true_and, writeWords]
  by_cases hi : i = 0
  · simp [hi]
  · simp [hi]

/-- One transaction of `sendMessage` on a counting transport. -/
theorem writeWords_transaction (cd : List Nat) (i : Nat) (addr : Int) (pos : Nat)
    (hfit : pos + 124 ≤ cd.length) :
    writeWords countingTransport cd i addr (List.range 124) pos []
      = some (if i = 0 then pos + 124 else pos + 123, (cd.drop pos).take 123) := by
  have hr : List.range 124 = List.range 123 ++ [123] := by decide
  rw [hr, writeWords_append, writeWords_accepted cd i addr (List.range 123)
    (fun j hj => List.mem_range.mp hj) pos [] (by simp; omega)]
  simp only [Option.some_bind, List.length_range, List.nil_append]
  rw [writeWords_refused _ _ _ _ _ (by omega)]

/-- `sendMessage` of a pending message of 124 to 246 words on a counting transport: two
transactions, the second one begun at register 11123 with buffer word 124. -/
theorem sendMessage_two_transactions (st : VMDisplay) (hc : st.completed = false)
    (hlen : st.commandData.length = 512) (h1 : 124 ≤ st.messageLength)
    (h2 : st.messageLength ≤ 246) :
    sendMessage countingTransport st
      = some ({ st with completed := true },
          [Event.connect,
           Event.transaction 10999 123 (st.commandData.take 123),
           Event.transaction 11123 123 ((st.commandData.drop 124).take 123)]) := by
  have hm : messagesToWrite st.messageLength = 2 := by
    unfold messagesToWrite
    simp only [List.filter]
    have e0 : decide (st.messageLength > 123 * 0) = true := by simp; omega
    have e1 : decide (st.messageLength > 123 * 1) = true := by simp; omega
    have e2 : decide (st.messageLength > 123 * 2) = false := by simp; omega
    have e3 : decide (st.messageLength > 123 * 3) = false := by simp; omega
    have e4 : decide (st.messageLength > 123 * 4) = false := by simp; omega
    have e5 : decide (st.messageLength > 123 * 5) = false := by simp; omega
    rw [e0, e1, e2, e3, e4, e5]
    rfl
  have hr : List.range 2 = [0, 1] := by decide
  unfold sendMessage
  rw [hc, hm, hr]
  simp only [Bool.not_false, if_true, sendLoop]
  rw [writeWords_transaction _ _ _ _ (by rw [hlen]; omega)]
  simp only [Option.some_bind, if_true]
  rw [writeWords_transaction _ _ _ _ (by rw [hlen]; omega)]
  simp only [Option.some_bind, Option.map_some']
  norm_num

set_option maxRecDepth 100000 in
/-- C15, the failing run: a command of 250 characters is packed into 126 words and sent through
a transport that accepts 123 words per transaction. The loop makes 124 `write` calls per
transaction and in the first transaction advances the position on the refused one too: the
second transaction starts at register 11123, not at 10999 + 123, with buffer word 124; buffer
word 123 is in no transaction. -/
theorem C15_second_transaction_skips_word_123 :
    ∃ st1, writeMessageText (VMDisplay.new 5) longCommand (List.replicate 512 0) = some st1
      ∧ st1.messageLength = 126
      ∧ (sendMessage countingTransport st1).map (fun r => r.2)
          = some [Event.connect,
              Event.transaction 10999 123 (st1.commandData.take 123),
              Event.transaction 11123 123 ((st1.commandData.drop 124).take 123)]
      ∧ st1.commandData[123]? = some (99 + 256 * 100) := by
  refine ⟨_, writeMessageText_eq _ _ _ (by decide!) (by decide!), ?_, ?_, ?_⟩
  · show (((packed (cstr longCommand)).length : Nat) : Int) = 126
    decide!
  · rw [sendMessage_two_transactions _ rfl (length_copyWords _ _)
      (show (124 : Int) ≤ (((packed (cstr longCommand)).length : Nat) : Int) by decide!)
      (show (((packed (cstr longCommand)).length : Nat) : Int) ≤ 246 by decide!)]
    rfl
  · show (copyWords _ _)[123]? = _
    rw [copyWords_splice_getElem? _ _ _ (by decide!) (by decide!)]
    decide!

/-- C14. When `completed` is true, `sendMessage` calls `connect()` and nothing else on the
transport: no transaction, no register write; transmission buffer, `messageLength`, compiled
command and `completed` are unchanged. So a second `sendMessage` right after a first one
issues no transaction. -/
theorem C14_send_once (tp : Transport) (st : VMDisplay) :
    (st.completed = true → sendMessage tp st = some (st, [Event.connect]))
      ∧ (∀ st1 evs, sendMessage tp st = some (st1, evs) →
          sendMessage tp st1 = some (st1, [Event.connect])) := by
  have h1 : ∀ s : VMDisplay, s.completed = true →
      sendMessage tp s = some (s, [Event.connect]) := by
    intro s hs
    simp [sendMessage, hs]
  refine ⟨h1 st, ?_⟩
  intro st1 evs h
  apply h1
  unfold sendMessage at h
  by_cases hc : st.completed = true
  · simp only [hc, Bool.not_true, Bool.false_eq_true, if_false, Option.some.injEq,
      Prod.mk.injEq] at h
    rw [← h.1]
    exact hc
  · simp only [hc, Bool.not_false, if_true, Option.map_eq_some', Prod.mk.injEq] at h
    obtain ⟨_, _, h2, _⟩ := h
    rw [← h2]

/-- Instance of C14: a fresh display (nothing to send) is marked completed by a first
`sendMessage`; the second call only connects. -/
theorem C14_send_once_witness :
    sendMessage countingTransport (VMDisplay.new 5)
        = some ({ VMDisplay.new 5 with completed := true }, [Event.connect])
      ∧ sendMessage countingTransport { VMDisplay.new 5 with completed := true }
        = some ({ VMDisplay.new 5 with completed := true }, [Event.connect]) :=
  ⟨rfl, (C14_send_once countingTransport (VMDisplay.new 5)).2 _ _ rfl⟩

theorem setter_completed (st : VMDisplay) (i : Int) (f : Line → Line) :
    (st.modifyLine i f).completed = st.completed := rfl

theorem isPrefixOf_append (pat post : List Nat) : pat.isPrefixOf (pat ++ post) = true := by
  induction pat with
  | nil => simp [List.isPrefixOf]
  | cons p ps ih => simp [List.isPrefixOf, ih]

/-- `strstr` finds a pattern that occurs. -/
theorem strstr_of_infix (pat : List Nat) : ∀ (pre post : List Nat),
    ∃ k, strstr (pre ++ pat ++ post) pat = some k := by
  intro pre
  induction pre with
  | nil =>
    intro post
    cases hp : pat with
    | nil =>
      cases post with
      | nil => exact ⟨0, by simp [strstr]⟩
      | cons c cs => exact ⟨0, by simp [strstr, List.isPrefixOf]⟩
    | cons p ps =>
      refine ⟨0, ?_⟩
      have := isPrefixOf_append (p :: ps) post
      simp only [List.nil_append, List.cons_append] at this ⊢
      rw [strstr, if_pos this]
  | cons c cs ih =>
    intro post
    obtain ⟨k, hk⟩ := ih post
    simp only [List.cons_append]
    rw [strstr]
    split
    · exact ⟨0, rfl⟩
    · exact ⟨k + 1, by rw [hk]; rfl⟩

/-- Where `strstr` returns an offset, the pattern stands at that offset. -/
theorem strstr_some (pat : List Nat) : ∀ (s : List Nat) (k : Nat), strstr s pat = some k →
    ∃ post, s = s.take k ++ pat ++ post := by
  intro s
  induction s with
  | nil =>
    intro k h
    rw [strstr] at h
    split at h
    · rename_i hp
      exact ⟨[], by simp [hp]⟩
    · exact absurd h (by simp)
  | cons c cs ih =>
    intro k h
    rw [strstr] at h
    split at h
    · rename_i hp
      have hk : k = 0 := by simpa using h.symm
      subst hk
      obtain ⟨post, hpost⟩ := List.isPrefixOf_iff_prefix.mp hp
      exact ⟨post, by simp [hpost]⟩
    · simp only [Option.map_eq_some'] at h
      obtain ⟨j, hj, rfl⟩ := h
      obtain ⟨post, hpost⟩ := ih j hj
      refine ⟨post, ?_⟩
      simp only [List.take_succ_cons, List.cons_append]
      rw [← hpost]

theorem strstr_none (s pat : List Nat) (h : ∀ pre post, s ≠ pre ++ pat ++ post) :
    strstr s pat = none := by
  cases hs : strstr s pat with
  | none => rfl
  | some k =>
    obtain ⟨post, hpost⟩ := strstr_some pat s k hs
    exact absurd hpost (h _ _)

theorem packVar_eq : ∀ (text : List Nat) (tp : Nat) (temp : List Nat),
    packVar text tp temp
      = if packVarWords text = [] ∨ tp + (packVarWords text).length ≤ temp.length then
          some (tp + (packVarWords text).length, splice temp tp (packVarWords text))
        else none
  | [], tp, temp => by simp [packVar, packVarWords, splice_nil]
  | [a], tp, temp => by
    rw [packVar, store_eq]
    by_cases h1 : tp < temp.length
    · rw [if_pos h1, if_pos (Or.inr (by simp [packVarWords]; omega))]
      simp [packVarWords]
    · rw [if_neg h1, if_neg (by simp [packVarWords]; omega)]
      rfl
  | a :: b :: rest, tp, temp => by
    rw [packVar, store_eq]
    by_cases h1 : tp < temp.length
    · rw [if_pos h1]
      simp only [Option.some_bind]
      rw [packVar_eq rest (tp + 1), length_splice _ _ _ (by simpa using h1)]
      have hs := splice_splice temp tp [(b * 256 + a) % 65536] (packVarWords rest)
        (by simpa using h1)
      simp only [List.length_singleton, List.singleton_append] at hs
      rw [hs]
      by_cases hfit : tp + 1 + (packVarWords rest).length ≤ temp.length
      · rw [if_pos (Or.inr hfit), if_pos (Or.inr (by simp [packVarWords]; omega))]
        simp [packVarWords, Nat.add_assoc, Nat.add_comm 1]
      · by_cases hr : packVarWords rest = []
        · rw [if_pos (Or.inl hr), if_pos (Or.inr (by simp [packVarWords, hr]; omega))]
          simp [packVarWords, hr]
        · rw [if_neg (by simp [hr]; omega), if_neg (by simp [packVarWords]; omega)]
    · rw [if_neg h1, if_neg (by simp [packVarWords]; omega)]
      rfl

theorem length_packVarWords : ∀ text : List Nat,
    (packVarWords text).length = (text.length + 1) / 2
  | [] => rfl
  | [a] => by simp [packVarWords]
  | a :: b :: rest => by
    simp only [packVarWords, List.length_cons, length_packVarWords rest]
    omega

/-- The events of `updateStringVar` for a text of at most 100 characters. -/
theorem stringVarWrites_eq (tp : Transport) (slot : Int) (text junk : List Nat)
    (h : (cstr text).length ≤ 100) (hj : junk.length = 50) :
    stringVarWrites tp slot text junk
      = some (stringWrites tp slot
          (clearVar (splice (memsetZero junk 25) 0 (packVarWords (cstr text)))
            (packVarWords (cstr text)).length)) := by
  unfold stringVarWrites
  have hl := length_packVarWords (cstr text)
  rw [packVar_eq, if_pos (Or.inr (by rw [length_memsetZero, hj, hl]; omega))]
  simp

/-- `updateDecimal` when the command has no `DEC` marker. -/
theorem updateDecimal_no_marker (tp : Transport) (st : VMDisplay) (slot number : Int)
    (editBounds : Bool) (jk : Junk) (cmd : List Nat)
    (hcmd : readStr st.commandString = some cmd) (hno : strstr cmd (lit "DEC") = none) :
    updateDecimal tp st slot number editBounds jk
      = some ({ st with decLoc := none }, decimalWrites (slot - 1) number) := by
  unfold updateDecimal
  rw [hcmd]
  simp only [Option.some_bind, hno]

/-- `updateDecimal` with `editBounds` false. -/
theorem updateDecimal_no_edit (tp : Transport) (st : VMDisplay) (slot number : Int)
    (jk : Junk) (cmd : List Nat) (hcmd : readStr st.commandString = some cmd) :
    updateDecimal tp st slot number false jk
      = some ({ st with decLoc := strstr cmd (lit "DEC") },
          decimalWrites (slot - 1) number) := by
  unfold updateDecimal
  rw [hcmd]
  rfl

/-- Every completed `updateDecimal` ends with the two register writes of the value. -/
theorem updateDecimal_events (tp : Transport) (st : VMDisplay) (slot number : Int)
    (editBounds : Bool) (jk : Junk) (r : VMDisplay × List Event)
    (h : updateDecimal tp st slot number editBounds jk = some r) :
    ∃ evs0, r.2 = evs0 ++ decimalWrites (slot - 1) number := by
  unfold updateDecimal at h
  cases hcmd : readStr st.commandString with
  | none => rw [hcmd] at h; exact absurd h (by simp)
  | some cmd =>
    rw [hcmd] at h
    simp only [Option.some_bind] at h
    cases editBounds with
    | false =>
      simp only [Option.some.injEq] at h
      exact ⟨[], by rw [← h]; rfl⟩
    | true =>
      cases hoff : strstr cmd (lit "DEC") with
      | none =>
        rw [hoff] at h
        simp only [Option.some.injEq] at h
        exact ⟨[], by rw [← h]; rfl⟩
      | some off =>
        rw [hoff] at h
        simp only [Option.bind_eq_some] at h
        obtain ⟨edit, _, h⟩ := h
        cases edit with
        | false =>
          simp only [Bool.false_eq_true, if_false, Option.some.injEq] at h
          exact ⟨[], by rw [← h]; rfl⟩
        | true =>
          simp only [if_true, Option.bind_eq_some, Option.map_eq_some'] at h
          obtain ⟨_, _, _, _, q, _, h⟩ := h
          exact ⟨q.2, by rw [← h]⟩

/-- `updateStringVar` when the command has no `STR` marker. -/
theorem updateStringVar_no_marker (tp : Transport) (st : VMDisplay) (slot : Int)
    (text : List Nat) (editBounds : Bool) (jk : Junk) (cmd : List Nat)
    (hcmd : readStr st.commandString = some cmd) (hno : strstr cmd (lit "STR") = none) :
    updateStringVar tp st slot text editBounds jk
      = (stringVarWrites tp (slot - 1) text jk.regs).map
          (fun evs => ({ st with strLoc := none }, evs)) := by
  unfold updateStringVar
  rw [hcmd]
  simp only [Option.some_bind, hno]

theorem packVarWords_getD_pair : ∀ (text : List Nat) (k : Nat), 2 * k + 1 < text.length →
    (packVarWords text).getD k 0
      = (text.getD (2 * k + 1) 0 * 256 + text.getD (2 * k) 0) % 65536
  | [], k, h => by simp at h
  | [a], k, h => by simp at h
  | a :: b :: rest, 0, _ => by simp [packVarWords]
  | a :: b :: rest, k + 1, h => by
    have h2 : 2 * k + 1 < rest.length := by simp at h; omega
    have ih := packVarWords_getD_pair rest k h2
    have e1 : 2 * (k + 1) + 1 = (2 * k + 1) + 1 + 1 := by omega
    have e2 : 2 * (k + 1) = (2 * k) + 1 + 1 := by omega
    rw [e1, e2]
    simpa [packVarWords] using ih

theorem packVarWords_getD_last : ∀ (text : List Nat), text.length % 2 = 1 →
    (packVarWords text).getD (text.length / 2) 0 = text.getD (text.length - 1) 0 % 65536
  | [], h => by simp at h
  | [a], _ => by simp [packVarWords]
  | a :: b :: rest, h => by
    have h2 : rest.length % 2 = 1 := by simp at h; omega
    have ih := packVarWords_getD_last rest h2
    have hpos : 0 < rest.length := by omega
    have e1 : (a :: b :: rest).length / 2 = rest.length / 2 + 1 := by simp; omega
    have e2 : (a :: b :: rest).length - 1 = (rest.length - 1) + 1 + 1 := by simp; omega
    rw [e1, e2]
    simpa [packVarWords] using ih

/-- The words `updateStringVar` hands to the transport: below `tempPos` the packed text, above
it zeros. -/
theorem clearVar_packed (junk W : List Nat) (hW : W.length ≤ 50) :
    (∀ k, k < W.length →
        (clearVar (splice (memsetZero junk 25) 0 W) W.length).getD k 0 = W.getD k 0)
      ∧ (∀ k, W.length < k →
        (clearVar (splice (memsetZero junk 25) 0 W) W.length).getD k 0 = 0) := by
  constructor
  · intro k hk
    unfold clearVar
    rw [List.getD_eq_getElem?_getD, List.getElem?_map, List.getElem?_range (by omega)]
    simp only [Option.map_some', Option.getD_some, if_neg (show ¬ k > W.length by omega)]
    rw [List.getD_eq_getElem?_getD, getElem?_splice_lt _ _ _ hk, List.getD_eq_getElem?_getD]
  · intro k hk
    unfold clearVar
    rw [List.getD_eq_getElem?_getD, List.getElem?_map]
    by_cases h50 : k < 50
    · rw [List.getElem?_range h50]
      simp only [Option.map_some', Option.getD_some, if_pos (show k > W.length from hk)]
    · rw [List.getElem?_eq_none (by simp; omega)]
      rfl

/-- C17. If the compiled command does not contain `DEC`, the integer `updateDecimal`, with
`editBounds` true or false, completes with the compiled command, the transmission buffer,
`messageLength` and `completed` as they were (only the cached marker pointer is cleared) and
its calls on the transport are `connect()` and the two register writes of the value. If the
command does not contain `STR`, `updateStringVar` of a text of at most 100 characters does
the same, its calls being `connect()` and the one transaction of 50 registers at
`199 + 50 * (slot - 1)` whose `write` calls carry `temp[0]` to `temp[49]`: `temp[k]` holds the
characters `2k` and `2k + 1` of the text, the earlier one in the low byte, an odd last
character stands alone, and every element above `tempPos` is 0. No transaction at register
10999 is issued in either case. -/
theorem C17_update_without_marker (tp : Transport) (st : VMDisplay) (slot number : Int)
    (text : List Nat) (editBounds : Bool) (jk : Junk) (cmd : List Nat)
    (hcmd : readStr st.commandString = some cmd) :
    ((∀ pre post, cmd ≠ pre ++ lit "DEC" ++ post) →
        updateDecimal tp st slot number editBounds jk
          = some ({ st with decLoc := none },
              [Event.connect,
               Event.registerWrite (100 + (slot - 1) * 2) (number % 65536).toNat,
               Event.registerWrite (99 + (slot - 1) * 2) ((number / 65536) % 65536).toNat]))
      ∧ ((∀ pre post, cmd ≠ pre ++ lit "STR" ++ post) → (cstr text).length ≤ 100 →
          jk.regs.length = 50 →
          ∃ temp : List Nat, updateStringVar tp st slot text editBounds jk
              = some ({ st with strLoc := none },
                  [Event.connect,
                   Event.transaction (199 + (slot - 1) * 50) 50
                     (((List.range 50).filter
                        (fun (j : Nat) => tp.accept (199 + (slot - 1) * 50) 50 j)).map
                       (fun (j : Nat) => temp.getD j 0))])
            ∧ (∀ k, 2 * k + 1 < (cstr text).length →
                temp.getD k 0
                  = ((cstr text).getD (2 * k + 1) 0 * 256 + (cstr text).getD (2 * k) 0) % 65536)
            ∧ ((cstr text).length % 2 = 1 →
                temp.getD ((cstr text).length / 2) 0
                  = (cstr text).getD ((cstr text).length - 1) 0 % 65536)
            ∧ (∀ k, ((cstr text).length + 1) / 2 < k → temp.getD k 0 = 0)) := by
  constructor
  · intro hno
    rw [updateDecimal_no_marker tp st slot number editBounds jk cmd hcmd (strstr_none _ _ hno)]
    rfl
  · intro hno hlen hj
    have hl := length_packVarWords (cstr text)
    obtain ⟨h1, h2⟩ := clearVar_packed jk.regs (packVarWords (cstr text)) (by rw [hl]; omega)
    refine ⟨clearVar (splice (memsetZero jk.regs 25) 0 (packVarWords (cstr text)))
      (packVarWords (cstr text)).length, ?_, ?_, ?_, ?_⟩
    · rw [updateStringVar_no_marker tp st slot text editBounds jk cmd hcmd
        (strstr_none _ _ hno), stringVarWrites_eq tp (slot - 1) text jk.regs hlen hj]
      rfl
    · intro k hk
      rw [h1 k (by rw [hl]; omega), packVarWords_getD_pair _ _ hk]
    · intro hodd
      rw [h1 _ (by rw [hl]; omega), packVarWords_getD_last _ hodd]
    · intro k hk
      exact h2 k (by rw [hl]; exact hk)

set_option maxRecDepth 100000 in
/-- Instance of C17 on a fresh display (empty command): `updateDecimal(5, 42)` writes 42 and 0
to registers 108 and 107 and issues nothing else; `updateStringVar(2, "abc")` issues the one
transaction at register 249 with `ba` in `temp[0]`, `c` in `temp[1]` and 0 from `temp[3]` on. -/
theorem C17_update_without_marker_witness :
    updateDecimal countingTransport (VMDisplay.new 5) 5 42 true
        { chars := List.replicate 256 7, words := List.replicate 512 7,
          regs := List.replicate 50 7 }
      = some ({ VMDisplay.new 5 with decLoc := none },
          [Event.connect, Event.registerWrite 108 42, Event.registerWrite 107 0])
    ∧ ∃ temp : List Nat, updateStringVar countingTransport (VMDisplay.new 5) 2 (lit "abc") true
          { chars := List.replicate 256 7, words := List.replicate 512 7,
            regs := List.replicate 50 7 }
        = some ({ VMDisplay.new 5 with strLoc := none },
            [Event.connect,
             Event.transaction 249 50 ((List.range 50).map (fun (j : Nat) => temp.getD j 0))])
      ∧ temp.getD 0 0 = 98 * 256 + 97 ∧ temp.getD 1 0 = 99
      ∧ ∀ k, 2 < k → temp.getD k 0 = 0 := by
  have hnoDEC : ∀ pre post : List Nat, ([] : List Nat) ≠ pre ++ lit "DEC" ++ post := by
    intro pre post h
    have hl := congrArg List.length h
    have h3 : (lit "DEC").length = 3 := by decide
    simp only [List.length_nil, List.length_append, h3] at hl
    omega
  have hnoSTR : ∀ pre post : List Nat, ([] : List Nat) ≠ pre ++ lit "STR" ++ post := by
    intro pre post h
    have hl := congrArg List.length h
    have h3 : (lit "STR").length = 3 := by decide
    simp only [List.length_nil, List.length_append, h3] at hl
    omega
  refine ⟨(C17_update_without_marker countingTransport (VMDisplay.new 5) 5 42 [] true
    { chars := List.replicate 256 7, words := List.replicate 512 7,
      regs := List.replicate 50 7 } [] (by decide!)).1 hnoDEC, ?_⟩
  obtain ⟨temp, h, hp, hl, hz⟩ :=
    (C17_update_without_marker countingTransport (VMDisplay.new 5) 2 0 (lit "abc") true
      { chars := List.replicate 256 7, words := List.replicate 512 7,
        regs := List.replicate 50 7 } [] (by decide!)).2 hnoSTR (by decide) (by decide!)
  have hf : (List.range 50).filter
      (fun (j : Nat) => countingTransport.accept (199 + (2 - 1) * 50) 50 j) = List.range 50 := by
    decide
  rw [hf] at h
  exact ⟨temp, h, hp 0 (by decide), hl (by decide), fun k hk => hz k (by
    have : ((cstr (lit "abc")).length + 1) / 2 = 2 := by decide
    omega)⟩

/-- C18. For a slot `v` in 1..32 and a signed 32-bit `x`, every completed integer
`updateDecimal(v, x)` ends with `connect()`, the write of `x mod 2^16` to register
`100 + 2(v-1)` and the write of `(x >> 16) mod 2^16` to register `99 + 2(v-1)`; the two words,
high word times `2^16` plus low word, read as a two's-complement 32-bit number, are `x`. With
`editBounds` false the call always completes on a terminated command. -/
theorem C18_numeric_registers (tp : Transport) (st : VMDisplay) (v x : Int) (editBounds : Bool)
    (jk : Junk) (r : VMDisplay × List Event)
    (_hv1 : 1 ≤ v) (_hv2 : v ≤ 32) (hx1 : -2147483648 ≤ x) (hx2 : x ≤ 2147483647)
    (h : updateDecimal tp st v x editBounds jk = some r) :
    (∃ evs0, r.2 = evs0 ++
        [Event.connect,
         Event.registerWrite (100 + 2 * (v - 1)) (x % 65536).toNat,
         Event.registerWrite (99 + 2 * (v - 1)) ((x / 65536) % 65536).toNat])
      ∧ asSigned32 (((x / 65536) % 65536).toNat * 65536 + (x % 65536).toNat) = x
      ∧ (∀ cmd, readStr st.commandString = some cmd →
          ∃ r1, updateDecimal tp st v x false jk = some r1) := by
  refine ⟨?_, ?_, ?_⟩
  · obtain ⟨evs0, he⟩ := updateDecimal_events tp st v x editBounds jk r h
    refine ⟨evs0, ?_⟩
    rw [he]
    simp only [decimalWrites, Int.mul_comm (v - 1) 2]
  · unfold asSigned32
    split_ifs with hs
    · omega
    · omega
  · intro cmd hcmd
    exact ⟨_, updateDecimal_no_edit tp st v x jk cmd hcmd⟩

set_option maxRecDepth 100000 in
/-- Instance of C18: slot 5 and the value 42 on a fresh display give low word 42 at register
108 and high word 0 at register 107. -/
theorem C18_numeric_registers_witness :
    ∃ r, updateDecimal countingTransport (VMDisplay.new 5) 5 42 true
          { chars := List.replicate 256 7, words := List.replicate 512 7,
            regs := List.replicate 50 7 } = some r
      ∧ ∃ evs0, r.2 = evs0 ++
          [Event.connect, Event.registerWrite 108 42, Event.registerWrite 107 0] := by
  have h : updateDecimal countingTransport (VMDisplay.new 5) 5 42 true
      { chars := List.replicate 256 7, words := List.replicate 512 7,
        regs := List.replicate 50 7 }
      = some ({ VMDisplay.new 5 with decLoc := none }, decimalWrites (5 - 1) 42) :=
    updateDecimal_no_marker _ _ _ _ _ _ [] (by decide!) (by decide)
  exact ⟨_, h, (C18_numeric_registers countingTransport (VMDisplay.new 5) 5 42 true _ _
    (by decide) (by decide) (by decide) (by decide) h).1⟩

/-- `writeMessage(_commandString)` on a terminated command. -/
theorem writeMessageSelf_eq (st : VMDisplay) (junk text : List Nat)
    (ht : readStr st.commandString = some text) (hl : text.length ≤ 511)
    (hj : junk.length = 512) :
    writeMessageSelf st junk
      = some { st with
          completed := false
          commandData := copyWords (splice (memsetZero junk 256) 0 (packed text))
            (packed text).length
          messageLength := ((packed text).length : Int) } := by
  have hlp := length_packed text
  have hfit : (packed text).length ≤ (memsetZero junk 256).length := by
    rw [length_memsetZero, hj, hlp]
    split_ifs <;> omega
  have hp := packLoop_packEnd text (memsetZero junk 256) hfit
  unfold writeMessageSelf
  simp only [bind, pure, ht, Option.some_bind]
  rw [← Option.bind_assoc, hp]
  rfl

/-- `sendMessage` of a pending message of 1 to 123 words on a counting transport: one
transaction at register 10999. -/
theorem sendMessage_one_transaction (st : VMDisplay) (hc : st.completed = false)
    (hlen : st.commandData.length = 512) (h1 : 1 ≤ st.messageLength)
    (h2 : st.messageLength ≤ 123) :
    sendMessage countingTransport st
      = some ({ st with completed := true },
          [Event.connect, Event.transaction 10999 123 (st.commandData.take 123)]) := by
  have hm : messagesToWrite st.messageLength = 1 := by
    unfold messagesToWrite
    simp only [List.filter]
    have e0 : decide (st.messageLength > 123 * 0) = true := by simp; omega
    have e1 : decide (st.messageLength > 123 * 1) = false := by simp; omega
    have e2 : decide (st.messageLength > 123 * 2) = false := by simp; omega
    have e3 : decide (st.messageLength > 123 * 3) = false := by simp; omega
    have e4 : decide (st.messageLength > 123 * 4) = false := by simp; omega
    have e5 : decide (st.messageLength > 123 * 5) = false := by simp; omega
    rw [e0, e1, e2, e3, e4, e5]
    rfl
  have hr : List.range 1 = [0] := by decide
  unfold sendMessage
  rw [hc, hm, hr]
  simp only [Bool.not_false, if_true, sendLoop]
  rw [writeWords_transaction _ _ _ _ (by rw [hlen]; omega)]
  simp only [Option.some_bind, Option.map_some']
  norm_num

/-- `updateDecimal` on the path that rewrites the width field and sends the command again. -/
theorem updateDecimal_edit (tp : Transport) (st st2 : VMDisplay) (slot number : Int)
    (jk : Junk) (cmd buf : List Nat) (off : Nat) (q : VMDisplay × List Event)
    (hcmd : readStr st.commandString = some cmd)
    (hoff : strstr cmd (lit "DEC") = some off)
    (hneed : decNeedsEdit st.commandString off (countDigits number) = some true)
    (hedit : decEdit st.commandString off (countDigits number) jk.chars = some buf)
    (hw : writeMessageSelf { st with decLoc := some off, commandString := buf } jk.words
      = some st2)
    (hs : sendMessage tp st2 = some q) :
    updateDecimal tp st slot number true jk
      = some (q.1, q.2 ++ decimalWrites (slot - 1) number) := by
  unfold updateDecimal
  rw [hcmd]
  simp only [Option.some_bind, hoff, hneed, if_true, hedit, hw, hs, Option.map_some']

set_option maxRecDepth 100000 in
/-- C19, the failing run: the command `<ID 5><CLR><T>Temp <DEC 1 2 0></T>` is written to a
fresh display and then `updateDecimal(5, 0)` is called with `editBounds` true. The digit count
is 0; the code sets `editBounds = false` inside the block it has already entered and goes on:
the width field becomes `0`, the command is packed again and sent in a transaction at
register 10999, and then the two registers are written. -/
theorem C19_zero_digits_still_edits :
    ∃ st1 r,
      writeMessageText (VMDisplay.new 5) decCommand (List.replicate 512 0) = some st1
      ∧ updateDecimal countingTransport st1 5 0 true
          { chars := List.replicate 256 0, words := List.replicate 512 0,
            regs := List.replicate 50 0 } = some r
      ∧ cstr st1.commandString = lit "<ID 5><CLR><T>Temp <DEC 1 2 0></T>"
      ∧ cstr r.1.commandString = lit "<ID 5><CLR><T>Temp <DEC 1 0 0></T>"
      ∧ r.2 = [Event.connect,
               Event.transaction 10999 123 (r.1.commandData.take 123),
               Event.connect, Event.registerWrite 108 0, Event.registerWrite 107 0] := by
  have h1 := writeMessageText_eq (VMDisplay.new 5) decCommand (List.replicate 512 0)
    (by decide!) (by decide!)
  obtain ⟨st2, hw, hc2, hl2, hm1, hm2, hcs2⟩ : ∃ st2,
      writeMessageSelf
        { ({ (VMDisplay.new 5) with
            commandString :=
              (cstr decCommand ++ List.replicate (512 - (cstr decCommand).length) 0)
            completed := false
            commandData := copyWords (splice (memsetZero (List.replicate 512 0) 256) 0
              (packed (cstr decCommand))) (packed (cstr decCommand)).length
            messageLength := ((packed (cstr decCommand)).length : Int) } : VMDisplay) with
          decLoc := some 20
          commandString := (lit "<ID 5><CLR><T>Temp <DEC 1 0 0></T>" ++ List.replicate 478 0) }
        (List.replicate 512 0) = some st2
      ∧ st2.completed = false ∧ st2.commandData.length = 512
      ∧ 1 ≤ st2.messageLength ∧ st2.messageLength ≤ 123
      ∧ st2.commandString
          = lit "<ID 5><CLR><T>Temp <DEC 1 0 0></T>" ++ List.replicate 478 0 :=
    ⟨_, writeMessageSelf_eq _ (List.replicate 512 0)
        (lit "<ID 5><CLR><T>Temp <DEC 1 0 0></T>") (by decide!) (by decide!) (by decide!),
      rfl, length_copyWords _ _,
      show (1 : Int)
        ≤ (((packed (lit "<ID 5><CLR><T>Temp <DEC 1 0 0></T>")).length : Nat) : Int) by decide!,
      show (((packed (lit "<ID 5><CLR><T>Temp <DEC 1 0 0></T>")).length : Nat) : Int) ≤ 123
        by decide!,
      rfl⟩
  have hs := sendMessage_one_transaction st2 hc2 hl2 hm1 hm2
  have hu := updateDecimal_edit countingTransport _ st2 5 0
    { chars := List.replicate 256 0, words := List.replicate 512 0,
      regs := List.replicate 50 0 } decCommand
    (lit "<ID 5><CLR><T>Temp <DEC 1 0 0></T>" ++ List.replicate 478 0) 20 _
    (by decide!) (by decide!) (by decide!) (by decide!) hw hs
  refine ⟨_, _, h1, hu, ?_, ?_, rfl⟩
  · decide!
  · show cstr st2.commandString = _
    rw [hcs2]
    decide!

set_option maxRecDepth 100000 in
/-- C20, the failing run: on a fresh display `updateStringVar(2, text)` with a text of 50
characters, the local `temp[50]` holding 7 in every element on entry. `memset(temp, 0, 50)`
clears 25 elements and the clearing loop starts above `tempPos`, so the transaction of 50
words at register 249 carries the 25 packed words, then the stale 7 as word 25, then zeros. -/
theorem C20_word_after_text_is_stale :
    (updateStringVar countingTransport (VMDisplay.new 5) 2 fiftyChars false
        { chars := List.replicate 256 7, words := List.replicate 512 7,
          regs := List.replicate 50 7 }).map (fun r => r.2)
      = some [Event.connect,
          Event.transaction 249 50
            (packVarWords fiftyChars ++ [7] ++ List.replicate 24 0)]
    ∧ (packVarWords fiftyChars).length = 25 := by
  rw [updateStringVar_no_marker _ _ _ _ _ _ [] (by decide!) (by decide),
    stringVarWrites_eq _ _ _ _ (by decide!) (by decide!)]
  decide!

theorem append_delim_inj (d : Nat) : ∀ (s t x y : List Nat), d ∉ s → d ∉ t →
    s ++ d :: x = t ++ d :: y → s = t ∧ x = y := by
  intro s
  induction s with
  | nil =>
    intro t x y _ ht h
    cases t with
    | nil => simpa using h
    | cons b t =>
      simp only [List.nil_append, List.cons_append, List.cons.injEq] at h
      exact absurd (h.1 ▸ List.mem_cons_self _ _) ht
  | cons a s ih =>
    intro t x y hs ht h
    cases t with
    | nil =>
      simp only [List.nil_append, List.cons_append, List.cons.injEq] at h
      exact absurd (h.1 ▸ List.mem_cons_self _ _) hs
    | cons b t =>
      simp only [List.cons_append, List.cons.injEq] at h
      obtain ⟨e1, e2⟩ := ih t x y (fun hm => hs (List.mem_cons_of_mem _ hm))
        (fun hm => ht (List.mem_cons_of_mem _ hm)) h.2
      exact ⟨by rw [h.1, e1], e2⟩

theorem text_inj (la lb : Line) (x y : List Nat) (ha : 60 ∉ cstr la.text)
    (hb : 60 ∉ cstr lb.text) (h : textBytes la ++ x = textBytes lb ++ y) :
    cstr la.text = cstr lb.text ∧ x = y := by
  have e1 : lit "<T>" = [60, 84, 62] := by decide
  have e2 : lit "</T>" = [60, 47, 84, 62] := by decide
  simp only [textBytes, e1, e2, List.append_assoc, List.cons_append, List.nil_append,
    List.cons.injEq, true_and] at h
  obtain ⟨h1, h2⟩ := append_delim_inj 60 _ _ _ _ ha hb h
  simp only [List.cons.injEq, true_and] at h2
  exact ⟨h1, h2⟩

theorem blink_inj (ba bb : Int) (x y : List Nat) (ha0 : 0 ≤ ba) (ha3 : ba ≤ 3)
    (hb0 : 0 ≤ bb) (hb3 : bb ≤ 3) (h : blinkBytes ba ++ x = blinkBytes bb ++ y) :
    ba = bb ∧ x = y := by
  have e1 : lit "<BL " = [60, 66, 76, 32] := by decide
  have e2 : lit "S>" = [83, 62] := by decide
  have e3 : lit "M>" = [77, 62] := by decide
  have e4 : lit "F>" = [70, 62] := by decide
  have e5 : lit "N>" = [78, 62] := by decide
  have ca : ba = 0 ∨ ba = 1 ∨ ba = 2 ∨ ba = 3 := by omega
  have cb : bb = 0 ∨ bb = 1 ∨ bb = 2 ∨ bb = 3 := by omega
  rcases ca with ca | ca | ca | ca <;> rcases cb with cb | cb | cb | cb <;> subst ca <;> subst cb
    <;> simp [blinkBytes, e1, e2, e3, e4, e5] at h ⊢ <;> exact h


theorem toChar_small (v : Int) (h0 : 0 ≤ v) (h1 : v < 256) : toChar v = v.toNat := by
  unfold toChar
  rw [Int.emod_eq_of_lt h0 h1]

theorem sizeDigits_cases (s : Int) (h0 : 0 ≤ s) (h1 : s ≤ 99) :
    (s ≤ 9 ∧ sizeDigits s = [48 + s.toNat])
      ∨ (9 < s ∧ sizeDigits s = [48 + s.toNat / 10, 48 + s.toNat % 10]) := by
  by_cases h : s > 9
  · right
    refine ⟨h, ?_⟩
    have e : s.tdiv 10 = s / 10 := Int.tdiv_eq_ediv h0 (by omega)
    rw [sizeDigits, if_pos h, e, toChar_small _ (by omega) (by omega),
      toChar_small _ (by omega) (by omega)]
    simp only [List.singleton_append, List.cons.injEq, and_true]
    constructor <;> omega
  · left
    refine ⟨by omega, ?_⟩
    rw [sizeDigits, if_neg h, toChar_small _ (by omega) (by omega)]
    simp only [List.cons.injEq, and_true]
    omega

theorem size_inj (sa sb : Int) (x y : List Nat) (ha0 : 0 ≤ sa) (ha1 : sa ≤ 99)
    (hb0 : 0 ≤ sb) (hb1 : sb ≤ 99) (h : textSizeBytes sa ++ x = textSizeBytes sb ++ y) :
    sa = sb ∧ x = y := by
  have e1 : lit "<CS " = [60, 67, 83, 32] := by decide
  have e2 : lit ">" = [62] := by decide
  simp only [textSizeBytes, e1, e2, List.append_assoc, List.cons_append, List.nil_append,
    List.cons.injEq, true_and] at h
  rcases sizeDigits_cases sa ha0 ha1 with ⟨ca, ea⟩ | ⟨ca, ea⟩ <;>
    rcases sizeDigits_cases sb hb0 hb1 with ⟨cb, eb⟩ | ⟨cb, eb⟩ <;>
    rw [ea, eb] at h <;>
    simp only [List.cons_append, List.nil_append, List.cons.injEq] at h
  · exact ⟨by omega, h.2.2⟩
  · omega
  · omega
  · exact ⟨by omega, h.2.2.2⟩

theorem colorTag_cases (c : Int) (h0 : 0 ≤ c) (h2 : c ≤ 2) :
    ∃ t : Nat, colorTag c = [60, t, (if c = 0 then 82 else if c = 1 then 69 else 77),
      (if c = 0 then 78 else if c = 1 then 68 else 66), 62] ∧ t ≠ 84 := by
  have cc : c = 0 ∨ c = 1 ∨ c = 2 := by omega
  rcases cc with cc | cc | cc <;> subst cc
  · exact ⟨71, by decide, by decide⟩
  · exact ⟨82, by decide, by decide⟩
  · exact ⟨65, by decide, by decide⟩

theorem color_inj (a b : VMDisplay) (k : Nat) (x y : List Nat)
    (ha0 : 0 ≤ (a.lineAt k).color) (ha2 : (a.lineAt k).color ≤ 2)
    (hb0 : 0 ≤ (b.lineAt k).color) (hb2 : (b.lineAt k).color ≤ 2)
    (h : colorBytes a k ++ (textBytes (a.lineAt k) ++ x)
      = colorBytes b k ++ (textBytes (b.lineAt k) ++ y)) :
    colorRetained a k = colorRetained b k
      ∧ (colorRetained a k = false → (a.lineAt k).color = (b.lineAt k).color)
      ∧ textBytes (a.lineAt k) ++ x = textBytes (b.lineAt k) ++ y := by
  have e1 : lit "<T>" = [60, 84, 62] := by decide
  obtain ⟨ta, ea, hta⟩ := colorTag_cases _ ha0 ha2
  obtain ⟨tb, eb, htb⟩ := colorTag_cases _ hb0 hb2
  unfold colorBytes at h
  cases ra : colorRetained a k <;> cases rb : colorRetained b k <;>
    simp only [ra, rb, Bool.not_false, Bool.not_true, if_true, if_false, List.nil_append,
      Bool.false_eq_true] at h
  · rw [ea, eb] at h
    simp only [List.cons_append, List.nil_append, List.cons.injEq, true_and] at h
    refine ⟨rfl, fun _ => ?_, h.2.2.2⟩
    have h2 := h.2.1
    have h3 := h.2.2.1
    split_ifs at h2 h3 <;> omega
  · rw [ea] at h
    simp only [textBytes, e1, List.cons_append, List.nil_append, List.cons.injEq, true_and,
      List.append_assoc] at h
    exact absurd h.1 hta
  · rw [eb] at h
    simp only [textBytes, e1, List.cons_append, List.nil_append, List.cons.injEq, true_and,
      List.append_assoc] at h
    exact absurd h.1.symm htb
  · exact ⟨rfl, fun hh => absurd hh (by simp), h⟩


theorem scrollBytes_cases (st : VMDisplay) (k : Nat)
    (h0 : 0 ≤ (st.lineAt k).scrollType) (h6 : (st.lineAt k).scrollType ≤ 6)
    (v0 : 0 ≤ (st.lineAt k).scrollSpeed) (v2 : (st.lineAt k).scrollSpeed ≤ 2) :
    (winRetained st k = true ∧ (st.lineAt k).scrollType < 4 ∧ scrollBytes st k = [])
      ∨ (winRetained st k = false ∧ (st.lineAt k).scrollType < 4
          ∧ scrollBytes st k = [60, 83,
              (if (st.lineAt k).scrollType = 0 then 76 else if (st.lineAt k).scrollType = 1 then 82
                else if (st.lineAt k).scrollType = 2 then 85 else 68), 62, 60, 83, 32,
              (if (st.lineAt k).scrollSpeed = 0 then 83
                else if (st.lineAt k).scrollSpeed = 1 then 77 else 70), 62])
      ∨ (4 ≤ (st.lineAt k).scrollType
          ∧ scrollBytes st k = [60, (if (st.lineAt k).scrollType = 4 then 76
              else if (st.lineAt k).scrollType = 5 then 67 else 82), 74, 62]) := by
  have e1 : lit "<SL>" = [60, 83, 76, 62] := by decide
  have e2 : lit "<SR>" = [60, 83, 82, 62] := by decide
  have e3 : lit "<SU>" = [60, 83, 85, 62] := by decide
  have e4 : lit "<SD>" = [60, 83, 68, 62] := by decide
  have e5 : lit "<LJ>" = [60, 76, 74, 62] := by decide
  have e6 : lit "<CJ>" = [60, 67, 74, 62] := by decide
  have e7 : lit "<RJ>" = [60, 82, 74, 62] := by decide
  have f1 : lit "<S " = [60, 83, 32] := by decide
  have f2 : lit "S>" = [83, 62] := by decide
  have f3 : lit "M>" = [77, 62] := by decide
  have f4 : lit "F>" = [70, 62] := by decide
  have ct : (st.lineAt k).scrollType = 0 ∨ (st.lineAt k).scrollType = 1
      ∨ (st.lineAt k).scrollType = 2 ∨ (st.lineAt k).scrollType = 3
      ∨ (st.lineAt k).scrollType = 4 ∨ (st.lineAt k).scrollType = 5
      ∨ (st.lineAt k).scrollType = 6 := by omega
  have cv : (st.lineAt k).scrollSpeed = 0 ∨ (st.lineAt k).scrollSpeed = 1
      ∨ (st.lineAt k).scrollSpeed = 2 := by omega
  cases hw : winRetained st k <;>
    rcases ct with ct | ct | ct | ct | ct | ct | ct <;>
    rcases cv with cv | cv | cv <;>
    simp [scrollBytes, scrollTypeBytes, scrollSpeedBytes, hw, ct, cv, e1, e2, e3, e4, e5, e6,
      e7, f1, f2, f3, f4]

theorem blinkBytes_head (b : Int) : ∃ t, blinkBytes b = 60 :: 66 :: 76 :: 32 :: t := by
  have e1 : lit "<BL " = [60, 66, 76, 32] := by decide
  exact ⟨_, by rw [blinkBytes, e1]; rfl⟩

theorem scroll_inj (a b : VMDisplay) (k : Nat) (ba bb : Int) (x y : List Nat)
    (ha0 : 0 ≤ (a.lineAt k).scrollType) (ha6 : (a.lineAt k).scrollType ≤ 6)
    (va0 : 0 ≤ (a.lineAt k).scrollSpeed) (va2 : (a.lineAt k).scrollSpeed ≤ 2)
    (hb0 : 0 ≤ (b.lineAt k).scrollType) (hb6 : (b.lineAt k).scrollType ≤ 6)
    (vb0 : 0 ≤ (b.lineAt k).scrollSpeed) (vb2 : (b.lineAt k).scrollSpeed ≤ 2)
    (h : scrollBytes a k ++ (blinkBytes ba ++ x) = scrollBytes b k ++ (blinkBytes bb ++ y)) :
    ((winRetained a k = true ∧ winRetained b k = true)
        ∨ ((a.lineAt k).scrollType = (b.lineAt k).scrollType
            ∧ ((a.lineAt k).scrollType < 4 → winRetained a k = false →
                (a.lineAt k).scrollSpeed = (b.lineAt k).scrollSpeed)))
      ∧ blinkBytes ba ++ x = blinkBytes bb ++ y := by
  obtain ⟨ta, ea⟩ := blinkBytes_head ba
  obtain ⟨tb, eb⟩ := blinkBytes_head bb
  rcases scrollBytes_cases a k ha0 ha6 va0 va2 with ⟨wa, la, sa⟩ | ⟨wa, la, sa⟩ | ⟨la, sa⟩ <;>
    rcases scrollBytes_cases b k hb0 hb6 vb0 vb2 with ⟨wb, lb, sb⟩ | ⟨wb, lb, sb⟩ | ⟨lb, sb⟩ <;>
    rw [sa, sb] at h
  · exact ⟨Or.inl ⟨wa, wb⟩, by simpa using h⟩
  · rw [ea] at h; simp at h
  · rw [ea] at h
    simp only [List.cons_append, List.nil_append, List.cons.injEq, true_and] at h
    have h1 := h.1
    split_ifs at h1 <;> omega
  · rw [eb] at h; simp at h
  · simp only [List.cons_append, List.nil_append, List.cons.injEq, true_and] at h
    refine ⟨Or.inr ⟨?_, fun _ _ => ?_⟩, h.2.2⟩
    · have h1 := h.1
      split_ifs at h1 <;> omega
    · have h1 := h.2.1
      split_ifs at h1 <;> omega
  · simp only [List.cons_append, List.nil_append, List.cons.injEq, true_and] at h
    have h1 := h.1
    split_ifs at h1 <;> omega
  · rw [eb] at h
    simp only [List.cons_append, List.nil_append, List.cons.injEq, true_and] at h
    have h1 := h.1
    split_ifs at h1 <;> omega
  · simp only [List.cons_append, List.nil_append, List.cons.injEq, true_and] at h
    have h1 := h.1
    split_ifs at h1 <;> omega
  · simp only [List.cons_append, List.nil_append, List.cons.injEq, true_and] at h
    refine ⟨Or.inr ⟨?_, fun hlt _ => absurd hlt (by omega)⟩, h.2⟩
    have h1 := h.1
    split_ifs at h1 <;> omega


theorem length_heightBytes (k : Nat) : (heightBytes k).length = if k < 2 then 1 else 2 := by
  unfold heightBytes
  split_ifs <;> rfl

theorem window_inj (a b : VMDisplay) (k : Nat) (x y : List Nat)
    (h : windowBytes a k ++ (positionBytes k ++ x) = windowBytes b k ++ (positionBytes k ++ y)) :
    winRetained a k = winRetained b k ∧ x = y := by
  have e1 : lit "<WIN 0 " = [60, 87, 73, 78, 32, 48, 32] := by decide
  have e2 : lit "<POS 0 " = [60, 80, 79, 83, 32, 48, 32] := by decide
  unfold windowBytes at h
  cases ra : winRetained a k <;> cases rb : winRetained b k <;>
    simp only [ra, rb, Bool.not_false, Bool.not_true, if_true, if_false, List.nil_append,
      Bool.false_eq_true] at h
  · refine ⟨rfl, ?_⟩
    have hl := List.append_inj h (by simp)
    exact List.append_cancel_left hl.2
  · simp [positionBytes, e1, e2] at h
  · simp [positionBytes, e1, e2] at h
  · exact ⟨rfl, List.append_cancel_left h⟩


theorem clearLoop_le (st : VMDisplay) (k : Nat) : ∀ l : List Nat, clearLoop st k l ≤ l.length := by
  intro l
  induction l with
  | nil => simp [clearLoop]
  | cons i rest ih =>
    simp only [clearLoop, List.length_cons]
    split_ifs <;> omega

theorem printable_toChar (v : Int) (h0 : 26 ≤ v) (h1 : v < 256) : printable (toChar v) = true := by
  rw [toChar_small v (by omega) h1]
  simp only [printable, decide_eq_true_eq]
  omega

theorem heightBytes_printable (k : Nat) (hk : k < 4) : ∀ x ∈ heightBytes k, printable x = true := by
  interval_cases k <;> decide

theorem windowBytes_printable (st : VMDisplay) (k : Nat) (hk : k < 4) :
    ∀ x ∈ windowBytes st k, printable x = true := by
  have hl : linesClearBelow st k ≤ 3 := clearLoop_le st k [1, 2, 3]
  have hc0 : 0 ≤ clearPixels st k := by
    unfold clearPixels lineHeight; omega
  have hc1 : clearPixels st k ≤ 99 := by
    unfold clearPixels lineHeight; omega
  have e : (clearPixels st k).tdiv 10 = clearPixels st k / 10 := Int.tdiv_eq_ediv hc0 (by omega)
  have p1 : ∀ x ∈ lit "<WIN 0 ", printable x = true := by decide
  have p2 : ∀ x ∈ lit " 287 ", printable x = true := by decide
  have p3 : ∀ x ∈ lit ">", printable x = true := by decide
  unfold windowBytes
  split_ifs
  · intro x hx
    simp only [List.mem_append, List.mem_singleton] at hx
    rcases hx with hx | hx | hx | hx | hx | hx
    · exact p1 x hx
    · exact heightBytes_printable k hk x hx
    · exact p2 x hx
    · rw [hx, e]; exact printable_toChar _ (by omega) (by omega)
    · rw [hx, e]; exact printable_toChar _ (by omega) (by omega)
    · exact p3 x hx
  · intro x hx; simp at hx

theorem positionBytes_printable (k : Nat) (hk : k < 4) :
    ∀ x ∈ positionBytes k, printable x = true := by
  have p1 : ∀ x ∈ lit "<POS 0 ", printable x = true := by decide
  have p3 : ∀ x ∈ lit ">", printable x = true := by decide
  intro x hx
  simp only [positionBytes, List.mem_append] at hx
  rcases hx with hx | hx | hx
  · exact p1 x hx
  · exact heightBytes_printable k hk x hx
  · exact p3 x hx

theorem scrollBytes_printable (st : VMDisplay) (k : Nat) :
    ∀ x ∈ scrollBytes st k, printable x = true := by
  unfold scrollBytes scrollTypeBytes scrollSpeedBytes
  split_ifs <;> decide

theorem blinkBytes_printable (b : Int) : ∀ x ∈ blinkBytes b, printable x = true := by
  unfold blinkBytes
  split_ifs <;> decide

theorem colorBytes_printable (st : VMDisplay) (k : Nat) :
    ∀ x ∈ colorBytes st k, printable x = true := by
  unfold colorBytes colorTag
  split_ifs <;> decide

theorem textSizeBytes_printable (s : Int) (h0 : 0 ≤ s) (h1 : s ≤ 99) :
    ∀ x ∈ textSizeBytes s, printable x = true := by
  have p1 : ∀ x ∈ lit "<CS ", printable x = true := by decide
  have p3 : ∀ x ∈ lit ">", printable x = true := by decide
  intro x hx
  simp only [textSizeBytes, List.mem_append] at hx
  rcases hx with hx | hx | hx
  · exact p1 x hx
  · rcases sizeDigits_cases s h0 h1 with ⟨_, e⟩ | ⟨_, e⟩ <;> rw [e] at hx <;>
      simp only [List.mem_cons, List.mem_singleton, List.not_mem_nil, or_false] at hx <;>
      simp only [printable, decide_eq_true_eq] <;> omega
  · exact p3 x hx

theorem textBytes_printable (ln : Line) (h : ∀ x ∈ cstr ln.text, 0x19 < x ∧ x ≠ 60) :
    ∀ x ∈ textBytes ln, printable x = true := by
  have p1 : ∀ x ∈ lit "<T>", printable x = true := by decide
  have p3 : ∀ x ∈ lit "</T>", printable x = true := by decide
  intro x hx
  simp only [textBytes, List.mem_append] at hx
  rcases hx with hx | hx | hx
  · exact p1 x hx
  · simp only [printable, decide_eq_true_eq]
    exact (h x hx).1
  · exact p3 x hx

theorem lineBlock_printable (st : VMDisplay) (k : Nat) (hk : k < 4)
    (hv : validLine (st.lineAt k)) : ∀ x ∈ lineBlock st k, printable x = true := by
  obtain ⟨_, ⟨s0, s1⟩, _, _, _, ht⟩ := hv
  intro x hx
  simp only [lineBlock, List.mem_append] at hx
  rcases hx with hx | hx | hx | hx | hx | hx | hx
  · exact windowBytes_printable st k hk x hx
  · exact positionBytes_printable k hk x hx
  · exact scrollBytes_printable st k x hx
  · exact blinkBytes_printable _ x hx
  · exact textSizeBytes_printable _ s0 (by omega) x hx
  · exact colorBytes_printable st k x hx
  · exact textBytes_printable _ ht x hx

theorem blocksOf_printable (st : VMDisplay)
    (hv : ∀ j, j < 4 → (st.lineAt j).isEnabled = true → validLine (st.lineAt j)) :
    ∀ l : List Nat, (∀ i ∈ l, i < 4) → (blocksOf st l).filter printable = blocksOf st l := by
  intro l
  induction l with
  | nil => intro _; rfl
  | cons i rest ih =>
    intro hl
    have hi : i < 4 := hl i (List.mem_cons_self _ _)
    have hr := ih (fun j hj => hl j (List.mem_cons_of_mem _ hj))
    unfold blocksOf
    by_cases he : (st.lineAt i).isEnabled = true
    · rw [if_pos he, List.filter_append, hr,
        List.filter_eq_self.mpr (lineBlock_printable st i hi (hv i hi he))]
    · rw [if_neg he, hr]


theorem winRetained_iff (st : VMDisplay) (i : Nat) :
    winRetained st i = true
      ↔ (i ≠ 0 ∧ (st.lineAt (i - 1)).isEnabled = true
          ∧ (st.lineAt i).scrollType = (st.lineAt (i - 1)).scrollType) := by
  unfold winRetained
  by_cases h : i = 0
  · simp [h]
  · simp [h, and_comm]

theorem lineBlock_inj (a b : VMDisplay) (k : Nat) (x y : List Nat)
    (hva : validLine (a.lineAt k)) (hvb : validLine (b.lineAt k))
    (hprev : k ≠ 0 → (a.lineAt (k - 1)).isEnabled = true → sameShown a b (k - 1))
    (h : lineBlock a k ++ x = lineBlock b k ++ y) : sameShown a b k ∧ x = y := by
  obtain ⟨⟨ca0, ca2⟩, ⟨sa0, sa1⟩, ⟨ta0, ta6⟩, ⟨va0, va2⟩, ⟨ba0, ba3⟩, hta⟩ := hva
  obtain ⟨⟨cb0, cb2⟩, ⟨sb0, sb1⟩, ⟨tb0, tb6⟩, ⟨vb0, vb2⟩, ⟨bb0, bb3⟩, htb⟩ := hvb
  simp only [lineBlock, List.append_assoc] at h
  obtain ⟨_, h⟩ := window_inj a b k _ _ h
  obtain ⟨hs, h⟩ := scroll_inj a b k _ _ _ _ ta0 ta6 va0 va2 tb0 tb6 vb0 vb2 h
  obtain ⟨hbl, h⟩ := blink_inj _ _ _ _ ba0 ba3 bb0 bb3 h
  obtain ⟨hsz, h⟩ := size_inj _ _ _ _ sa0 (by omega) sb0 (by omega) h
  obtain ⟨hcr, hc, h⟩ := color_inj a b k _ _ ca0 ca2 cb0 cb2 h
  obtain ⟨htx, h⟩ := text_inj _ _ _ _ (fun hm => (hta 60 hm).2 rfl)
    (fun hm => (htb 60 hm).2 rfl) h
  have hcol : (a.lineAt k).color = (b.lineAt k).color := by
    cases hr : colorRetained a k
    · exact hc hr
    · obtain ⟨k0, en, e⟩ := (colorRetained_iff a k).mp hr
      obtain ⟨_, _, e2⟩ := (colorRetained_iff b k).mp (hcr ▸ hr)
      rw [e, e2]
      exact (hprev k0 en).1
  have hty : (a.lineAt k).scrollType = (b.lineAt k).scrollType := by
    rcases hs with ⟨wa, wb⟩ | ⟨e, _⟩
    · obtain ⟨k0, en, e⟩ := (winRetained_iff a k).mp wa
      obtain ⟨_, _, e2⟩ := (winRetained_iff b k).mp wb
      rw [e, e2]
      exact (hprev k0 en).2.2.1
    · exact e
  refine ⟨⟨hcol, hsz, hty, hbl, htx, fun hlt hw => ?_⟩, h⟩
  rcases hs with ⟨wa, _⟩ | ⟨_, e⟩
  · rw [wa] at hw; exact absurd hw (by simp)
  · exact e hlt hw

theorem blocksOf_inj (a b : VMDisplay)
    (hen : ∀ j, j < 4 → (a.lineAt j).isEnabled = (b.lineAt j).isEnabled)
    (hva : ∀ j, j < 4 → (a.lineAt j).isEnabled = true → validLine (a.lineAt j))
    (hvb : ∀ j, j < 4 → (b.lineAt j).isEnabled = true → validLine (b.lineAt j)) :
    ∀ (n k : Nat), k + n = 4 →
      (k ≠ 0 → (a.lineAt (k - 1)).isEnabled = true → sameShown a b (k - 1)) →
      ∀ x y : List Nat,
        blocksOf a (List.range' k n) ++ x = blocksOf b (List.range' k n) ++ y →
        (∀ j, k ≤ j → j < 4 → (a.lineAt j).isEnabled = true → sameShown a b j) ∧ x = y := by
  intro n
  induction n with
  | zero =>
    intro k hk _ x y h
    refine ⟨fun j h1 h2 => absurd h2 (by omega), ?_⟩
    simpa [blocksOf] using h
  | succ n ih =>
    intro k hk hprev x y h
    have hk4 : k < 4 := by omega
    rw [List.range'_succ] at h
    unfold blocksOf at h
    by_cases he : (a.lineAt k).isEnabled = true
    · have heb : (b.lineAt k).isEnabled = true := by rw [← hen k hk4]; exact he
      rw [if_pos he, if_pos heb, List.append_assoc, List.append_assoc] at h
      obtain ⟨hs, h2⟩ := lineBlock_inj a b k _ _ (hva k hk4 he) (hvb k hk4 heb) hprev h
      obtain ⟨hall, hxy⟩ := ih (k + 1) (by omega) (fun _ _ => hs) x y h2
      refine ⟨fun j h1 h2 h3 => ?_, hxy⟩
      by_cases hj : j = k
      · rw [hj]; exact hs
      · exact hall j (by omega) h2 h3
    · have heb : ¬ (b.lineAt k).isEnabled = true := by rw [← hen k hk4]; exact he
      rw [if_neg he, if_neg heb] at h
      obtain ⟨hall, hxy⟩ := ih (k + 1) (by omega)
        (fun _ hh => absurd hh he) x y h
      refine ⟨fun j h1 h2 h3 => ?_, hxy⟩
      by_cases hj : j = k
      · rw [hj] at h3; exact absurd h3 he
      · exact hall j (by omega) h2 h3

theorem command_shows_fields (a b : VMDisplay) (sa sb : List Nat) (ga gb : Generated)
    (hca : a.commandString.length = 512) (hcb : b.commandString.length = 512)
    (h0 : 0 ≤ a.ID) (h1 : a.ID ≤ 999) (hID : a.ID = b.ID)
    (hma : a.maintenanceCommand = 4) (hmb : b.maintenanceCommand = 4)
    (hen : ∀ j, j < 4 → (a.lineAt j).isEnabled = (b.lineAt j).isEnabled)
    (hva : ∀ j, j < 4 → (a.lineAt j).isEnabled = true → validLine (a.lineAt j))
    (hvb : ∀ j, j < 4 → (b.lineAt j).isEnabled = true → validLine (b.lineAt j))
    (hga : generateString a sa = some ga) (hgb : generateString b sb = some gb)
    (h : cstr ga.st.commandString = cstr gb.st.commandString) :
    ∀ j, j < 4 → (a.lineAt j).isEnabled = true → sameShown a b j := by
  obtain ⟨Ka, ea, ka, _⟩ := generateString_lines a sa ga hca h0 h1 hma hga
  obtain ⟨Kb, eb, kb, _⟩ := generateString_lines b sb gb hcb (hID ▸ h0) (hID ▸ h1) hmb hgb
  rw [ea, eb, hID] at h
  have hK : Ka = Kb := List.append_cancel_left h
  have hr : [0, 1, 2, 3] = List.range' 0 4 := by decide
  rw [blocksOf_printable a hva _ (by decide), hr] at ka
  rw [blocksOf_printable b hvb _ (by decide), hr] at kb
  have key := blocksOf_inj a b hen hva hvb 4 0 (by omega) (fun h => absurd rfl h)
  intro j hj he
  rcases ka with ka | ka <;> rcases kb with kb | kb
  · exact (key [] [] (by rw [List.append_nil, List.append_nil, ← ka, ← kb, hK])).1 j
      (Nat.zero_le _) hj he
  · exact (key [62] [] (by rw [List.append_nil, ← ka, ← kb, hK])).1 j (Nat.zero_le _) hj he
  · exact (key [] [62] (by rw [List.append_nil, ← ka, ← kb, hK])).1 j (Nat.zero_le _) hj he
  · exact (key [] [] (by rw [List.append_nil, List.append_nil, ← ka, ← kb, hK])).1 j
      (Nat.zero_le _) hj he


/-- C10, amended. Two displays with the same ID (0..999), no test pattern, the same enabled
flags and, on every enabled line, field values of the data model and a text of printable
characters without `<`, are both compiled by `generateString`. If some enabled line differs in
color, text size, scroll type, blink or text, or in scroll speed while it scrolls (type 0..3)
and its window tag is written (line 1, or the line above is disabled or has another scroll
type), then the two compiled commands differ. -/
theorem C10_shown_fields_read_back (a b : VMDisplay) (sa sb : List Nat) (ga gb : Generated)
    (k : Nat)
    (hca : a.commandString.length = 512) (hcb : b.commandString.length = 512)
    (h0 : 0 ≤ a.ID) (h1 : a.ID ≤ 999) (hID : a.ID = b.ID)
    (hma : a.maintenanceCommand = 4) (hmb : b.maintenanceCommand = 4)
    (hen : ∀ j, j < 4 → (a.lineAt j).isEnabled = (b.lineAt j).isEnabled)
    (hva : ∀ j, j < 4 → (a.lineAt j).isEnabled = true → validLine (a.lineAt j))
    (hvb : ∀ j, j < 4 → (b.lineAt j).isEnabled = true → validLine (b.lineAt j))
    (hga : generateString a sa = some ga) (hgb : generateString b sb = some gb)
    (hk : k < 4) (hek : (a.lineAt k).isEnabled = true)
    (hd : (a.lineAt k).color ≠ (b.lineAt k).color
      ∨ (a.lineAt k).textSize ≠ (b.lineAt k).textSize
      ∨ (a.lineAt k).scrollType ≠ (b.lineAt k).scrollType
      ∨ (a.lineAt k).blink ≠ (b.lineAt k).blink
      ∨ cstr (a.lineAt k).text ≠ cstr (b.lineAt k).text
      ∨ ((a.lineAt k).scrollType < 4 ∧ winRetained a k = false
          ∧ (a.lineAt k).scrollSpeed ≠ (b.lineAt k).scrollSpeed)) :
    cstr ga.st.commandString ≠ cstr gb.st.commandString := by
  intro h
  obtain ⟨c1, c2, c3, c4, c5, c6⟩ :=
    command_shows_fields a b sa sb ga gb hca hcb h0 h1 hID hma hmb hen hva hvb hga hgb h k hk hek
  rcases hd with hd | hd | hd | hd | hd | ⟨hlt, hw, hd⟩
  · exact hd c1
  · exact hd c2
  · exact hd c3
  · exact hd c4
  · exact hd c5
  · exact hd (c6 hlt hw)

set_option maxRecDepth 100000 in
/-- Instance of C10: a fresh display with ID 5 whose line 1 scrolls left, once at the default
speed and once FAST; the two compiled commands differ. -/
theorem C10_shown_fields_read_back_witness :
    ∃ ga gb, generateString (setScrollType (VMDisplay.new 5) 1 SCROLL_LEFT)
          (List.replicate 512 0) = some ga
      ∧ generateString (setScrollSpeed (setScrollType (VMDisplay.new 5) 1 SCROLL_LEFT) 1 FAST)
          (List.replicate 512 0) = some gb
      ∧ cstr ga.st.commandString ≠ cstr gb.st.commandString := by
  have hsa : (generateString (setScrollType (VMDisplay.new 5) 1 SCROLL_LEFT)
      (List.replicate 512 0)).isSome = true := by
    rw [generateString_eq _ _ (by decide!), (laid_header
      (setScrollType (VMDisplay.new 5) 1 SCROLL_LEFT).ID (by decide) (by decide)).1,
      Option.some_bind, putBody_lines _ _ (by decide),
      putLines_enabled _ _ _ _ (by decide) (by decide!) (by decide!),
      putLines_disabled _ _ _ _ (by decide), putLines_disabled _ _ _ _ (by decide),
      putLines_disabled _ _ _ _ (by decide), putLines, Option.some_bind,
      if_pos (by decide!)]
    rfl
  have hsb : (generateString
      (setScrollSpeed (setScrollType (VMDisplay.new 5) 1 SCROLL_LEFT) 1 FAST)
      (List.replicate 512 0)).isSome = true := by
    rw [generateString_eq _ _ (by decide!), (laid_header
      (setScrollSpeed (setScrollType (VMDisplay.new 5) 1 SCROLL_LEFT) 1 FAST).ID (by decide)
      (by decide)).1,
      Option.some_bind, putBody_lines _ _ (by decide),
      putLines_enabled _ _ _ _ (by decide) (by decide!) (by decide!),
      putLines_disabled _ _ _ _ (by decide), putLines_disabled _ _ _ _ (by decide),
      putLines_disabled _ _ _ _ (by decide), putLines, Option.some_bind,
      if_pos (by decide!)]
    rfl
  obtain ⟨ga, hga⟩ := Option.isSome_iff_exists.mp hsa
  obtain ⟨gb, hgb⟩ := Option.isSome_iff_exists.mp hsb
  exact ⟨ga, gb, hga, hgb, C10_shown_fields_read_back _ _ _ _ ga gb 0 (by decide!) (by decide!)
    (by decide) (by decide) (by decide) (by decide) (by decide) (by decide!) (by decide!)
    (by decide!) hga hgb (by decide) (by decide)
    (Or.inr (Or.inr (Or.inr (Or.inr (Or.inr ⟨by decide, by decide, by decide⟩)))))⟩

set_option maxRecDepth 100000 in
/-- C10, the failing runs. A fresh display with ID 5 keeps the default scroll type
LEFT_JUSTIFIED on its enabled line 1; with the scroll speed set to FAST it compiles the same
command as with the default speed: no speed tag is written for a justified line. With lines 1
and 2 both scrolling left, the speed of line 2 is not written either (its window is retained):
setting it to FAST leaves the command unchanged. -/
theorem C10_scroll_speed_not_shown_counterexample :
    ((setScrollSpeed (VMDisplay.new 5) 1 FAST).lineAt 0).scrollSpeed
        ≠ ((VMDisplay.new 5).lineAt 0).scrollSpeed
      ∧ (generateString (setScrollSpeed (VMDisplay.new 5) 1 FAST) (List.replicate 512 0)).map
          (fun g => cstr g.st.commandString)
        = some (lit "<ID 5><CLR><WIN 0 0 287 31><POS 0 0><LJ><BL N><CS 0><GRN><T></T>")
      ∧ (generateString (VMDisplay.new 5) (List.replicate 512 0)).map
          (fun g => cstr g.st.commandString)
        = some (lit "<ID 5><CLR><WIN 0 0 287 31><POS 0 0><LJ><BL N><CS 0><GRN><T></T>")
      ∧ ((setScrollSpeed twoScrollingLines 2 FAST).lineAt 1).scrollSpeed
        ≠ (twoScrollingLines.lineAt 1).scrollSpeed
      ∧ (generateString (setScrollSpeed twoScrollingLines 2 FAST) (List.replicate 512 0)).map
          (fun g => cstr g.st.commandString)
        = some (lit ("<ID 5><CLR><WIN 0 0 287 31><POS 0 0><SL><S M><BL N><CS 0><GRN><T></T>"
            ++ "<POS 0 8><BL N><CS 0><T></T>"))
      ∧ (generateString twoScrollingLines (List.replicate 512 0)).map
          (fun g => cstr g.st.commandString)
        = some (lit ("<ID 5><CLR><WIN 0 0 287 31><POS 0 0><SL><S M><BL N><CS 0><GRN><T></T>"
            ++ "<POS 0 8><BL N><CS 0><T></T>")) := by
  refine ⟨by decide, ?_, ?_, by decide, ?_, ?_⟩
  · rw [generateString_eq _ _ (by decide!), (laid_header
      (setScrollSpeed (VMDisplay.new 5) 1 FAST).ID (by decide) (by decide)).1,
      Option.some_bind, putBody_lines _ _ (by decide),
      putLines_enabled _ _ _ _ (by decide) (by decide!) (by decide!),
      putLines_disabled _ _ _ _ (by decide), putLines_disabled _ _ _ _ (by decide),
      putLines_disabled _ _ _ _ (by decide), putLines, Option.some_bind,
      if_pos (by decide!), Option.map_some', cstr_kept]
    decide!
  · rw [generateString_eq _ _ (by decide!), (laid_header
      (VMDisplay.new 5).ID (by decide) (by decide)).1,
      Option.some_bind, putBody_lines _ _ (by decide),
      putLines_enabled _ _ _ _ (by decide) (by decide!) (by decide!),
      putLines_disabled _ _ _ _ (by decide), putLines_disabled _ _ _ _ (by decide),
      putLines_disabled _ _ _ _ (by decide), putLines, Option.some_bind,
      if_pos (by decide!), Option.map_some', cstr_kept]
    decide!
  · rw [generateString_eq _ _ (by decide!), (laid_header
      (setScrollSpeed twoScrollingLines 2 FAST).ID (by decide) (by decide)).1,
      Option.some_bind, putBody_lines _ _ (by decide),
      putLines_enabled _ _ _ _ (by decide) (by decide!) (by decide!),
      putLines_enabled _ _ _ _ (by decide) (by decide!) (by decide!),
      putLines_disabled _ _ _ _ (by decide),
      putLines_disabled _ _ _ _ (by decide), putLines, Option.some_bind,
      if_pos (by decide!), Option.map_some', cstr_kept]
    decide!
  · rw [generateString_eq _ _ (by decide!), (laid_header
      twoScrollingLines.ID (by decide) (by decide)).1,
      Option.some_bind, putBody_lines _ _ (by decide),
      putLines_enabled _ _ _ _ (by decide) (by decide!) (by decide!),
      putLines_enabled _ _ _ _ (by decide) (by decide!) (by decide!),
      putLines_disabled _ _ _ _ (by decide),
      putLines_disabled _ _ _ _ (by decide), putLines, Option.some_bind,
      if_pos (by decide!), Option.map_some', cstr_kept]
    decide!

theorem heightBytes_eq (k : Nat) (hk : k < 4) : heightBytes k = decimal (8 * k) := by
  interval_cases k <;> decide

theorem positionBytes_eq (k : Nat) (hk : k < 4) :
    positionBytes k = lit "<POS 0 " ++ (decimal (8 * k) ++ lit ">") := by
  rw [positionBytes, heightBytes_eq k hk]

theorem blinkBytes_eq_spec (b : Int) (h0 : 0 ≤ b) (h3 : b ≤ 3) :
    blinkBytes b = specBlinkTag b := by
  have cb : b = 0 ∨ b = 1 ∨ b = 2 ∨ b = 3 := by omega
  rcases cb with cb | cb | cb | cb <;> subst cb <;> decide

theorem scrollBytes_eq_spec (st : VMDisplay) (k : Nat)
    (h0 : 0 ≤ (st.lineAt k).scrollType) (h6 : (st.lineAt k).scrollType ≤ 6)
    (v0 : 0 ≤ (st.lineAt k).scrollSpeed) (v2 : (st.lineAt k).scrollSpeed ≤ 2) :
    scrollBytes st k = specScroll st k := by
  have ct : (st.lineAt k).scrollType = 0 ∨ (st.lineAt k).scrollType = 1
      ∨ (st.lineAt k).scrollType = 2 ∨ (st.lineAt k).scrollType = 3
      ∨ (st.lineAt k).scrollType = 4 ∨ (st.lineAt k).scrollType = 5
      ∨ (st.lineAt k).scrollType = 6 := by omega
  have cv : (st.lineAt k).scrollSpeed = 0 ∨ (st.lineAt k).scrollSpeed = 1
      ∨ (st.lineAt k).scrollSpeed = 2 := by omega
  unfold scrollBytes specScroll scrollTypeBytes scrollSpeedBytes specScrollTag specSpeedTag
  cases hw : winRetained st k <;>
    rcases ct with ct | ct | ct | ct | ct | ct | ct <;>
    rcases cv with cv | cv | cv <;>
    rw [ct, cv] <;> decide


theorem lineBlock_eq_spec (st : VMDisplay) (k : Nat) (hk : k < 4)
    (hb0 : 0 ≤ (st.lineAt k).blink) (hb3 : (st.lineAt k).blink ≤ 3)
    (hs0 : 0 ≤ (st.lineAt k).textSize) (hs1 : (st.lineAt k).textSize ≤ 11)
    (h0 : 0 ≤ (st.lineAt k).scrollType) (h6 : (st.lineAt k).scrollType ≤ 6)
    (v0 : 0 ≤ (st.lineAt k).scrollSpeed) (v2 : (st.lineAt k).scrollSpeed ≤ 2) :
    lineBlock st k = specBlock st k := by
  have hw : windowBytes st k = (if winRetained st k then [] else windowBytes st k) := by
    unfold windowBytes
    cases winRetained st k <;> simp
  have hc : colorBytes st k
      = (if colorRetained st k then [] else colorTag (st.lineAt k).color) := by
    unfold colorBytes
    cases colorRetained st k <;> simp
  unfold lineBlock specBlock
  rw [← hw, ← hc, positionBytes_eq k hk, blinkBytes_eq_spec _ hb0 hb3,
    scrollBytes_eq_spec st k h0 h6 v0 v2, textSizeBytes, sizeDigits_eq _ hs0 hs1, textBytes]

/-- C21. For a line `k + 1` (`k` in 0..3) with field values of the data model, a terminated
text and room in the array, `lineConfig` stores at `startPos` the window tag (unless retained),
`<POS 0 top>` with `top = 8 * k` in decimal, the scroll directive (unless retained), `<BL x>`
with the letter of the blink rate, `<CS n>` with the text size in decimal, the color tag
(unless retained) and `<T>`, the text, `</T>`, in this order and nothing else. -/
theorem C21_block_layout (st : VMDisplay) (k p : Nat) (arr : List Nat) (hk : k < 4)
    (b0 : 0 ≤ (st.lineAt k).blink) (b3 : (st.lineAt k).blink ≤ 3)
    (s0 : 0 ≤ (st.lineAt k).textSize) (s1 : (st.lineAt k).textSize ≤ 11)
    (t0 : 0 ≤ (st.lineAt k).scrollType) (t6 : (st.lineAt k).scrollType ≤ 6)
    (v0 : 0 ≤ (st.lineAt k).scrollSpeed) (v2 : (st.lineAt k).scrollSpeed ≤ 2)
    (ht : 0 ∈ (st.lineAt k).text)
    (hroom : p + (specBlock st k).length ≤ arr.length) :
    lineConfig st p k arr
      = some (p + (specBlock st k).length - 11,
          splice arr p
            ((if winRetained st k then [] else windowBytes st k)
              ++ ((lit "<POS 0 " ++ (decimal (8 * k) ++ lit ">"))
              ++ (specScroll st k
              ++ (specBlinkTag (st.lineAt k).blink
              ++ ((lit "<CS " ++ (decimal (st.lineAt k).textSize.toNat ++ lit ">"))
              ++ ((if colorRetained st k then [] else colorTag (st.lineAt k).color)
              ++ (lit "<T>" ++ (cstr (st.lineAt k).text ++ lit "</T>"))))))))) := by
  have e := lineBlock_eq_spec st k hk b0 b3 s0 s1 t0 t6 v0 v2
  rw [lineConfig_eq _ _ _ _ ht, e, if_pos hroom]
  rfl

set_option maxRecDepth 100000 in
/-- Instance of C21: line 2 of the display whose lines 1 and 2 scroll left, compiled at index
11 of an empty array. Window, scroll directive and color are retained from line 1. -/
theorem C21_block_layout_witness :
    (lineConfig twoScrollingLines 11 1 (List.replicate 512 0)).map
        (fun r => (r.1, (r.2.drop 11).take 30))
      = some (28, lit "<POS 0 8><BL N><CS 0><T></T>" ++ [0, 0]) := by
  rw [C21_block_layout twoScrollingLines 1 11 (List.replicate 512 0) (by decide) (by decide)
    (by decide) (by decide) (by decide) (by decide) (by decide) (by decide) (by decide)
    (by decide!) (by decide!)]
  decide!

/-- C23. The block `lineConfig` stores for line 1 starts with `<WIN 0 `; the block of a line
`k + 1` in 2..4 starts with `<WIN 0 ` exactly when it is not the case that the line above is
enabled and has the same scroll type; otherwise it starts with `<POS 0 top>`. -/
theorem C23_window_tag_presence (st : VMDisplay) (k p : Nat) (arr : List Nat) (hk : k < 4)
    (ht : 0 ∈ (st.lineAt k).text) (hroom : p + (lineBlock st k).length ≤ arr.length) :
    ∃ r, lineConfig st p k arr = some r
      ∧ ((r.2.drop p).take 7 = lit "<WIN 0 "
          ↔ (k = 0 ∨ ¬ ((st.lineAt (k - 1)).isEnabled = true
                ∧ (st.lineAt k).scrollType = (st.lineAt (k - 1)).scrollType)))
      ∧ ((k ≠ 0 ∧ (st.lineAt (k - 1)).isEnabled = true
            ∧ (st.lineAt k).scrollType = (st.lineAt (k - 1)).scrollType) →
          (r.2.drop p).take (lit "<POS 0 " ++ (decimal (8 * k) ++ lit ">")).length
            = lit "<POS 0 " ++ (decimal (8 * k) ++ lit ">")) := by
  refine ⟨_, by rw [lineConfig_eq _ _ _ _ ht, if_pos hroom], ?_, ?_⟩
  · show ((splice arr p (lineBlock st k)).drop p).take 7 = _ ↔ _
    have hd : (splice arr p (lineBlock st k)).drop p
        = lineBlock st k ++ arr.drop (p + (lineBlock st k).length) := by
      unfold splice
      rw [List.append_assoc, List.drop_append_of_le_length (by simp; omega),
        List.drop_of_length_le (by simp), List.nil_append]
    rw [hd]
    have e1 : lit "<WIN 0 " = [60, 87, 73, 78, 32, 48, 32] := by decide
    have e2 : lit "<POS 0 " = [60, 80, 79, 83, 32, 48, 32] := by decide
    by_cases hw : winRetained st k = true
    · have hw2 := (winRetained_iff st k).mp hw
      have : ¬ (k = 0 ∨ ¬ ((st.lineAt (k - 1)).isEnabled = true
          ∧ (st.lineAt k).scrollType = (st.lineAt (k - 1)).scrollType)) := by
        rintro (h | h)
        · exact hw2.1 h
        · exact h hw2.2
      simp only [this, iff_false]
      simp [lineBlock, windowBytes, hw, positionBytes, e1, e2]
    · have hw3 : winRetained st k = false := by simpa using hw
      have : (k = 0 ∨ ¬ ((st.lineAt (k - 1)).isEnabled = true
          ∧ (st.lineAt k).scrollType = (st.lineAt (k - 1)).scrollType)) := by
        by_contra hc
        push_neg at hc
        exact hw ((winRetained_iff st k).mpr ⟨hc.1, hc.2.1, hc.2.2⟩)
      simp only [this, iff_true]
      simp [lineBlock, windowBytes, hw3, e1]
  · intro hret
    show ((splice arr p (lineBlock st k)).drop p).take _ = _
    have hd : (splice arr p (lineBlock st k)).drop p
        = lineBlock st k ++ arr.drop (p + (lineBlock st k).length) := by
      unfold splice
      rw [List.append_assoc, List.drop_append_of_le_length (by simp; omega),
        List.drop_of_length_le (by simp), List.nil_append]
    have hw : winRetained st k = true := (winRetained_iff st k).mpr hret
    have hb : lineBlock st k
        = (lit "<POS 0 " ++ (decimal (8 * k) ++ lit ">"))
          ++ (scrollBytes st k ++ (blinkBytes (st.lineAt k).blink
            ++ (textSizeBytes (st.lineAt k).textSize
            ++ (colorBytes st k ++ textBytes (st.lineAt k))))) := by
      rw [lineBlock, windowBytes, positionBytes_eq k hk, hw]
      rfl
    rw [hd, hb, List.append_assoc, List.take_left]

set_option maxRecDepth 100000 in
/-- Instance of C23: in the display whose lines 1 and 2 both scroll left, the block of line 2
starts with `<POS 0 8>`; in the display whose line 1 is justified and line 2 scrolls, the block
of line 2 starts with `<WIN 0 `. -/
theorem C23_window_tag_presence_witness :
    (∃ r, lineConfig twoScrollingLines 11 1 (List.replicate 512 0) = some r
      ∧ (r.2.drop 11).take 9 = lit "<POS 0 8>")
    ∧ (∃ r, lineConfig mixedTypes 11 1 (List.replicate 512 0) = some r
      ∧ (r.2.drop 11).take 7 = lit "<WIN 0 ") := by
  obtain ⟨r, h1, _, h3⟩ := C23_window_tag_presence twoScrollingLines 1 11 (List.replicate 512 0)
    (by decide) (by decide!) (by decide!)
  obtain ⟨q, g1, g2, _⟩ := C23_window_tag_presence mixedTypes 1 11 (List.replicate 512 0)
    (by decide) (by decide!) (by decide!)
  exact ⟨⟨r, h1, h3 (by decide)⟩, ⟨q, g1, g2.mpr (by decide)⟩⟩


/-- C24. For a line with scroll type in 0..6 and scroll speed SLOW, MEDIUM or FAST,
`lineConfig` stores, right after the position tag, the scroll-type tag exactly when the window
tag is written or the type is one of the justified types 4, 5, 6, and after it the speed tag
of the line's speed exactly when the type is one of the scrolling types 0..3; what follows is
the blink tag `<BL `. -/
theorem C24_scroll_directive (st : VMDisplay) (k p : Nat) (arr : List Nat)
    (t0 : 0 ≤ (st.lineAt k).scrollType) (t6 : (st.lineAt k).scrollType ≤ 6)
    (v0 : 0 ≤ (st.lineAt k).scrollSpeed) (v2 : (st.lineAt k).scrollSpeed ≤ 2)
    (ht : 0 ∈ (st.lineAt k).text) (hroom : p + (lineBlock st k).length ≤ arr.length) :
    ∃ rest, lineConfig st p k arr
      = some (p + (lineBlock st k).length - 11,
          splice arr p
            (windowBytes st k ++ (positionBytes k
              ++ ((if winRetained st k = false
                      ∨ (4 ≤ (st.lineAt k).scrollType ∧ (st.lineAt k).scrollType ≤ 6) then
                    specScrollTag (st.lineAt k).scrollType
                      ++ (if (st.lineAt k).scrollType ≤ 3 then
                            specSpeedTag (st.lineAt k).scrollSpeed
                          else [])
                  else [])
              ++ (lit "<BL " ++ rest))))) := by
  obtain ⟨tl, hb⟩ : ∃ tl, blinkBytes (st.lineAt k).blink = lit "<BL " ++ tl := ⟨_, rfl⟩
  refine ⟨tl ++ (textSizeBytes (st.lineAt k).textSize
    ++ (colorBytes st k ++ textBytes (st.lineAt k))), ?_⟩
  rw [lineConfig_eq _ _ _ _ ht, if_pos hroom]
  have e := scrollBytes_eq_spec st k t0 t6 v0 v2
  unfold specScroll at e
  rw [← e, ← List.append_assoc (lit "<BL "), ← hb]
  rfl

set_option maxRecDepth 100000 in
/-- Instance of C24: line 2 of the display whose line 1 is justified and line 2 scrolls left
carries `<SL><S M>` between its position tag and its blink tag. -/
theorem C24_scroll_directive_witness :
    ∃ rest, lineConfig mixedTypes 11 1 (List.replicate 512 0)
      = some (11 + (lineBlock mixedTypes 1).length - 11,
          splice (List.replicate 512 0) 11
            (windowBytes mixedTypes 1 ++ (positionBytes 1
              ++ (lit "<SL><S M>" ++ (lit "<BL " ++ rest))))) := by
  obtain ⟨rest, h⟩ := C24_scroll_directive mixedTypes 1 11 (List.replicate 512 0)
    (by decide) (by decide) (by decide) (by decide) (by decide!) (by decide!)
  have e : (if winRetained mixedTypes 1 = false
        ∨ (4 ≤ (mixedTypes.lineAt 1).scrollType ∧ (mixedTypes.lineAt 1).scrollType ≤ 6) then
      specScrollTag (mixedTypes.lineAt 1).scrollType
        ++ (if (mixedTypes.lineAt 1).scrollType ≤ 3 then
              specSpeedTag (mixedTypes.lineAt 1).scrollSpeed
            else [])
    else []) = lit "<SL><S M>" := by decide
  rw [e] at h
  exact ⟨rest, h⟩

theorem linesClearBelow_le (st : VMDisplay) (i : Nat) (hi : i < 4) :
    linesClearBelow st i ≤ 3 - i := by
  unfold linesClearBelow
  simp only [clearLoop]
  split_ifs <;> omega

/-- C29. For every configuration and every line index `i` in 0..3, the window top
`lineHeight = 8 * i` and the bottom `clearPixels` satisfy `top + 7 <= bottom <= 31`, and the two
characters `lineConfig` writes for the bottom are decimal digits. -/
theorem C29_window_bounds (st : VMDisplay) (i : Nat) (hi : i < 4) :
    lineHeight i = 8 * (i : Int)
      ∧ lineHeight i + 7 ≤ clearPixels st i ∧ clearPixels st i ≤ 31
      ∧ 48 ≤ toChar (48 + (clearPixels st i).tdiv 10)
      ∧ toChar (48 + (clearPixels st i).tdiv 10) ≤ 57
      ∧ 48 ≤ toChar (clearPixels st i - ((clearPixels st i).tdiv 10) * 10 + 48)
      ∧ toChar (clearPixels st i - ((clearPixels st i).tdiv 10) * 10 + 48) ≤ 57 := by
  have hl := linesClearBelow_le st i hi
  have h1 : lineHeight i = 8 * (i : Int) := by unfold lineHeight; omega
  have h2 : lineHeight i + 7 ≤ clearPixels st i := by unfold clearPixels; omega
  have h3 : clearPixels st i ≤ 31 := by unfold clearPixels; rw [h1]; omega
  have h0 : 0 ≤ clearPixels st i := by rw [h1] at h2; omega
  have e : (clearPixels st i).tdiv 10 = clearPixels st i / 10 := Int.tdiv_eq_ediv h0 (by omega)
  rw [e, toChar_small _ (by omega) (by omega), toChar_small _ (by omega) (by omega)]
  refine ⟨h1, h2, h3, ?_, ?_, ?_, ?_⟩ <;> omega

/-- Instance of C29: line 1 of the display whose line 2 is enabled with another scroll type has
top 0 and bottom 7. -/
theorem C29_window_bounds_witness :
    clearPixels mixedTypes 0 = 7
      ∧ lineHeight 0 + 7 ≤ clearPixels mixedTypes 0 ∧ clearPixels mixedTypes 0 ≤ 31 :=
  ⟨by decide, (C29_window_bounds mixedTypes 0 (by decide)).2.1,
    (C29_window_bounds mixedTypes 0 (by decide)).2.2.1⟩

set_option maxRecDepth 100000 in
/-- C22, the failing run. Line 1 of a display whose line 2 is enabled with another scroll type
has no line below it that is disabled or shares its type, so the window bottom is 7;
`lineConfig` writes it with two characters, `<WIN 0 0 287 07>`, where the natural number of
digits gives `<WIN 0 0 287 7>`. -/
theorem C22_bottom_below_ten_has_leading_zero :
    linesClearBelow mixedTypes 0 = 0 ∧ clearPixels mixedTypes 0 = 7
      ∧ (lineConfig mixedTypes 11 0 (List.replicate 512 0)).map
          (fun r => (r.2.drop 11).take 25)
        = some (lit "<WIN 0 0 287 07><POS 0 0>") := by
  refine ⟨by decide, by decide, ?_⟩
  rw [lineConfig_eq _ _ _ _ (by decide!), if_pos (by decide!)]
  decide!


theorem mem_registers_transaction (a addr : Int) (n : Nat) (w : List Nat) :
    a ∈ Event.registers (Event.transaction addr n w) ↔ (addr ≤ a ∧ a < addr + (n : Int)) := by
  have e : Event.registers (Event.transaction addr n w)
      = (List.range n).map (fun j : Nat => addr + (j : Int)) := rfl
  rw [e, List.mem_map]
  constructor
  · rintro ⟨j, hj, rfl⟩
    rw [List.mem_range] at hj
    constructor <;> omega
  · intro h
    exact ⟨(a - addr).toNat, List.mem_range.mpr (by omega), by omega⟩

theorem mem_registers_write (a addr : Int) (v : Nat) :
    a ∈ Event.registers (Event.registerWrite addr v) ↔ a = addr := by
  have e : Event.registers (Event.registerWrite addr v) = [addr] := rfl
  rw [e, List.mem_singleton]

theorem not_mem_registers_connect (a : Int) : ¬ a ∈ Event.registers Event.connect := by
  have e : Event.registers Event.connect = [] := rfl
  rw [e]
  exact List.not_mem_nil a

theorem sendLoop_registers (tp : Transport) (cd : List Nat) (is : List Nat) :
    ∀ (pos : Nat) (evs : List Event) (r : Nat × List Event),
    sendLoop tp cd is pos evs = some r →
    (∀ e ∈ evs, ∀ a ∈ Event.registers e, 10999 ≤ a) →
    ∀ e ∈ r.2, ∀ a ∈ Event.registers e, 10999 ≤ a := by
  induction is with
  | nil =>
    intro pos evs r h hev
    simp only [sendLoop, Option.some.injEq] at h
    subst h
    exact hev
  | cons i is ih =>
    intro pos evs r h hev
    rw [sendLoop] at h
    cases hw : writeWords tp cd i (10999 + (pos : Int)) (List.range 124) pos [] with
    | none => rw [hw] at h; exact absurd h (by simp)
    | some q =>
      rw [hw] at h
      simp only [Option.some_bind] at h
      refine ih _ _ r h ?_
      intro e he a ha
      rcases List.mem_append.mp he with he | he
      · exact hev e he a ha
      · rw [List.mem_singleton.mp he, mem_registers_transaction] at ha
        omega

theorem sendMessage_registers (tp : Transport) (st st1 : VMDisplay) (evs : List Event)
    (h : sendMessage tp st = some (st1, evs)) :
    ∀ e ∈ evs, ∀ a ∈ Event.registers e, 10999 ≤ a := by
  unfold sendMessage at h
  by_cases hc : st.completed = true
  · simp only [hc, Bool.not_true, Bool.false_eq_true, if_false, Option.some.injEq,
      Prod.mk.injEq] at h
    intro e he a ha
    rw [← h.2] at he
    rw [List.mem_singleton.mp he] at ha
    exact absurd ha (not_mem_registers_connect a)
  · simp only [hc, Bool.not_false, if_true, Option.map_eq_some', Prod.mk.injEq] at h
    obtain ⟨r, hr, _, h3⟩ := h
    have := sendLoop_registers tp _ _ _ _ r hr (by simp)
    intro e he a ha
    rw [← h3] at he
    rcases List.mem_cons.mp he with he | he
    · rw [he] at ha; exact absurd ha (not_mem_registers_connect a)
    · exact this e he a ha

/-- C30. The registers of the three write paths are apart. The integer `updateDecimal` of slot
`v` in 1..32 addresses the registers `100 + 2(v-1)` and `99 + 2(v-1)`, `updateStringVar` of
slot `u` in 1..16 the 50 registers from `199 + 50(u-1)` to `248 + 50(u-1)`; two numeric slots
share no register, two string slots share no register, no numeric register is a string
register, all of them are below 10999, and every register `sendMessage` addresses is 10999 or
above. -/
theorem C30_registers_apart (tp : Transport) (st st1 : VMDisplay) (evs : List Event)
    (v w u z x y : Int) (temp temp2 : List Nat)
    (hv : 1 ≤ v ∧ v ≤ 32) (hu : 1 ≤ u ∧ u ≤ 16)
    (hs : sendMessage tp st = some (st1, evs)) :
    (∀ a, (∃ e ∈ decimalWrites (v - 1) x, a ∈ Event.registers e)
        ↔ (a = 99 + 2 * (v - 1) ∨ a = 100 + 2 * (v - 1)))
      ∧ (∀ a, (∃ e ∈ stringWrites tp (u - 1) temp, a ∈ Event.registers e)
        ↔ (199 + 50 * (u - 1) ≤ a ∧ a ≤ 248 + 50 * (u - 1)))
      ∧ (v ≠ w → ∀ e ∈ decimalWrites (v - 1) x, ∀ f ∈ decimalWrites (w - 1) y,
          ∀ a ∈ Event.registers e, a ∉ Event.registers f)
      ∧ (u ≠ z → ∀ e ∈ stringWrites tp (u - 1) temp, ∀ f ∈ stringWrites tp (z - 1) temp2,
          ∀ a ∈ Event.registers e, a ∉ Event.registers f)
      ∧ (∀ e ∈ decimalWrites (v - 1) x, ∀ f ∈ stringWrites tp (u - 1) temp,
          ∀ a ∈ Event.registers e, a ∉ Event.registers f)
      ∧ (∀ e ∈ decimalWrites (v - 1) x ++ stringWrites tp (u - 1) temp,
          ∀ a ∈ Event.registers e, a < 10999)
      ∧ (∀ e ∈ evs, ∀ a ∈ Event.registers e, 10999 ≤ a) := by
  have hd : ∀ (s : Int) (n : Int) (a : Int),
      (∃ e ∈ decimalWrites s n, a ∈ Event.registers e) ↔ (a = 99 + 2 * s ∨ a = 100 + 2 * s) := by
    intro s n a
    simp only [decimalWrites, List.mem_cons, List.mem_singleton, List.not_mem_nil, or_false,
      exists_eq_or_imp, exists_eq_left, mem_registers_write, not_mem_registers_connect,
      false_or]
    constructor
    · rintro (h | h) <;> omega
    · rintro (h | h)
      · right; omega
      · left; omega
  have hstr : ∀ (s : Int) (t : List Nat) (a : Int),
      (∃ e ∈ stringWrites tp s t, a ∈ Event.registers e)
        ↔ (199 + 50 * s ≤ a ∧ a ≤ 248 + 50 * s) := by
    intro s t a
    simp only [stringWrites, List.mem_cons, List.mem_singleton, List.not_mem_nil, or_false,
      exists_eq_or_imp, exists_eq_left, mem_registers_transaction, not_mem_registers_connect,
      false_or]
    constructor <;> intro h <;> constructor <;> omega
  refine ⟨hd _ x, hstr _ temp, ?_, ?_, ?_, ?_, sendMessage_registers tp st st1 evs hs⟩
  · intro hne e he f hf a ha hb
    have h1 := (hd (v - 1) x a).mp ⟨e, he, ha⟩
    have h2 := (hd (w - 1) y a).mp ⟨f, hf, hb⟩
    omega
  · intro hne e he f hf a ha hb
    have h1 := (hstr (u - 1) temp a).mp ⟨e, he, ha⟩
    have h2 := (hstr (z - 1) temp2 a).mp ⟨f, hf, hb⟩
    omega
  · intro e he f hf a ha hb
    have h1 := (hd (v - 1) x a).mp ⟨e, he, ha⟩
    have h2 := (hstr (u - 1) temp a).mp ⟨f, hf, hb⟩
    omega
  · intro e he a ha
    rcases List.mem_append.mp he with he | he
    · have h1 := (hd (v - 1) x a).mp ⟨e, he, ha⟩
      omega
    · have h2 := (hstr (u - 1) temp a).mp ⟨e, he, ha⟩
      omega

/-- Instance of C30: numeric slots 5 and 6, string slots 1 and 2, and the `sendMessage` of a
fresh display. -/
theorem C30_registers_apart_witness :
    (∀ e ∈ decimalWrites (5 - 1) 42, ∀ f ∈ decimalWrites (6 - 1) 7,
        ∀ a ∈ Event.registers e, a ∉ Event.registers f)
      ∧ (∀ e ∈ decimalWrites (5 - 1) 42 ++ stringWrites countingTransport (1 - 1) [],
          ∀ a ∈ Event.registers e, a < 10999) :=
  ⟨(C30_registers_apart countingTransport (VMDisplay.new 5)
      { VMDisplay.new 5 with completed := true } [Event.connect] 5 6 1 2 42 7 [] []
      (by decide) (by decide) rfl).2.2.1 (by decide),
   (C30_registers_apart countingTransport (VMDisplay.new 5)
      { VMDisplay.new 5 with completed := true } [Event.connect] 5 6 1 2 42 7 [] []
      (by decide) (by decide) rfl).2.2.2.2.2.1⟩


/-- `updateStringVar` on the path that leaves the width field as it is. -/
theorem updateStringVar_keep (tp : Transport) (st : VMDisplay) (slot : Int)
    (text : List Nat) (jk : Junk) (cmd : List Nat) (off : Nat)
    (hcmd : readStr st.commandString = some cmd)
    (hoff : strstr cmd (lit "STR") = some off)
    (hneed : strNeedsEdit st.commandString off ((cstr text).length : Int) = some false) :
    updateStringVar tp st slot text true jk
      = (stringVarWrites tp (slot - 1) text jk.regs).map
          (fun evs => ({ st with strLoc := some off }, evs)) := by
  unfold updateStringVar
  rw [hcmd]
  simp only [Option.some_bind, hoff, hneed, Bool.false_eq_true, if_false]

/-- `updateStringVar` on the path that rewrites the width field and sends the command again. -/
theorem updateStringVar_edit (tp : Transport) (st st2 : VMDisplay) (slot : Int)
    (text : List Nat) (jk : Junk) (cmd buf : List Nat) (off : Nat) (q : VMDisplay × List Event)
    (hcmd : readStr st.commandString = some cmd)
    (hoff : strstr cmd (lit "STR") = some off)
    (hneed : strNeedsEdit st.commandString off ((cstr text).length : Int) = some true)
    (hedit : strEdit st.commandString off ((cstr text).length : Int) jk.chars = some buf)
    (hw : writeMessageSelf { st with strLoc := some off, commandString := buf } jk.words
      = some st2)
    (hs : sendMessage tp st2 = some q) :
    updateStringVar tp st slot text true jk
      = (stringVarWrites tp (slot - 1) text jk.regs).map (fun evs => (q.1, q.2 ++ evs)) := by
  unfold updateStringVar
  rw [hcmd]
  simp only [Option.some_bind, hoff, hneed, if_true, hedit, hw, hs]

set_option maxRecDepth 100000 in
/-- C27, the failing runs. With the command `<ID 5><CLR><T><STR 1 12></T>` on a fresh display,
`updateStringVar(1, text)` of a text of 22 characters leaves the width field at `12` and sends
nothing but the 50 registers of the slot: for a count above 9 the code compares only
`_strLoc[7]` with the last digit of the count. A text of 23 characters makes the field `232`:
the two digits are written and the old characters from `_strLoc[7]` on are put back one place
to the right, as if the old width had one digit. With `<STR 1 10>` a text of 100 characters
leaves the field at `10`: the last digit of 100 is the `0` already there. -/
theorem C27_width_compared_by_last_digit :
    ∃ st1 st2,
      writeMessageText (VMDisplay.new 5) strCommand12 (List.replicate 512 0) = some st1
      ∧ cstr st1.commandString = lit "<ID 5><CLR><T><STR 1 12></T>"
      ∧ (updateStringVar countingTransport st1 1 (List.replicate 22 65) true zeroJunk).map
          (fun r => (cstr r.1.commandString, r.2))
        = some (lit "<ID 5><CLR><T><STR 1 12></T>",
            [Event.connect,
             Event.transaction 199 50 (List.replicate 11 16705 ++ List.replicate 39 0)])
      ∧ (updateStringVar countingTransport st1 1 (List.replicate 23 65) true zeroJunk).map
          (fun r => cstr r.1.commandString)
        = some (lit "<ID 5><CLR><T><STR 1 232></T>")
      ∧ writeMessageText (VMDisplay.new 5) strCommand10 (List.replicate 512 0) = some st2
      ∧ cstr st2.commandString = lit "<ID 5><CLR><T><STR 1 10></T>"
      ∧ (updateStringVar countingTransport st2 1 (List.replicate 100 65) true zeroJunk).map
          (fun r => (cstr r.1.commandString, r.2))
        = some (lit "<ID 5><CLR><T><STR 1 10></T>",
            [Event.connect, Event.transaction 199 50 (List.replicate 50 16705)]) := by
  have h1 := writeMessageText_eq (VMDisplay.new 5) strCommand12 (List.replicate 512 0)
    (by decide!) (by decide!)
  have h2 := writeMessageText_eq (VMDisplay.new 5) strCommand10 (List.replicate 512 0)
    (by decide!) (by decide!)
  obtain ⟨st3, hw, hc3, hl3, hm1, hm2, hcs3⟩ : ∃ st3,
      writeMessageSelf
        { ({ (VMDisplay.new 5) with
            commandString :=
              (cstr strCommand12 ++ List.replicate (512 - (cstr strCommand12).length) 0)
            completed := false
            commandData := copyWords (splice (memsetZero (List.replicate 512 0) 256) 0
              (packed (cstr strCommand12))) (packed (cstr strCommand12)).length
            messageLength := ((packed (cstr strCommand12)).length : Int) } : VMDisplay) with
          strLoc := some 15
          commandString := (lit "<ID 5><CLR><T><STR 1 232></T>" ++ List.replicate 483 0) }
        (List.replicate 512 0) = some st3
      ∧ st3.completed = false ∧ st3.commandData.length = 512
      ∧ 1 ≤ st3.messageLength ∧ st3.messageLength ≤ 123
      ∧ st3.commandString
          = lit "<ID 5><CLR><T><STR 1 232></T>" ++ List.replicate 483 0 :=
    ⟨_, writeMessageSelf_eq _ (List.replicate 512 0)
        (lit "<ID 5><CLR><T><STR 1 232></T>") (by decide!) (by decide!) (by decide!),
      rfl, length_copyWords _ _,
      show (1 : Int)
        ≤ (((packed (lit "<ID 5><CLR><T><STR 1 232></T>")).length : Nat) : Int) by decide!,
      show (((packed (lit "<ID 5><CLR><T><STR 1 232></T>")).length : Nat) : Int) ≤ 123
        by decide!,
      rfl⟩
  have hs := sendMessage_one_transaction st3 hc3 hl3 hm1 hm2
  refine ⟨_, _, h1, by decide!, ?_, ?_, h2, by decide!, ?_⟩
  · rw [updateStringVar_keep countingTransport _ 1 (List.replicate 22 65) zeroJunk strCommand12
      15 (by decide!) (by decide!) (by decide!),
      stringVarWrites_eq _ _ _ _ (by decide!) (by decide!)]
    decide!
  · rw [updateStringVar_edit countingTransport _ st3 1 (List.replicate 23 65) zeroJunk
      strCommand12 (lit "<ID 5><CLR><T><STR 1 232></T>" ++ List.replicate 483 0) 15 _
      (by decide!) (by decide!) (by decide!) (by decide!) hw hs,
      stringVarWrites_eq _ _ _ _ (by decide!) (by decide!)]
    simp only [Option.map_some', Option.some.injEq]
    show cstr st3.commandString = _
    rw [hcs3]
    decide!
  · rw [updateStringVar_keep countingTransport _ 1 (List.replicate 100 65) zeroJunk strCommand10
      15 (by decide!) (by decide!) (by decide!),
      stringVarWrites_eq _ _ _ _ (by decide!) (by decide!)]
    decide!


/-- The integer `updateDecimal` on the path that leaves the width field as it is. -/
theorem updateDecimal_keep (tp : Transport) (st : VMDisplay) (slot number : Int)
    (jk : Junk) (cmd : List Nat) (off : Nat)
    (hcmd : readStr st.commandString = some cmd)
    (hoff : strstr cmd (lit "DEC") = some off)
    (hneed : decNeedsEdit st.commandString off (countDigits number) = some false) :
    updateDecimal tp st slot number true jk
      = some ({ st with decLoc := some off }, decimalWrites (slot - 1) number) := by
  unfold updateDecimal
  rw [hcmd]
  simp only [Option.some_bind, hoff, hneed, Bool.false_eq_true, if_false]

/-- The `double` overload with `editBounds` on a command that has a `DEC` marker: the command
is packed and sent again whatever the fields were. -/
theorem updateDecimalReal_resend (tp : Transport) (st st2 : VMDisplay) (slot count result : Int)
    (jk : Junk) (cmd buf : List Nat) (off : Nat) (q r2 : VMDisplay × List Event)
    (hcmd : readStr st.commandString = some cmd)
    (hoff : strstr cmd (lit "DEC") = some off)
    (hpl : placesEdit st.commandString off (countDigits result) count = some buf)
    (hw : writeMessageSelf { st with decLoc := some off, commandString := buf } jk.words
      = some st2)
    (hs : sendMessage tp st2 = some q)
    (hu : updateDecimal tp q.1 slot result true jk = some r2) :
    updateDecimalReal tp st slot count result true jk = some (r2.1, q.2 ++ r2.2) := by
  unfold updateDecimalReal
  rw [hcmd]
  simp only [Option.some_bind, hoff, hpl, hw, hs, hu, Option.map_some']

set_option maxRecDepth 100000 in
/-- C28, the failing run. The command `<ID 5><CLR><T>Temp <DEC 1 2 0></T>` is written to a
fresh display and sent. Then the `double` overload of `updateDecimal` is called for slot 5 with
the value 42.0 (no decimal places, two digits: both fields of the marker already match) and
`editBounds` true. Nothing in the command changes, yet `writeMessage(_commandString)` and
`sendMessage()` are called, outside any test: the command goes out again in a transaction at
register 10999 before the two registers of the value are written. -/
theorem C28_real_update_always_resends :
    ∃ st1 q r,
      writeMessageText (VMDisplay.new 5) decCommand (List.replicate 512 0) = some st1
      ∧ sendMessage countingTransport st1 = some q
      ∧ q.1.completed = true
      ∧ cstr q.1.commandString = lit "<ID 5><CLR><T>Temp <DEC 1 2 0></T>"
      ∧ updateDecimalReal countingTransport q.1 5 0 42 true zeroJunk = some r
      ∧ cstr r.1.commandString = lit "<ID 5><CLR><T>Temp <DEC 1 2 0></T>"
      ∧ r.2 = [Event.connect,
               Event.transaction 10999 123 (r.1.commandData.take 123),
               Event.connect, Event.registerWrite 108 42, Event.registerWrite 107 0] := by
  obtain ⟨st1, h1, hcs1, hc1, hl1, hm1, hm1b⟩ : ∃ st1,
      writeMessageText (VMDisplay.new 5) decCommand (List.replicate 512 0) = some st1
      ∧ st1.commandString = decCommand ++ List.replicate 478 0
      ∧ st1.completed = false ∧ st1.commandData.length = 512
      ∧ 1 ≤ st1.messageLength ∧ st1.messageLength ≤ 123 :=
    ⟨_, writeMessageText_eq (VMDisplay.new 5) decCommand (List.replicate 512 0)
      (by decide!) (by decide!), by decide!, rfl, length_copyWords _ _,
      show (1 : Int) ≤ (((packed (cstr decCommand)).length : Nat) : Int) by decide!,
      show (((packed (cstr decCommand)).length : Nat) : Int) ≤ 123 by decide!⟩
  have hs1 := sendMessage_one_transaction st1 hc1 hl1 hm1 hm1b
  have hrd : readStr (decCommand ++ List.replicate 478 0) = some decCommand := by decide!
  obtain ⟨st2, hw, hcs2, hc2, hl2, hm2, hm2b⟩ : ∃ st2,
      writeMessageSelf { ({ st1 with completed := true } : VMDisplay) with
          decLoc := some 20, commandString := decCommand ++ List.replicate 478 0 }
        zeroJunk.words = some st2
      ∧ st2.commandString = decCommand ++ List.replicate 478 0
      ∧ st2.completed = false ∧ st2.commandData.length = 512
      ∧ 1 ≤ st2.messageLength ∧ st2.messageLength ≤ 123 :=
    ⟨_, writeMessageSelf_eq _ zeroJunk.words decCommand hrd (by decide!) (by decide!),
      rfl, rfl, length_copyWords _ _,
      show (1 : Int) ≤ (((packed decCommand).length : Nat) : Int) by decide!,
      show (((packed decCommand).length : Nat) : Int) ≤ 123 by decide!⟩
  have hs2 := sendMessage_one_transaction st2 hc2 hl2 hm2 hm2b
  have hk := updateDecimal_keep countingTransport { st2 with completed := true } 5 42 zeroJunk
    decCommand 20 (by show readStr st2.commandString = _; rw [hcs2]; exact hrd) (by decide!)
    (by show decNeedsEdit st2.commandString 20 (countDigits 42) = _; rw [hcs2]; decide!)
  have hu := updateDecimalReal_resend countingTransport { st1 with completed := true } st2 5 0 42
    zeroJunk decCommand (decCommand ++ List.replicate 478 0) 20 _ _
    (by show readStr st1.commandString = _; rw [hcs1]; exact hrd) (by decide!)
    (by show placesEdit st1.commandString 20 (countDigits 42) 0 = _; rw [hcs1]; decide!)
    hw hs2 hk
  refine ⟨st1, _, _, h1, hs1, rfl, ?_, hu, ?_, rfl⟩
  · show cstr st1.commandString = _
    rw [hcs1]; decide!
  · show cstr st2.commandString = _
    rw [hcs2]; decide!


set_option maxRecDepth 100000 in
/-- C26, the failing run. The command `<ID 5><CLR><T><DEC 1 11 0></T>` is written to a fresh
display and `updateDecimal(1, 1000000000)` is called with `editBounds` true. The value has 10
digits, the field says 11. The branch for ten digits or more writes the two digits `10` and
puts the old characters from `_decLoc[7]` on back one place to the right, as it must when the
old width had one digit; here the old second digit comes back after the new ones and the
field reads `101`. -/
theorem C26_two_digit_width_gains_a_digit :
    ∃ st1 r,
      writeMessageText (VMDisplay.new 5) decCommand11 (List.replicate 512 0) = some st1
      ∧ cstr st1.commandString = lit "<ID 5><CLR><T><DEC 1 11 0></T>"
      ∧ countDigits 1000000000 = 10
      ∧ updateDecimal countingTransport st1 1 1000000000 true zeroJunk = some r
      ∧ cstr r.1.commandString = lit "<ID 5><CLR><T><DEC 1 101 0></T>" := by
  obtain ⟨st1, h1, hcs1⟩ : ∃ st1,
      writeMessageText (VMDisplay.new 5) decCommand11 (List.replicate 512 0) = some st1
      ∧ st1.commandString = decCommand11 ++ List.replicate 482 0 :=
    ⟨_, writeMessageText_eq (VMDisplay.new 5) decCommand11 (List.replicate 512 0)
      (by decide!) (by decide!), by decide!⟩
  have hrd2 : readStr (lit "<ID 5><CLR><T><DEC 1 101 0></T>" ++ List.replicate 481 0)
      = some (lit "<ID 5><CLR><T><DEC 1 101 0></T>") := by decide!
  obtain ⟨st2, hw, hcs2, hc2, hl2, hm2, hm2b⟩ : ∃ st2,
      writeMessageSelf { st1 with
          decLoc := some 15
          commandString := lit "<ID 5><CLR><T><DEC 1 101 0></T>" ++ List.replicate 481 0 }
        zeroJunk.words = some st2
      ∧ st2.commandString = lit "<ID 5><CLR><T><DEC 1 101 0></T>" ++ List.replicate 481 0
      ∧ st2.completed = false ∧ st2.commandData.length = 512
      ∧ 1 ≤ st2.messageLength ∧ st2.messageLength ≤ 123 :=
    ⟨_, writeMessageSelf_eq _ zeroJunk.words (lit "<ID 5><CLR><T><DEC 1 101 0></T>")
        hrd2 (by decide!) (by decide!),
      rfl, rfl, length_copyWords _ _,
      show (1 : Int)
        ≤ (((packed (lit "<ID 5><CLR><T><DEC 1 101 0></T>")).length : Nat) : Int) by decide!,
      show (((packed (lit "<ID 5><CLR><T><DEC 1 101 0></T>")).length : Nat) : Int) ≤ 123
        by decide!⟩
  have hs2 := sendMessage_one_transaction st2 hc2 hl2 hm2 hm2b
  have hu := updateDecimal_edit countingTransport st1 st2 1 1000000000 zeroJunk decCommand11
    (lit "<ID 5><CLR><T><DEC 1 101 0></T>" ++ List.replicate 481 0) 15 _
    (by rw [hcs1]; decide!) (by decide!) (by rw [hcs1]; decide!) (by rw [hcs1]; decide!) hw hs2
  refine ⟨st1, _, h1, ?_, by decide!, hu, ?_⟩
  · rw [hcs1]; decide!
  · show cstr st2.commandString = _
    rw [hcs2]; decide!

/-- The offset `strstr` returns is the first one at which the pattern stands. -/
theorem strstr_first (pat : List Nat) : ∀ (s : List Nat) (k : Nat), strstr s pat = some k →
    pat.isPrefixOf (s.drop k) = true ∧ ∀ j, j < k → pat.isPrefixOf (s.drop j) = false := by
  intro s
  induction s with
  | nil =>
    intro k h
    rw [strstr] at h
    split at h
    · rename_i hp
      have hk : k = 0 := by simpa using h.symm
      subst hk
      exact ⟨by simp [hp], fun j hj => absurd hj (by omega)⟩
    · exact absurd h (by simp)
  | cons c cs ih =>
    intro k h
    rw [strstr] at h
    split at h
    · rename_i hp
      have hk : k = 0 := by simpa using h.symm
      subst hk
      exact ⟨hp, fun j hj => absurd hj (by omega)⟩
    · rename_i hp
      simp only [Option.map_eq_some'] at h
      obtain ⟨m, hm, rfl⟩ := h
      obtain ⟨h1, h2⟩ := ih m hm
      refine ⟨h1, ?_⟩
      intro j hj
      cases j with
      | zero => exact Bool.eq_false_iff.mpr hp
      | succ j => exact h2 j (by omega)

/-- The state `updateDecimal` leaves does not depend on the slot. -/
theorem updateDecimal_state_slot (tp : Transport) (st : VMDisplay) (v v2 x : Int)
    (editBounds : Bool) (jk : Junk) :
    (updateDecimal tp st v x editBounds jk).map (fun r => r.1)
      = (updateDecimal tp st v2 x editBounds jk).map (fun r => r.1) := by
  unfold updateDecimal
  cases readStr st.commandString with
  | none => rfl
  | some cmd =>
    simp only [Option.some_bind]
    cases editBounds with
    | false => rfl
    | true =>
      cases strstr cmd (lit "DEC") with
      | none => rfl
      | some off =>
        simp only
        cases decNeedsEdit st.commandString off (countDigits x) with
        | none => rfl
        | some edit =>
          cases edit with
          | false => rfl
          | true =>
            simp only [Option.some_bind, if_true]
            cases decEdit st.commandString off (countDigits x) jk.chars with
            | none => rfl
            | some buf =>
              simp only [Option.some_bind]
              cases writeMessageSelf
                  { st with decLoc := some off, commandString := buf } jk.words with
              | none => rfl
              | some st2 =>
                simp only [Option.some_bind]
                cases sendMessage tp st2 with
                | none => rfl
                | some q => rfl

/-- The state `updateStringVar` leaves does not depend on the slot. -/
theorem updateStringVar_state_slot (tp : Transport) (st : VMDisplay) (v v2 : Int)
    (text : List Nat) (editBounds : Bool) (jk : Junk) :
    (updateStringVar tp st v text editBounds jk).map (fun r => r.1)
      = (updateStringVar tp st v2 text editBounds jk).map (fun r => r.1) := by
  unfold updateStringVar
  cases readStr st.commandString with
  | none => rfl
  | some cmd =>
    simp only [Option.some_bind]
    cases editBounds with
    | false =>
      simp only
      unfold stringVarWrites
      cases packVar (cstr text) 0 (memsetZero jk.regs 25) <;> rfl
    | true =>
      cases strstr cmd (lit "STR") with
      | none =>
        simp only
        unfold stringVarWrites
        cases packVar (cstr text) 0 (memsetZero jk.regs 25) <;> rfl
      | some off =>
        simp only
        cases strNeedsEdit st.commandString off ((cstr text).length : Int) with
        | none => rfl
        | some edit =>
          cases edit with
          | false =>
            simp only [Option.some_bind, Bool.false_eq_true, if_false]
            unfold stringVarWrites
            cases packVar (cstr text) 0 (memsetZero jk.regs 25) <;> rfl
          | true =>
            simp only [Option.some_bind, if_true]
            cases strEdit st.commandString off ((cstr text).length : Int) jk.chars with
            | none => rfl
            | some buf =>
              simp only [Option.some_bind]
              cases writeMessageSelf
                  { st with strLoc := some off, commandString := buf } jk.words with
              | none => rfl
              | some st2 =>
                simp only [Option.some_bind]
                cases sendMessage tp st2 with
                | none => rfl
                | some q =>
                  simp only [Option.some_bind]
                  unfold stringVarWrites
                  cases packVar (cstr text) 0 (memsetZero jk.regs 25) <;> rfl


theorem sendMessage_frame (tp : Transport) (st : VMDisplay) (q : VMDisplay × List Event)
    (h : sendMessage tp st = some q) :
    q.1.commandString = st.commandString ∧ q.1.decLoc = st.decLoc ∧ q.1.strLoc = st.strLoc := by
  unfold sendMessage at h
  split at h
  · simp only [Option.map_eq_some'] at h
    obtain ⟨_, _, h⟩ := h
    rw [← h]
    exact ⟨rfl, rfl, rfl⟩
  · rw [← Option.some.inj h]
    exact ⟨rfl, rfl, rfl⟩

theorem writeMessageSelf_frame (st st2 : VMDisplay) (junk : List Nat)
    (h : writeMessageSelf st junk = some st2) :
    st2.commandString = st.commandString ∧ st2.decLoc = st.decLoc ∧ st2.strLoc = st.strLoc := by
  unfold writeMessageSelf at h
  simp only [bind, pure, Option.bind_eq_some] at h
  obtain ⟨_, _, _, _, _, _, h⟩ := h
  rw [← Option.some.inj h]
  exact ⟨rfl, rfl, rfl⟩

/-- What a completed integer `updateDecimal` with `editBounds` does to the command: nothing,
or the width edit at the offset `strstr` found. -/
theorem updateDecimal_target (tp : Transport) (st : VMDisplay) (v x : Int) (jk : Junk)
    (cmd : List Nat) (r : VMDisplay × List Event)
    (hcmd : readStr st.commandString = some cmd)
    (h : updateDecimal tp st v x true jk = some r) :
    r.1.decLoc = strstr cmd (lit "DEC")
      ∧ (r.1.commandString = st.commandString
          ∨ ∃ off, strstr cmd (lit "DEC") = some off
              ∧ decEdit st.commandString off (countDigits x) jk.chars
                  = some r.1.commandString) := by
  unfold updateDecimal at h
  rw [hcmd] at h
  simp only [Option.some_bind] at h
  cases hoff : strstr cmd (lit "DEC") with
  | none =>
    rw [hoff] at h
    simp only [Option.some.injEq] at h
    rw [← h]
    exact ⟨rfl, Or.inl rfl⟩
  | some off =>
    rw [hoff] at h
    simp only [Option.bind_eq_some] at h
    obtain ⟨edit, _, h⟩ := h
    cases edit with
    | false =>
      simp only [Bool.false_eq_true, if_false, Option.some.injEq] at h
      rw [← h]
      exact ⟨rfl, Or.inl rfl⟩
    | true =>
      simp only [if_true, Option.bind_eq_some, Option.map_eq_some'] at h
      obtain ⟨buf, hbuf, st2, hw, q, hq, h⟩ := h
      obtain ⟨w1, w2, _⟩ := writeMessageSelf_frame _ _ _ hw
      obtain ⟨s1, s2, _⟩ := sendMessage_frame _ _ _ hq
      rw [← h]
      refine ⟨?_, Or.inr ⟨off, rfl, ?_⟩⟩
      · show q.1.decLoc = _
        rw [s2, w2]
      · show _ = some q.1.commandString
        rw [s1, w1]
        exact hbuf

/-- What a completed `updateStringVar` with `editBounds` does to the command: nothing, or the
width edit at the offset `strstr` found. -/
theorem updateStringVar_target (tp : Transport) (st : VMDisplay) (v : Int) (text : List Nat)
    (jk : Junk) (cmd : List Nat) (r : VMDisplay × List Event)
    (hcmd : readStr st.commandString = some cmd)
    (h : updateStringVar tp st v text true jk = some r) :
    r.1.strLoc = strstr cmd (lit "STR")
      ∧ (r.1.commandString = st.commandString
          ∨ ∃ off, strstr cmd (lit "STR") = some off
              ∧ strEdit st.commandString off ((cstr text).length : Int) jk.chars
                  = some r.1.commandString) := by
  unfold updateStringVar at h
  rw [hcmd] at h
  simp only [Option.some_bind] at h
  cases hoff : strstr cmd (lit "STR") with
  | none =>
    rw [hoff] at h
    simp only [Option.map_eq_some'] at h
    obtain ⟨_, _, h⟩ := h
    rw [← h]
    exact ⟨rfl, Or.inl rfl⟩
  | some off =>
    rw [hoff] at h
    simp only [Option.bind_eq_some] at h
    obtain ⟨edit, _, h⟩ := h
    cases edit with
    | false =>
      simp only [Bool.false_eq_true, if_false, Option.map_eq_some'] at h
      obtain ⟨_, _, h⟩ := h
      rw [← h]
      exact ⟨rfl, Or.inl rfl⟩
    | true =>
      simp only [if_true, Option.bind_eq_some, Option.map_eq_some'] at h
      obtain ⟨buf, hbuf, st2, hw, q, hq, _, _, h⟩ := h
      obtain ⟨w1, _, w3⟩ := writeMessageSelf_frame _ _ _ hw
      obtain ⟨s1, _, s3⟩ := sendMessage_frame _ _ _ hq
      rw [← h]
      refine ⟨?_, Or.inr ⟨off, rfl, ?_⟩⟩
      · show q.1.strLoc = _
        rw [s3, w3]
      · show _ = some q.1.commandString
        rw [s1, w1]
        exact hbuf

/-- C31. The slot argument has no part in the width edit. For every state, value and pair of
slots, the integer `updateDecimal` fails or completes for both slots alike and leaves the same
state (compiled command included); so does `updateStringVar`. The marker a completed call with
`editBounds` works on is the one `strstr` returns, cached in `_decLoc` (`_strLoc`): the first
place in the command where `DEC` (`STR`) stands, whatever the slot; the command is left as it
was or is the result of the width edit at that place. -/
theorem C31_edit_ignores_slot (tp : Transport) (st : VMDisplay) (v v2 x : Int)
    (text : List Nat) (editBounds : Bool) (jk : Junk) :
    (updateDecimal tp st v x editBounds jk).map (fun r => r.1)
        = (updateDecimal tp st v2 x editBounds jk).map (fun r => r.1)
      ∧ (updateStringVar tp st v text editBounds jk).map (fun r => r.1)
        = (updateStringVar tp st v2 text editBounds jk).map (fun r => r.1)
      ∧ (∀ cmd off pat, strstr cmd pat = some off →
          pat.isPrefixOf (cmd.drop off) = true
            ∧ ∀ j, j < off → pat.isPrefixOf (cmd.drop j) = false)
      ∧ (∀ cmd r, readStr st.commandString = some cmd →
          updateDecimal tp st v x true jk = some r →
          r.1.decLoc = strstr cmd (lit "DEC")
            ∧ (r.1.commandString = st.commandString
                ∨ ∃ off, strstr cmd (lit "DEC") = some off
                    ∧ decEdit st.commandString off (countDigits x) jk.chars
                        = some r.1.commandString))
      ∧ (∀ cmd r, readStr st.commandString = some cmd →
          updateStringVar tp st v text true jk = some r →
          r.1.strLoc = strstr cmd (lit "STR")
            ∧ (r.1.commandString = st.commandString
                ∨ ∃ off, strstr cmd (lit "STR") = some off
                    ∧ strEdit st.commandString off ((cstr text).length : Int) jk.chars
                        = some r.1.commandString)) :=
  ⟨updateDecimal_state_slot tp st v v2 x editBounds jk,
   updateStringVar_state_slot tp st v v2 text editBounds jk,
   fun cmd off pat h => strstr_first pat cmd off h,
   fun cmd r hcmd h => updateDecimal_target tp st v x jk cmd r hcmd h,
   fun cmd r hcmd h => updateStringVar_target tp st v text jk cmd r hcmd h⟩

set_option maxRecDepth 100000 in
/-- Instance of C31: the command `<ID 5><CLR><T><DEC 1 2 0> <DEC 2 2 0></T>` holds two numeric
fields of width 2. `updateDecimal(2, 123)` makes the width of the first field 3 and leaves the
field of variable 2 as it was; `updateDecimal(1, 123)` leaves the same state. -/
theorem C31_edit_ignores_slot_witness :
    ∃ st1 r,
      writeMessageText (VMDisplay.new 5) twoDecCommand (List.replicate 512 0) = some st1
      ∧ updateDecimal countingTransport st1 2 123 true zeroJunk = some r
      ∧ cstr r.1.commandString = lit "<ID 5><CLR><T><DEC 1 3 0> <DEC 2 2 0></T>"
      ∧ r.1.decLoc = some 15
      ∧ (updateDecimal countingTransport st1 1 123 true zeroJunk).map (fun q => q.1)
        = some r.1 := by
  obtain ⟨st1, h1, hcs1⟩ : ∃ st1,
      writeMessageText (VMDisplay.new 5) twoDecCommand (List.replicate 512 0) = some st1
      ∧ st1.commandString = twoDecCommand ++ List.replicate 471 0 :=
    ⟨_, writeMessageText_eq (VMDisplay.new 5) twoDecCommand (List.replicate 512 0)
      (by decide!) (by decide!), by decide!⟩
  have hrd2 : readStr (lit "<ID 5><CLR><T><DEC 1 3 0> <DEC 2 2 0></T>" ++ List.replicate 471 0)
      = some (lit "<ID 5><CLR><T><DEC 1 3 0> <DEC 2 2 0></T>") := by decide!
  obtain ⟨st2, hw, hcs2, hc2, hl2, hm2, hm2b⟩ : ∃ st2,
      writeMessageSelf { st1 with
          decLoc := some 15
          commandString :=
            lit "<ID 5><CLR><T><DEC 1 3 0> <DEC 2 2 0></T>" ++ List.replicate 471 0 }
        zeroJunk.words = some st2
      ∧ st2.commandString
          = lit "<ID 5><CLR><T><DEC 1 3 0> <DEC 2 2 0></T>" ++ List.replicate 471 0
      ∧ st2.completed = false ∧ st2.commandData.length = 512
      ∧ 1 ≤ st2.messageLength ∧ st2.messageLength ≤ 123 :=
    ⟨_, writeMessageSelf_eq _ zeroJunk.words
        (lit "<ID 5><CLR><T><DEC 1 3 0> <DEC 2 2 0></T>") hrd2 (by decide!) (by decide!),
      rfl, rfl, length_copyWords _ _,
      show (1 : Int) ≤ (((packed
        (lit "<ID 5><CLR><T><DEC 1 3 0> <DEC 2 2 0></T>")).length : Nat) : Int) by decide!,
      show (((packed
        (lit "<ID 5><CLR><T><DEC 1 3 0> <DEC 2 2 0></T>")).length : Nat) : Int) ≤ 123
        by decide!⟩
  have hs2 := sendMessage_one_transaction st2 hc2 hl2 hm2 hm2b
  have hu := updateDecimal_edit countingTransport st1 st2 2 123 zeroJunk twoDecCommand
    (lit "<ID 5><CLR><T><DEC 1 3 0> <DEC 2 2 0></T>" ++ List.replicate 471 0) 15 _
    (by rw [hcs1]; decide!) (by decide!) (by rw [hcs1]; decide!) (by rw [hcs1]; decide!) hw hs2
  have hslot := (C31_edit_ignores_slot countingTransport st1 1 2 123 [] true zeroJunk).1
  rw [hu] at hslot
  refine ⟨st1, _, h1, hu, ?_, ?_, hslot⟩
  · show cstr st2.commandString = _
    rw [hcs2]; decide!
  · show st2.decLoc = _
    exact (writeMessageSelf_frame _ _ _ hw).2.1

end ViewMarq
